import Mathlib

/-!
# AVR-Servo-2: configuration state machine and wear-levelled position store

A shallow embedding of `hardware.h`, `servo_position.cpp`, `servo_CVs.cpp`,
`myServo.cpp` and `configure.cpp`, followed by the properties proved about it.

Conventions of the embedding
* machine integers are natural numbers; a truncation `% 256`, `% 65536` or
  `% 4294967296` is written where the C type truncates;
* the EEPROM is a function from addresses to byte values together with the list of
  `EEPROM.update` calls made so far;
* objects (`ServoPosition`, `MyServo`, `Configure`) are structures, methods are
  functions that take the object and the hardware state and return the new ones;
* `millis()` is an argument `now` of the method that reads it (one reading per call).
-/

namespace AVRServo

/-! ## hardware.h -/

/-- Modelled from the spec: `EEPROM_SIZE` comes from the board core of the AVR64DA28 and is
not defined in the sources; `hardware.h` documents the 512 byte layout. -/
def EEPROM_SIZE : Nat := 512

def NUMBER_OF_SERVOS : Nat := 2

def NUMBER_OF_CURVES : Nat := if EEPROM_SIZE < 512 then 2 else 4

def NUMBER_OF_SERVO_CVS : Nat := 18

def START_INDEX_SERVO_CVS : Nat := 65

def START_INDEX_SERVO_CURVES : Nat :=
  START_INDEX_SERVO_CVS + (NUMBER_OF_SERVOS * NUMBER_OF_SERVO_CVS)

def EEPROM_BOOTS_INDEX : Nat := START_INDEX_SERVO_CURVES + (NUMBER_OF_CURVES * 48)

def TEMP_SIZE_CIRCULAR_BUFFER : Nat := EEPROM_SIZE - EEPROM_BOOTS_INDEX - 1

def SIZE_CIRCULAR_BUFFER : Nat :=
  if TEMP_SIZE_CIRCULAR_BUFFER > 250 then 256 else TEMP_SIZE_CIRCULAR_BUFFER

/-! ## EEPROM -/

/-- The persistent memory: the byte held by every cell, and the `EEPROM.update(address, value)`
calls made so far, oldest first. -/
structure EEPROM where
  cells : Nat → Nat
  updates : List (Nat × Nat)

/-- The call `EEPROM.read(address)`. -/
def EEPROM.read (E : EEPROM) (address : Nat) : Nat := E.cells address

/-- The call `EEPROM.update(address, value)`, `value` being a `uint8_t`. The library skips the
physical write when the cell already holds the value; the resulting content is the same. -/
def EEPROM.update (E : EEPROM) (address value : Nat) : EEPROM :=
  { cells := fun a => if a = address then value % 256 else E.cells a
    updates := E.updates ++ [(address, value % 256)] }

/-- The content of the memory cells after a list of byte writes, made oldest first. -/
def replay (cells : Nat → Nat) : List (Nat × Nat) → Nat → Nat
  | [] => cells
  | (address, value) :: rest => replay (fun a => if a = address then value else cells a) rest

/-- The memory found after a power loss that let only the first `k` of the update calls made
between `before` and `after` take effect. -/
def powerLossAfter (before after : EEPROM) (k : Nat) : EEPROM :=
  { cells := replay before.cells ((after.updates.drop before.updates.length).take k)
    updates := before.updates ++ (after.updates.drop before.updates.length).take k }

/-! ## servo_position.cpp -/

/-- The data members of `class ServoPosition`. -/
structure ServoPosition where
  firstCall : Bool
  numberOfBoots : Nat
  servoPositions : Nat → Nat

/-- Method `ServoPosition::getIndex`. -/
def ServoPosition.getIndex (sp : ServoPosition) (servoNumber : Nat) : Nat :=
  let index := EEPROM_BOOTS_INDEX + sp.numberOfBoots + servoNumber
  if index ≥ EEPROM_SIZE then index - SIZE_CIRCULAR_BUFFER else index

/-- The loop of `ServoPosition::calculateservoPositions`, `todo` iterations from `servoNr`. -/
def ServoPosition.calculateLoop (E : EEPROM) (sp : ServoPosition) :
    Nat → Nat → ServoPosition
  | 0, _ => sp
  | todo + 1, servoNr =>
    let value := E.read (sp.getIndex servoNr)
    let value := if value = 255 then 0 else value
    ServoPosition.calculateLoop E
      { sp with servoPositions := fun n => if n = servoNr then value else sp.servoPositions n }
      todo (servoNr + 1)

/-- Method `ServoPosition::calculateservoPositions`. -/
def ServoPosition.calculateservoPositions (E : EEPROM) (sp : ServoPosition) : ServoPosition :=
  ServoPosition.calculateLoop E sp NUMBER_OF_SERVOS 0

/-- The constructor `ServoPosition::ServoPosition()`; the array is zero before it is filled. -/
def ServoPosition.new (E : EEPROM) : ServoPosition :=
  let numberOfBoots := E.read EEPROM_BOOTS_INDEX
  let numberOfBoots := if numberOfBoots = 0 then 1 else numberOfBoots
  let numberOfBoots := if numberOfBoots = 255 then 1 else numberOfBoots
  ServoPosition.calculateservoPositions E
    { firstCall := true, numberOfBoots := numberOfBoots, servoPositions := fun _ => 0 }

/-- The copy loop of `ServoPosition::incrementNumberOfBoots`, counting `servoNr` down to 1. -/
def ServoPosition.shiftLoop (sp : ServoPosition) : Nat → EEPROM → EEPROM
  | 0, E => E
  | servoNr + 1, E =>
    ServoPosition.shiftLoop sp servoNr
      (E.update (sp.getIndex (servoNr + 1)) (E.read (sp.getIndex servoNr)))

/-- Method `ServoPosition::incrementNumberOfBoots`. -/
def ServoPosition.incrementNumberOfBoots (sp : ServoPosition) (E : EEPROM) :
    ServoPosition × EEPROM :=
  let sp := { sp with firstCall := false }
  let E := ServoPosition.shiftLoop sp NUMBER_OF_SERVOS E
  let sp :=
    if sp.numberOfBoots = SIZE_CIRCULAR_BUFFER then { sp with numberOfBoots := 1 }
    else { sp with numberOfBoots := (sp.numberOfBoots + 1) % 256 }
  let E := E.update EEPROM_BOOTS_INDEX sp.numberOfBoots
  (ServoPosition.calculateservoPositions E sp, E)

/-- Method `ServoPosition::saveServoPosition`. -/
def ServoPosition.saveServoPosition (sp : ServoPosition) (E : EEPROM) (number value : Nat) :
    ServoPosition × EEPROM :=
  let r := if sp.firstCall then sp.incrementNumberOfBoots E else (sp, E)
  (r.1, r.2.update (r.1.getIndex number) value)

/-- The loop of `ServoPosition::clearEEPROMCircularBufferValues`, `todo` iterations from `i`. -/
def ServoPosition.clearLoop : Nat → Nat → EEPROM → EEPROM
  | 0, _, E => E
  | todo + 1, i, E => ServoPosition.clearLoop todo (i + 1) (E.update i 255)

/-- Method `ServoPosition::clearEEPROMCircularBufferValues`. -/
def ServoPosition.clearEEPROMCircularBufferValues (sp : ServoPosition) (E : EEPROM) :
    ServoPosition × EEPROM :=
  let E := ServoPosition.clearLoop (EEPROM_SIZE - EEPROM_BOOTS_INDEX) EEPROM_BOOTS_INDEX E
  (ServoPosition.calculateservoPositions E { sp with firstCall := true, numberOfBoots := 1 }, E)

/-- A sequence of `saveServoPosition(number, value)` calls on one store object. -/
def ServoPosition.saves : List (Nat × Nat) → ServoPosition × EEPROM → ServoPosition × EEPROM
  | [], r => r
  | (number, value) :: rest, r =>
    ServoPosition.saves rest (r.1.saveServoPosition r.2 number value)

/-- A run of generation advances: `incrementNumberOfBoots` called `k` times, once per boot. -/
def ServoPosition.advances : Nat → ServoPosition × EEPROM → ServoPosition × EEPROM
  | 0, r => r
  | k + 1, r => ServoPosition.advances k (r.1.incrementNumberOfBoots r.2)

/-- One boot session: the store is constructed from the memory (the constructor only reads)
and the given `saveServoPosition(number, value)` calls are made. -/
def ServoPosition.session (E : EEPROM) (l : List (Nat × Nat)) : ServoPosition × EEPROM :=
  ServoPosition.saves l (ServoPosition.new E, E)

/-- The operations made on the position store: the construction of the object at a boot,
`saveServoPosition(number, value)` and `clearEEPROMCircularBufferValues()`. -/
inductive StoreOp where
  | construct
  | save (number value : Nat)
  | clear

/-- One operation on the store object and the memory. -/
def ServoPosition.applyOp : StoreOp → ServoPosition × EEPROM → ServoPosition × EEPROM
  | StoreOp.construct, r => (ServoPosition.new r.2, r.2)
  | StoreOp.save number value, r => r.1.saveServoPosition r.2 number value
  | StoreOp.clear, r => r.1.clearEEPROMCircularBufferValues r.2

/-- A sequence of operations on the store object and the memory, oldest first. -/
def ServoPosition.runOps : List StoreOp → ServoPosition × EEPROM → ServoPosition × EEPROM
  | [], r => r
  | op :: rest, r => ServoPosition.runOps rest (ServoPosition.applyOp op r)

/-! ## servo_CVs.h, servo_CVs.cpp -/

def INDEX : Nat := 0b00111111
def CURVE : Nat := 0b01111111
def EPROM : Nat := 0b01000000
def DIRECTION : Nat := 0b10000000

def MinLow : Nat := 0
def MinHigh : Nat := 1
def MaxLow : Nat := 2
def MaxHigh : Nat := 3
def CurveA : Nat := 4
def CurveB : Nat := 5
def Speed : Nat := 6
def InvertServoDir : Nat := 7
def InvertRelais : Nat := 8
def ServoType : Nat := 9
def PulseStartUpValue : Nat := 10
def PulseStartUpDelay : Nat := 11
def IdlePulseDefault : Nat := 12
def PulseOnBefore : Nat := 13
def PulseOffAfter : Nat := 14
def PowerWhenIdle : Nat := 15
def PowerOnBefore : Nat := 16
def PowerOffAfter : Nat := 17

/-- Function `ReadServoCV`. -/
def ReadServoCV (E : EEPROM) (servo CV : Nat) : Nat :=
  let CvIndex := START_INDEX_SERVO_CVS + (servo * NUMBER_OF_SERVO_CVS) + CV
  E.read CvIndex

/-- Function `WriteServoCV`. -/
def WriteServoCV (E : EEPROM) (servo CV value : Nat) : EEPROM :=
  let CvIndex := START_INDEX_SERVO_CVS + (servo * NUMBER_OF_SERVO_CVS) + CV
  if servo < NUMBER_OF_SERVOS then E.update CvIndex value else E

/-- Function `ReadServoMin`; the result is a `uint16_t`. -/
def ReadServoMin (E : EEPROM) (servo : Nat) : Nat :=
  let valueLow := ReadServoCV E servo MinLow
  let valueHigh := ReadServoCV E servo MinHigh
  (valueHigh * 256 + valueLow) % 65536

/-- Function `ReadServoMax`; the result is a `uint16_t`. -/
def ReadServoMax (E : EEPROM) (servo : Nat) : Nat :=
  let valueLow := ReadServoCV E servo MaxLow
  let valueHigh := ReadServoCV E servo MaxHigh
  (valueHigh * 256 + valueLow) % 65536

/-- Function `WriteServoMin`. -/
def WriteServoMin (E : EEPROM) (servo value : Nat) : EEPROM :=
  let valueLow := value % 256
  let valueHigh := (value / 256) % 256
  WriteServoCV (WriteServoCV E servo MinLow valueLow) servo MinHigh valueHigh

/-- Function `WriteServoMax`. -/
def WriteServoMax (E : EEPROM) (servo value : Nat) : EEPROM :=
  let valueLow := value % 256
  let valueHigh := (value / 256) % 256
  WriteServoCV (WriteServoCV E servo MaxLow valueLow) servo MaxHigh valueHigh

/-- The loop of step 2 of `CreateDefaultServoValuesInEEPROM`, `todo` iterations from servo
`i`. -/
def defaultServoLoop : Nat → Nat → EEPROM → EEPROM
  | 0, _, E => E
  | todo + 1, i, E =>
    let E := WriteServoMin E i 1300
    let E := WriteServoMax E i 1700
    let E := WriteServoCV E i CurveA 2
    let E := WriteServoCV E i CurveB 0
    let E := WriteServoCV E i Speed 6
    let E := WriteServoCV E i InvertServoDir 0
    let E := WriteServoCV E i InvertRelais 0
    let E := WriteServoCV E i ServoType 0
    let E := WriteServoCV E i PulseStartUpValue 1
    let E := WriteServoCV E i PulseStartUpDelay 25
    let E := WriteServoCV E i IdlePulseDefault 1
    let E := WriteServoCV E i PulseOnBefore 0
    let E := WriteServoCV E i PulseOffAfter 10
    let E := WriteServoCV E i PowerWhenIdle 0
    let E := WriteServoCV E i PowerOnBefore 0
    let E := WriteServoCV E i PowerOffAfter 10
    defaultServoLoop todo (i + 1) E

/-- The loop of step 3 of `CreateDefaultServoValuesInEEPROM`, `todo` iterations from `i`. -/
def clearCurvesLoop : Nat → Nat → EEPROM → EEPROM
  | 0, _, E => E
  | todo + 1, i, E => clearCurvesLoop todo (i + 1) (E.update i 0)

/-- Function `CreateDefaultServoValuesInEEPROM`. The call `cvValues.write(index, value)` of the
decoder core library is taken to store the byte at that EEPROM index. -/
def CreateDefaultServoValuesInEEPROM (E : EEPROM) : EEPROM :=
  let E := E.update (START_INDEX_SERVO_CVS - 1) NUMBER_OF_SERVOS
  let E := defaultServoLoop NUMBER_OF_SERVOS 0 E
  let endIndexServoCurves := START_INDEX_SERVO_CURVES + (NUMBER_OF_CURVES * 48)
  let E := clearCurvesLoop (endIndexServoCurves - START_INDEX_SERVO_CURVES)
    START_INDEX_SERVO_CURVES E
  let circularBuffer := ServoPosition.new E
  (circularBuffer.clearEEPROMCircularBufferValues E).2

/-! ## The servo library (Servo_TCA0_MoBa) and the board pins

The base class `ServoMoba` is an external library. Its calls are recorded in the order in
which they are made; the members this code reads back are kept as fields. -/

/-- The pins named in `hardware.h`. -/
inductive Pin where
  | SERVO0_PIN | SERVO1_PIN | SERVO0_ENABLE_PIN | SERVO1_ENABLE_PIN | RELAYS0_PIN | RELAYS1_PIN
  deriving DecidableEq, Repr

/-- The calls made to the servo library and to the pin functions of the board core. -/
inductive LibCall where
  | moveServoAlongCurve (direction : Nat)
  | writeMicroseconds (value : Nat)
  | powerOn
  | initCurveFromEEPROM (curve timeMultiplier startAdres : Nat)
  | initCurveFromPROGMEM (curve timeMultiplier : Nat)
  | initPower (idlePowerIsOff : Bool) (pin : Pin) (enableValue powerOnBefore powerOffAfter : Nat)
  | digitalWriteFast (pin : Pin) (value : Bool)
  | constantOutput (level : Nat)
  | delay (ms : Nat)
  | initPulse (idlePulseDefault pulseOnBefore pulseOffAfter initWidth : Nat)
  | attach (pin : Pin)
  | pinMode (pin : Pin)
  deriving DecidableEq, Repr

/-- The constants and curve tables of the servo library, which the sources use but do not
define: they are parameters of the embedding. -/
structure Lib where
  MIN_PULSE_WIDTH : Nat
  MAX_PULSE_WIDTH : Nat
  NUMBER_OF_LAST_CURVE : Nat
  firstCurvePosition : Nat → Nat → Nat → Nat
  lastCurvePosition : Nat → Nat → Nat → Nat

def SERVO_ENABLE_VALUE : Nat := 1

/-! ## myServo.h, myServo.cpp -/

/-- The data members of `class MyServo` and the members of its base class `ServoMoba` that the
sources use (`previousCurve`, `movementCompleted`, the two tresholds), with the library calls
made on this servo. -/
structure MyServo where
  previousCurve : Nat
  movementCompleted : Bool
  treshold1 : Nat
  treshold2 : Nat
  timeMultiplier : Nat
  invertPolarisationRelay : Bool
  servoNumber : Nat
  curve0 : Nat
  curve1 : Nat
  servoDirectionInverted : Bool
  calls : List LibCall

/-- Modelled from the spec: `ServoMoba::moveServoAlongCurve` is library code. The move is
recorded and the movement-completed flag is cleared; the library sets the flag again when the
move has finished (the readings between polls are inputs of the embedding). -/
def MyServo.moveServoAlongCurve (sv : MyServo) (direction : Nat) : MyServo :=
  { sv with movementCompleted := false
            calls := sv.calls ++ [LibCall.moveServoAlongCurve direction] }

/-- Modelled from the spec: `ServoMoba::initCurveFromEEPROM` is library code. The call is
recorded and the loaded curve byte becomes `previousCurve`. -/
def MyServo.initCurveFromEEPROM (sv : MyServo) (curve timeMultiplier startAdres : Nat) :
    MyServo :=
  { sv with previousCurve := curve
            calls := sv.calls ++ [LibCall.initCurveFromEEPROM curve timeMultiplier startAdres] }

/-- Modelled from the spec: `ServoMoba::initCurveFromPROGMEM` is library code. The call is
recorded and the loaded curve byte becomes `previousCurve`. -/
def MyServo.initCurveFromPROGMEM (sv : MyServo) (curve timeMultiplier : Nat) : MyServo :=
  { sv with previousCurve := curve
            calls := sv.calls ++ [LibCall.initCurveFromPROGMEM curve timeMultiplier] }

/-- The library call `powerOn()`, recorded. -/
def MyServo.powerOn (sv : MyServo) : MyServo :=
  { sv with calls := sv.calls ++ [LibCall.powerOn] }

/-- The library call `writeMicroseconds(value)`, recorded. -/
def MyServo.writeMicroseconds (sv : MyServo) (value : Nat) : MyServo :=
  { sv with calls := sv.calls ++ [LibCall.writeMicroseconds value] }

/-- The library call `setTreshold1(value)`. -/
def MyServo.setTreshold1 (sv : MyServo) (value : Nat) : MyServo := { sv with treshold1 := value }

/-- The library call `setTreshold2(value)`. -/
def MyServo.setTreshold2 (sv : MyServo) (value : Nat) : MyServo := { sv with treshold2 := value }

/-- The library call `getTreshold1()`. -/
def MyServo.getTreshold1 (sv : MyServo) : Nat := sv.treshold1

/-- The library call `getTreshold2()`. -/
def MyServo.getTreshold2 (sv : MyServo) : Nat := sv.treshold2

/-- The library call `getFirstCurvePosition()`. -/
def MyServo.getFirstCurvePosition (L : Lib) (sv : MyServo) : Nat :=
  L.firstCurvePosition sv.previousCurve sv.treshold1 sv.treshold2

/-- The library call `getLastCurvePosition()`. -/
def MyServo.getLastCurvePosition (L : Lib) (sv : MyServo) : Nat :=
  L.lastCurvePosition sv.previousCurve sv.treshold1 sv.treshold2

/-- Method `MyServo::loadCurve`. -/
def MyServo.loadCurve (L : Lib) (sv : MyServo) (curve : Nat) : MyServo :=
  let curveNumber := curve &&& INDEX
  if curve &&& EPROM ≠ 0 then
    if curveNumber < NUMBER_OF_CURVES then
      let startAdres := START_INDEX_SERVO_CURVES + (curveNumber * 48)
      sv.initCurveFromEEPROM curve sv.timeMultiplier startAdres
    else sv
  else if curveNumber ≤ L.NUMBER_OF_LAST_CURVE then
    sv.initCurveFromPROGMEM curve sv.timeMultiplier
  else sv

/-- Method `MyServo::setPolarisationRelay`; only `RELAYS0_PIN` and `RELAYS1_PIN` are defined. -/
def MyServo.setPolarisationRelay (sv : MyServo) (frogPosition : Bool) : MyServo :=
  let activateRelay := (sv.invertPolarisationRelay == frogPosition)
  match sv.servoNumber with
  | 0 => { sv with calls := sv.calls ++ [LibCall.digitalWriteFast Pin.RELAYS0_PIN activateRelay] }
  | 1 => { sv with calls := sv.calls ++ [LibCall.digitalWriteFast Pin.RELAYS1_PIN activateRelay] }
  | _ => sv

/-- Method `MyServo::set`; it uses the global `storedPositions` object and the EEPROM. -/
def MyServo.set (L : Lib) (sv : MyServo) (sp : ServoPosition) (E : EEPROM) (position : Nat) :
    MyServo × ServoPosition × EEPROM :=
  if position = 0 ∧ sv.previousCurve = sv.curve0 then (sv, sp, E)
  else if position = 1 ∧ sv.previousCurve = sv.curve1 then (sv, sp, E)
  else
    let sv :=
      if sv.previousCurve &&& CURVE = sv.curve0 &&& CURVE then
        { sv with previousCurve := sv.previousCurve ^^^ DIRECTION }
      else if position = 0 then MyServo.loadCurve L sv sv.curve0
      else MyServo.loadCurve L sv sv.curve1
    let dir := (sv.previousCurve &&& DIRECTION) >>> 7
    let sv := sv.moveServoAlongCurve dir
    let r := sp.saveServoPosition E sv.servoNumber sv.previousCurve
    (sv.setPolarisationRelay (position != 0), r.1, r.2)

/-- Method `MyServo::getPosition`. -/
def MyServo.getPosition (sv : MyServo) : Bool :=
  if sv.previousCurve = sv.curve0 then false else true

/-- Method `MyServo::configPowerSignal`; only `SERVO0_ENABLE_PIN` and `SERVO1_ENABLE_PIN` are
defined. -/
def MyServo.configPowerSignal (sv : MyServo) (E : EEPROM) : MyServo :=
  let p : Bool × Nat × Nat :=
    match ReadServoCV E sv.servoNumber ServoType with
    | 1 => (true, 0, 4)
    | 2 => (true, 0, 10)
    | 3 => (true, 0, 10)
    | 4 => (true, 0, 3)
    | _ => (ReadServoCV E sv.servoNumber PowerWhenIdle == 0,
            ReadServoCV E sv.servoNumber PowerOnBefore,
            ReadServoCV E sv.servoNumber PowerOffAfter)
  match sv.servoNumber with
  | 0 => { sv with calls := sv.calls ++
            [LibCall.initPower p.1 Pin.SERVO0_ENABLE_PIN SERVO_ENABLE_VALUE p.2.1 p.2.2] }
  | 1 => { sv with calls := sv.calls ++
            [LibCall.initPower p.1 Pin.SERVO1_ENABLE_PIN SERVO_ENABLE_VALUE p.2.1 p.2.2] }
  | _ => sv

/-- Method `MyServo::copyCurveCVs`. -/
def MyServo.copyCurveCVs (sv : MyServo) (E : EEPROM) : MyServo :=
  let curve0 := ReadServoCV E sv.servoNumber CurveA
  let curve1 := ReadServoCV E sv.servoNumber CurveB
  let curve1 := if curve1 = 0 ∨ curve1 = 255 then curve0 ^^^ 0x80 else curve1
  let curve1 := if curve1 = curve0 then curve1 ^^^ 0x80 else curve1
  { sv with curve0 := curve0, curve1 := curve1 }

/-- Method `MyServo::invertServoDirection`. -/
def MyServo.invertServoDirection (sv : MyServo) : MyServo :=
  let temp := sv.curve0
  { sv with curve0 := sv.curve1, curve1 := temp
            servoDirectionInverted := !sv.servoDirectionInverted }

def HIGH : Nat := 1

/-- Method `MyServo::pulseAfterReboot`: the library call `constantOutput` and the busy wait. -/
def MyServo.pulseAfterReboot (sv : MyServo) (level waitTime : Nat) : MyServo :=
  { sv with calls := sv.calls ++ [LibCall.constantOutput level, LibCall.delay (waitTime * 20)] }

/-- The library call `initPulse(...)`, recorded. -/
def MyServo.initPulse (sv : MyServo) (idlePulseDefault pulseOnBefore pulseOffAfter
    initWidth : Nat) : MyServo :=
  { sv with calls := sv.calls ++
      [LibCall.initPulse idlePulseDefault pulseOnBefore pulseOffAfter initWidth] }

/-- Method `MyServo::configPulseSignal`. -/
def MyServo.configPulseSignal (sv : MyServo) (E : EEPROM) (initialPulseWidth : Nat) : MyServo :=
  match ReadServoCV E sv.servoNumber ServoType with
  | 1 => (sv.pulseAfterReboot HIGH 10).initPulse 1 0 4 initialPulseWidth
  | 2 => (sv.pulseAfterReboot HIGH 10).initPulse 1 0 10 initialPulseWidth
  | 3 => (sv.pulseAfterReboot HIGH 10).initPulse 1 0 10 initialPulseWidth
  | 4 => (sv.pulseAfterReboot HIGH 10).initPulse 1 0 3 initialPulseWidth
  | _ =>
    let sv := sv.pulseAfterReboot (ReadServoCV E sv.servoNumber PulseStartUpValue)
      (ReadServoCV E sv.servoNumber PulseStartUpDelay)
    if ReadServoCV E sv.servoNumber IdlePulseDefault > 1 then
      sv.writeMicroseconds initialPulseWidth
    else
      sv.initPulse (ReadServoCV E sv.servoNumber IdlePulseDefault &&& 0x01)
        (ReadServoCV E sv.servoNumber PulseOnBefore)
        (ReadServoCV E sv.servoNumber PulseOffAfter) initialPulseWidth

/-- Method `MyServo::attachMyServo`; only `SERVO0_PIN` and `SERVO1_PIN` are defined. -/
def MyServo.attachMyServo (sv : MyServo) : MyServo :=
  match sv.servoNumber with
  | 0 => { sv with calls := sv.calls ++ [LibCall.attach Pin.SERVO0_PIN] }
  | 1 => { sv with calls := sv.calls ++ [LibCall.attach Pin.SERVO1_PIN] }
  | _ => sv

/-- Method `MyServo::initPolarisationRelay`. -/
def MyServo.initPolarisationRelay (sv : MyServo) : MyServo :=
  let sv :=
    match sv.servoNumber with
    | 0 => { sv with calls := sv.calls ++ [LibCall.pinMode Pin.RELAYS0_PIN] }
    | 1 => { sv with calls := sv.calls ++ [LibCall.pinMode Pin.RELAYS1_PIN] }
    | _ => sv
  let initialPosition : Bool := sv.previousCurve &&& DIRECTION != 0
  let initialPosition := if sv.servoDirectionInverted = true then !initialPosition
    else initialPosition
  sv.setPolarisationRelay initialPosition

/-- Method `MyServo::init`; it reads the EEPROM and the global `storedPositions` object. -/
def MyServo.init (L : Lib) (sv : MyServo) (sp : ServoPosition) (E : EEPROM) (myNumber : Nat) :
    MyServo :=
  let sv := { sv with servoNumber := myNumber }
  let sv := sv.setTreshold1 (ReadServoMin E sv.servoNumber)
  let sv := sv.setTreshold2 (ReadServoMax E sv.servoNumber)
  let sv := sv.copyCurveCVs E
  let sv := { sv with timeMultiplier := ReadServoCV E sv.servoNumber Speed }
  let sv := if ReadServoCV E sv.servoNumber InvertServoDir ≠ 0 then sv.invertServoDirection
    else sv
  let sv := { sv with previousCurve := sp.servoPositions sv.servoNumber % 256 }
  let sv := MyServo.loadCurve L sv sv.previousCurve
  let initialPulseWidth :=
    if sv.previousCurve &&& DIRECTION ≠ 0 then sv.getFirstCurvePosition L
    else sv.getLastCurvePosition L
  let sv := sv.configPulseSignal E initialPulseWidth
  let sv := sv.configPowerSignal E
  let sv := sv.attachMyServo
  let sv :=
    if ReadServoCV E sv.servoNumber InvertRelais ≠ 0 then
      { sv with invertPolarisationRelay := true }
    else { sv with invertPolarisationRelay := false }
  sv.initPolarisationRelay

/-! ## configure.h, configure.cpp -/

def F9_ATTEMPTS_REQUIRED : Nat := 2
def F9_ATTEMPTS_INTERVAL : Nat := 3000
def NUMBER_OF_SERVO_MOVES : Nat := 2
def CONFIG_STEP_TIME : Nat := 200

/-- The enumeration `State_t` of `class Configure`. -/
inductive State_t where
  | Waiting | Ready | Verify | Set | Middle | TresholdStraight | TresholdDiverging | Speed
  deriving DecidableEq, Repr

/-- The integer value of an enumerator of `State_t`. -/
def State_t.toNat : State_t → Nat
  | State_t.Waiting => 0
  | State_t.Ready => 1
  | State_t.Verify => 2
  | State_t.Set => 3
  | State_t.Middle => 4
  | State_t.TresholdStraight => 5
  | State_t.TresholdDiverging => 6
  | State_t.Speed => 7

/-- The data members of `class Configure`. The two `long` time stamps hold the 32 bit pattern
of the `millis()` value assigned to them. -/
structure Configure where
  configState : State_t
  F0F4 : Nat
  F5F8 : Nat
  F9F12 : Nat
  locoSpeed : Nat
  locoDirection : Bool
  selectedServo : Nat
  numberOfMoves : Nat
  F9_AttemptsLeft : Nat
  F9_TimeFirstPush : Nat
  lastConfigTime : Nat
  currentPulseWidth : Nat

/-- The Configure object as it is when the program starts: the member initialisers of
`configure.h`, the two members without one being zero (static storage). -/
def Configure.fresh : Configure :=
  { configState := State_t.Waiting
    F0F4 := 0
    F5F8 := 0
    F9F12 := 0
    locoSpeed := 0
    locoDirection := false
    selectedServo := 255
    numberOfMoves := NUMBER_OF_SERVO_MOVES
    F9_AttemptsLeft := F9_ATTEMPTS_REQUIRED
    F9_TimeFirstPush := 0
    lastConfigTime := 0
    currentPulseWidth := 0 }

/-- Everything outside the Configure object that its methods read or change: the EEPROM, the
global `storedPositions`, the array `servo[]` and the configuration LED. -/
structure World where
  eeprom : EEPROM
  storedPositions : ServoPosition
  servo : Nat → MyServo
  configLed : Bool

/-- Assignment to `servo[i]`. -/
def World.setServo (w : World) (i : Nat) (sv : MyServo) : World :=
  { w with servo := fun n => if n = i then sv else w.servo n }

/-- The Arduino macro `bitRead(value, bit)`. -/
def bitRead (value bit : Nat) : Nat := (value >>> bit) &&& 0x01

def Configure.F0 (c : Configure) : Nat := bitRead c.F0F4 4
def Configure.F1 (c : Configure) : Nat := bitRead c.F0F4 0
def Configure.F2 (c : Configure) : Nat := bitRead c.F0F4 1
def Configure.F3 (c : Configure) : Nat := bitRead c.F0F4 2
def Configure.F4 (c : Configure) : Nat := bitRead c.F0F4 3
def Configure.F5 (c : Configure) : Nat := bitRead c.F5F8 0
def Configure.F6 (c : Configure) : Nat := bitRead c.F5F8 1
def Configure.F7 (c : Configure) : Nat := bitRead c.F5F8 2
def Configure.F8 (c : Configure) : Nat := bitRead c.F5F8 3
def Configure.F9 (c : Configure) : Nat := bitRead c.F9F12 0

/-- The difference `millis() - stamp` of an `unsigned long` and a `long`: 32 bit unsigned. -/
def elapsed (now stamp : Nat) : Nat :=
  (now % 4294967296 + 4294967296 - stamp % 4294967296) % 4294967296

/-- Method `Configure::checkStart`; `now` is the value of `millis()`. -/
def Configure.checkStart (c : Configure) (w : World) (now value : Nat) :
    Bool × Configure × World :=
  let c := { c with F9F12 := value }
  if c.F9 ≠ 0 ∧ c.F9_AttemptsLeft = F9_ATTEMPTS_REQUIRED then
    (false, { c with F9_TimeFirstPush := now % 4294967296 }, w)
  else if elapsed now c.F9_TimeFirstPush > F9_ATTEMPTS_INTERVAL then
    (false, { c with F9_TimeFirstPush := now % 4294967296
                     F9_AttemptsLeft := F9_ATTEMPTS_REQUIRED }, w)
  else if c.F9_AttemptsLeft = 0 then
    (true, { c with configState := State_t.Ready }, { w with configLed := true })
  else if c.F9 = 0 then
    (false, { c with F9_AttemptsLeft := (c.F9_AttemptsLeft + 255) % 256 }, w)
  else (false, c, w)

def Configure.setF0F4 (c : Configure) (value : Nat) : Configure := { c with F0F4 := value }
def Configure.setF5F8 (c : Configure) (value : Nat) : Configure := { c with F5F8 := value }
def Configure.setF9F12 (c : Configure) (value : Nat) : Configure := { c with F9F12 := value }

/-- Method `Configure::setSpeed`. -/
def Configure.setSpeed (c : Configure) (speed : Nat) (dir : Bool) : Configure :=
  { c with locoSpeed := speed, locoDirection := dir }

/-- Method `Configure::validServoFromF`. -/
def Configure.validServoFromF (c : Configure) : Nat :=
  let Fs := (((c.F5F8 &&& 0b00000000) <<< 4) + (c.F0F4 &&& 0b00001111)) % 256
  let result :=
    match Fs with
    | 1 => 0
    | 2 => 1
    | 4 => 2
    | 8 => 3
    | _ => 255
  if result < NUMBER_OF_SERVOS then result else 255

/-- Method `Configure::servoDeselected`. -/
def Configure.servoDeselected (c : Configure) : Bool :=
  match c.selectedServo with
  | 0 => if c.F1 ≠ 0 then false else true
  | 1 => if c.F2 ≠ 0 then false else true
  | 2 => if c.F3 ≠ 0 then false else true
  | 3 => if c.F4 ≠ 0 then false else true
  | _ => false

/-- Method `Configure::moveServo`. -/
def Configure.moveServo (w : World) (i : Nat) : World :=
  let sv := w.servo i
  let sv := { sv with previousCurve := sv.previousCurve ^^^ DIRECTION }
  let dir := (sv.previousCurve &&& DIRECTION) >>> 7
  w.setServo i (sv.moveServoAlongCurve dir)

/-- Method `Configure::doReady`. -/
def Configure.doReady (c : Configure) (w : World) : Bool × Configure × World :=
  if c.F9 = 0 then
    (false, { c with F9_AttemptsLeft := F9_ATTEMPTS_REQUIRED, configState := State_t.Waiting },
      { w with configLed := false })
  else
    let c := { c with selectedServo := c.validServoFromF }
    if c.selectedServo < NUMBER_OF_SERVOS then
      (true, { c with configState := State_t.Verify, numberOfMoves := NUMBER_OF_SERVO_MOVES }, w)
    else (true, c, w)

/-- Method `Configure::doVerify`. -/
def Configure.doVerify (c : Configure) (w : World) : Configure × World :=
  if c.numberOfMoves > 0 then
    if (w.servo c.selectedServo).movementCompleted = true then
      let w := Configure.moveServo w c.selectedServo
      let c := { c with numberOfMoves := (c.numberOfMoves + 255) % 256 }
      if c.numberOfMoves = 0 then ({ c with configState := State_t.Set }, w) else (c, w)
    else (c, w)
  else if (w.servo c.selectedServo).movementCompleted = true then
    ({ c with configState := State_t.Set }, w)
  else (c, w)

/-- The call `servo[selectedServo].set(position)` with its effect on the global objects. -/
def World.servoSet (L : Lib) (w : World) (i position : Nat) : World :=
  let r := MyServo.set L (w.servo i) w.storedPositions w.eeprom position
  { (w.setServo i r.1) with storedPositions := r.2.1, eeprom := r.2.2 }

/-- Method `Configure::doSet`. -/
def Configure.doSet (L : Lib) (c : Configure) (w : World) : Configure × World :=
  let r : Configure × World :=
    if c.servoDeselected = true then
      ({ c with configState := State_t.Ready },
        w.setServo c.selectedServo ((w.servo c.selectedServo).configPowerSignal w.eeprom))
    else (c, w)
  let c := r.1
  let w := r.2
  let c := if c.F5 ≠ 0 then { c with configState := State_t.Middle } else c
  let c := if c.F6 ≠ 0 then { c with configState := State_t.Speed } else c
  let r : Configure × World :=
    if c.F7 ≠ 0 then
      let w := World.servoSet L w c.selectedServo 1
      if (w.servo c.selectedServo).movementCompleted = true then
        ({ c with configState := State_t.TresholdStraight }, w)
      else (c, w)
    else (c, w)
  let c := r.1
  let w := r.2
  if c.F8 ≠ 0 then
    let w := World.servoSet L w c.selectedServo 0
    if (w.servo c.selectedServo).movementCompleted = true then
      ({ c with configState := State_t.TresholdDiverging }, w)
    else (c, w)
  else (c, w)

/-- Method `Configure::doMiddle`. -/
def Configure.doMiddle (c : Configure) (w : World) : Configure × World :=
  let w := w.setServo c.selectedServo (w.servo c.selectedServo).powerOn
  if c.F5 ≠ 0 then
    let sv := w.servo c.selectedServo
    let sv := sv.writeMicroseconds 1500
    let sv := sv.setTreshold1 1500
    let sv := sv.setTreshold2 1500
    (c, w.setServo c.selectedServo sv)
  else ({ c with configState := State_t.Set }, w)

/-- Method `Configure::doSpeed`. Inside a member function of `Configure` the name `Speed` is the
enumerator `Configure::Speed` of `State_t` (class scope hides the constant `Speed` of
`servo_CVs.h`), so the CV offset passed to `WriteServoCV` and `ReadServoCV` is its value. -/
def Configure.doSpeed (L : Lib) (c : Configure) (w : World) : Configure × World :=
  if (w.servo c.selectedServo).movementCompleted = true then
    if c.F6 ≠ 0 then
      let stretch := c.locoSpeed
      let stretch := if stretch < 1 then 6 else stretch
      let sv := w.servo c.selectedServo
      let sv := { sv with timeMultiplier := stretch }
      let sv := MyServo.loadCurve L sv sv.previousCurve
      let w := w.setServo c.selectedServo sv
      let w :=
        if (w.servo c.selectedServo).getPosition = true then World.servoSet L w c.selectedServo 0
        else World.servoSet L w c.selectedServo 1
      let w :=
        if c.F0 ≠ 0 then
          { w with eeprom := WriteServoCV w.eeprom c.selectedServo State_t.Speed.toNat stretch }
        else w
      (c, w)
    else
      let sv := w.servo c.selectedServo
      let sv :=
        { sv with timeMultiplier := ReadServoCV w.eeprom c.selectedServo State_t.Speed.toNat }
      let sv := MyServo.loadCurve L sv sv.previousCurve
      ({ c with configState := State_t.Set }, w.setServo c.selectedServo sv)
  else (c, w)

/-- Method `Configure::doTresholdStraight`; `now` is the value of `millis()`. -/
def Configure.doTresholdStraight (L : Lib) (now : Nat) (c : Configure) (w : World) :
    Configure × World :=
  let w := w.setServo c.selectedServo (w.servo c.selectedServo).powerOn
  if c.F7 ≠ 0 then
    if elapsed now c.lastConfigTime > CONFIG_STEP_TIME then
      let c := { c with lastConfigTime := now % 4294967296 }
      let sv := w.servo c.selectedServo
      let treshold := sv.getTreshold2
      let servoDirection := sv.previousCurve &&& DIRECTION
      let c :=
        if servoDirection ≠ 0 then { c with currentPulseWidth := sv.getFirstCurvePosition L }
        else { c with currentPulseWidth := sv.getLastCurvePosition L }
      let treshold :=
        if c.locoSpeed < 10 then
          if c.locoDirection = true then (treshold + c.locoSpeed) % 65536
          else (treshold + 65536 - c.locoSpeed) % 65536
        else treshold
      if treshold ≥ L.MIN_PULSE_WIDTH ∧ treshold ≤ L.MAX_PULSE_WIDTH then
        let sv := sv.writeMicroseconds treshold
        let sv := sv.setTreshold2 treshold
        let w := w.setServo c.selectedServo sv
        let w :=
          if c.F0 ≠ 0 then { w with eeprom := WriteServoMax w.eeprom c.selectedServo treshold }
          else w
        (c, w)
      else (c, w)
    else (c, w)
  else ({ c with configState := State_t.Set }, w)

/-- Method `Configure::doTresholdDiverging`; `now` is the value of `millis()`. -/
def Configure.doTresholdDiverging (L : Lib) (now : Nat) (c : Configure) (w : World) :
    Configure × World :=
  let w := w.setServo c.selectedServo (w.servo c.selectedServo).powerOn
  if c.F8 ≠ 0 then
    if elapsed now c.lastConfigTime > CONFIG_STEP_TIME then
      let c := { c with lastConfigTime := now % 4294967296 }
      let sv := w.servo c.selectedServo
      let treshold := sv.getTreshold1
      let servoDirection := sv.previousCurve &&& DIRECTION
      let c :=
        if servoDirection ≠ 0 then { c with currentPulseWidth := sv.getFirstCurvePosition L }
        else { c with currentPulseWidth := sv.getLastCurvePosition L }
      let treshold :=
        if c.locoSpeed < 10 then
          if c.locoDirection = true then (treshold + 65536 - c.locoSpeed) % 65536
          else (treshold + c.locoSpeed) % 65536
        else treshold
      if treshold ≥ L.MIN_PULSE_WIDTH ∧ treshold ≤ L.MAX_PULSE_WIDTH then
        let sv := sv.writeMicroseconds treshold
        let sv := sv.setTreshold1 treshold
        let w := w.setServo c.selectedServo sv
        let w :=
          if c.F0 ≠ 0 then { w with eeprom := WriteServoMin w.eeprom c.selectedServo treshold }
          else w
        (c, w)
      else (c, w)
    else (c, w)
  else ({ c with configState := State_t.Set }, w)

/-- Method `Configure::checkConfig`; `now` is the value of `millis()`. -/
def Configure.checkConfig (L : Lib) (now : Nat) (c : Configure) (w : World) :
    Bool × Configure × World :=
  match c.configState with
  | State_t.Waiting => (true, c, w)
  | State_t.Ready => Configure.doReady c w
  | State_t.Verify => (true, Configure.doVerify c w)
  | State_t.Set => (true, Configure.doSet L c w)
  | State_t.Middle => (true, Configure.doMiddle c w)
  | State_t.Speed => (true, Configure.doSpeed L c w)
  | State_t.TresholdStraight => (true, Configure.doTresholdStraight L now c w)
  | State_t.TresholdDiverging => (true, Configure.doTresholdDiverging L now c w)

/-- A run of `checkStart(value)` calls, each with its `millis()` reading, oldest first; the
result is what the last call returned (false when there was no call) and the final state. -/
def Configure.checkStarts : List (Nat × Nat) → Bool × Configure × World → Bool × Configure × World
  | [], r => r
  | (now, value) :: rest, r => Configure.checkStarts rest (r.2.1.checkStart r.2.2 now value)

/-- One poll in the main loop while a servo is being verified: the library has set the
movement-completed flag of the selected servo to `reading`, then `checkConfig` runs. -/
def Configure.poll (L : Lib) (c : Configure) (w : World) (now : Nat) (reading : Bool) :
    Configure × World :=
  let sv := w.servo c.selectedServo
  (Configure.checkConfig L now c
    (w.setServo c.selectedServo { sv with movementCompleted := reading })).2

/-- A run of polls, each with its `millis()` value and movement-completed reading. -/
def Configure.polls (L : Lib) : List (Nat × Bool) → Configure × World → Configure × World
  | [], r => r
  | (now, reading) :: rest, r => Configure.polls L rest (Configure.poll L r.1 r.2 now reading)

/-- What can happen to a session: a call of one of the public methods of `Configure` (the
two checks with their `millis()` value), or a change made to the world by the library and the
rest of the program. -/
inductive Event where
  | setF0F4 (value : Nat)
  | setF5F8 (value : Nat)
  | setF9F12 (value : Nat)
  | setSpeed (speed : Nat) (dir : Bool)
  | checkStart (now value : Nat)
  | checkConfig (now : Nat)
  | world (w : World)

/-- The effect of one event on the session and the world. -/
def Configure.step (L : Lib) : Event → Configure × World → Configure × World
  | Event.setF0F4 value, r => (r.1.setF0F4 value, r.2)
  | Event.setF5F8 value, r => (r.1.setF5F8 value, r.2)
  | Event.setF9F12 value, r => (r.1.setF9F12 value, r.2)
  | Event.setSpeed speed dir, r => (r.1.setSpeed speed dir, r.2)
  | Event.checkStart now value, r => (r.1.checkStart r.2 now value).2
  | Event.checkConfig now, r => (Configure.checkConfig L now r.1 r.2).2
  | Event.world w, r => (r.1, w)

/-- A sequence of events, oldest first. -/
def Configure.run (L : Lib) : List Event → Configure × World → Configure × World
  | [], r => r
  | e :: rest, r => Configure.run L rest (Configure.step L e r)

/-! ## Concrete objects used to instantiate the theorems -/

/-- A new (or bulk erased) EEPROM: every cell reads 255. -/
def EEPROM.erased : EEPROM := { cells := fun _ => 255, updates := [] }

/-- An EEPROM with generation counter 1 whose two position cells hold the curve bytes 2
(servo 0) and 130 (servo 1); every other cell is erased. -/
def EEPROM.sample : EEPROM :=
  { cells := fun a => if a = 293 then 1 else if a = 294 then 2 else if a = 295 then 130 else 255
    updates := [] }

/-- A servo object with the default curve 2 loaded in both directions. -/
def MyServo.sample (servoNumber : Nat) : MyServo :=
  { previousCurve := 2
    movementCompleted := true
    treshold1 := 1300
    treshold2 := 1700
    timeMultiplier := 6
    invertPolarisationRelay := false
    servoNumber := servoNumber
    curve0 := 2
    curve1 := 130
    servoDirectionInverted := false
    calls := [] }

/-- A world built on the sample EEPROM. -/
def World.sample : World :=
  { eeprom := EEPROM.sample
    storedPositions := ServoPosition.new EEPROM.sample
    servo := MyServo.sample
    configLed := false }

/-- Library constants used to instantiate the theorems. -/
def Lib.sample : Lib :=
  { MIN_PULSE_WIDTH := 500
    MAX_PULSE_WIDTH := 2500
    NUMBER_OF_LAST_CURVE := 20
    firstCurvePosition := fun _ treshold1 _ => treshold1
    lastCurvePosition := fun _ _ treshold2 => treshold2 }

/-- The EEPROM after `CreateDefaultServoValuesInEEPROM` has run on a new device. -/
def EEPROM.factory : EEPROM := CreateDefaultServoValuesInEEPROM EEPROM.erased

/-- A servo object before `init`: every member zero (static storage). -/
def MyServo.blank : MyServo :=
  { previousCurve := 0
    movementCompleted := false
    treshold1 := 0
    treshold2 := 0
    timeMultiplier := 0
    invertPolarisationRelay := false
    servoNumber := 0
    curve0 := 0
    curve1 := 0
    servoDirectionInverted := false
    calls := [] }

/-- The world after a boot with the factory defaults: the position store constructed from the
EEPROM and every servo initialised by `MyServo::init`. -/
def World.factory : World :=
  { eeprom := EEPROM.factory
    storedPositions := ServoPosition.new EEPROM.factory
    servo := fun i =>
      MyServo.init Lib.sample MyServo.blank (ServoPosition.new EEPROM.factory) EEPROM.factory i
    configLed := true }

/-- Library constants with a maximum pulse width equal to the sample treshold 2. -/
def Lib.narrow : Lib := { Lib.sample with MAX_PULSE_WIDTH := 1700 }

/-- A session in TresholdStraight on servo 0: F1, F0 and F7 on, speed 5 forward. -/
def Configure.sampleStraight : Configure :=
  { Configure.fresh with
    configState := State_t.TresholdStraight, selectedServo := 0, F0F4 := 17, F5F8 := 4,
    F9F12 := 1, F9_AttemptsLeft := 0, numberOfMoves := 0, locoSpeed := 5, locoDirection := true }

/-- A session in Speed on servo 0: F1, F0 and F6 on, speed 3. -/
def Configure.sampleSpeed : Configure :=
  { Configure.fresh with
    configState := State_t.Speed, selectedServo := 0, F0F4 := 17, F5F8 := 2,
    F9F12 := 1, F9_AttemptsLeft := 0, numberOfMoves := 0, locoSpeed := 3 }

/-- A session in Speed on servo 0 after F6 was released: only F1 on. -/
def Configure.sampleSpeedReleased : Configure :=
  { Configure.fresh with
    configState := State_t.Speed, selectedServo := 0, F0F4 := 1, F5F8 := 0,
    F9F12 := 1, F9_AttemptsLeft := 0, numberOfMoves := 0 }

/-- A session in Set on servo 0 with the function bits given. -/
def Configure.sampleSet (F0F4 F5F8 : Nat) : Configure :=
  { Configure.fresh with
    configState := State_t.Set, selectedServo := 0, F0F4 := F0F4, F5F8 := F5F8,
    F9F12 := 1, F9_AttemptsLeft := 0, numberOfMoves := 0 }

/-- A session in Verify on servo 0 with one move left. -/
def Configure.sampleVerify : Configure :=
  { Configure.fresh with
    configState := State_t.Verify, selectedServo := 0, F0F4 := 1,
    F9F12 := 1, F9_AttemptsLeft := 0, numberOfMoves := 1 }

/-- A session in Middle on servo 0 with the function bits given. -/
def Configure.sampleMiddle (F5F8 : Nat) : Configure :=
  { Configure.fresh with
    configState := State_t.Middle, selectedServo := 0, F0F4 := 1, F5F8 := F5F8,
    F9F12 := 1, F9_AttemptsLeft := 0, numberOfMoves := 0 }

/-! ## Predicates used in the statements -/

/-- A valid store state: the generation is in 1..218 and, once the advance of this boot has
been made, it is the value held by the generation-counter cell. -/
def ValidStore (r : ServoPosition × EEPROM) : Prop :=
  1 ≤ r.1.numberOfBoots ∧ r.1.numberOfBoots ≤ 218 ∧
    (r.1.firstCall = false → r.2.cells 293 = r.1.numberOfBoots)

/-- Whether a `checkStart(value)` call made at `now` records a new window start: the two
branches of `checkStart` that assign `F9_TimeFirstPush`. -/
def Configure.recordsWindowStart (c : Configure) (now value : Nat) : Bool :=
  decide ((bitRead value 0 ≠ 0 ∧ c.F9_AttemptsLeft = F9_ATTEMPTS_REQUIRED) ∨
    elapsed now c.F9_TimeFirstPush > F9_ATTEMPTS_INTERVAL)

/-- The number of `checkStart` calls with F9 off made after the call that last recorded a window
start, along a run of calls from session `c`; `n` is the number so far. -/
def Configure.offCallsInWindow (w : World) : List (Nat × Nat) → Configure → Nat → Nat
  | [], _, n => n
  | (now, value) :: rest, c, n =>
    Configure.offCallsInWindow w rest (c.checkStart w now value).2.1
      (if c.recordsWindowStart now value then 0
       else if bitRead value 0 = 0 then n + 1 else n)

/-- The candidate treshold that `doTresholdStraight` computes from treshold 2. -/
def Configure.steppedTreshold2 (c : Configure) (treshold : Nat) : Nat :=
  if c.locoSpeed < 10 then
    if c.locoDirection = true then (treshold + c.locoSpeed) % 65536
    else (treshold + 65536 - c.locoSpeed) % 65536
  else treshold

/-- The candidate treshold that `doTresholdDiverging` computes from treshold 1. -/
def Configure.steppedTreshold1 (c : Configure) (treshold : Nat) : Nat :=
  if c.locoSpeed < 10 then
    if c.locoDirection = true then (treshold + 65536 - c.locoSpeed) % 65536
    else (treshold + c.locoSpeed) % 65536
  else treshold

/-- The number of `EEPROM.update` calls in a log that address cell `a`. -/
def updatesTo (log : List (Nat × Nat)) (a : Nat) : Nat :=
  log.countP (fun p => decide (p.1 = a))

/-- The number of times cell `a` changes its content along a log of update calls made on a
memory holding `cells`: a call with the byte that the cell already holds changes nothing. -/
def contentChanges (cells : Nat → Nat) : List (Nat × Nat) → Nat → Nat
  | [], _ => 0
  | (address, value) :: rest, a =>
    (if address = a ∧ cells a ≠ value then 1 else 0) +
      contentChanges (fun x => if x = address then value else cells x) rest a

/-- The update calls that a boot session adds to the log of the memory it started from. -/
def ServoPosition.sessionLog (E : EEPROM) (l : List (Nat × Nat)) : List (Nat × Nat) :=
  (ServoPosition.session E l).2.updates.drop E.updates.length

/-- Whether a poll made at `now` in TresholdStraight or TresholdDiverging changes a treshold of
the selected servo or makes a library call on it other than `powerOn`. -/
def Configure.stepsTreshold (L : Lib) (now : Nat) (c : Configure) (w : World) : Bool :=
  decide ((c.configState = State_t.TresholdStraight ∨
      c.configState = State_t.TresholdDiverging) ∧
    (((Configure.checkConfig L now c w).2.2.servo c.selectedServo).calls ≠
        (w.servo c.selectedServo).calls ++ [LibCall.powerOn] ∨
      ((Configure.checkConfig L now c w).2.2.servo c.selectedServo).treshold1 ≠
        (w.servo c.selectedServo).treshold1 ∨
      ((Configure.checkConfig L now c w).2.2.servo c.selectedServo).treshold2 ≠
        (w.servo c.selectedServo).treshold2))

/-- What a poll may do to the persistent memory, seen from servo `i`: world `v` has every cell
below the generation counter as in world `w`, and if `w` has a generation in 1..218 and servo
`i` a number below 2, then `v` also has every cell from address 512 on as in `w`, a generation
in 1..218 and the same bound on the number of servo `i`. -/
def World.framed (i : Nat) (w v : World) : Prop :=
  (∀ a, a < 293 → v.eeprom.cells a = w.eeprom.cells a) ∧
  (1 ≤ w.storedPositions.numberOfBoots ∧ w.storedPositions.numberOfBoots ≤ 218 ∧
      (w.servo i).servoNumber < 2 →
    (∀ a, 512 ≤ a → v.eeprom.cells a = w.eeprom.cells a) ∧
    1 ≤ v.storedPositions.numberOfBoots ∧ v.storedPositions.numberOfBoots ≤ 218 ∧
    (v.servo i).servoNumber < 2)

/-! ## Lemmas: constants and the EEPROM -/

theorem EEPROM_BOOTS_INDEX_eq : EEPROM_BOOTS_INDEX = 293 := by decide

theorem SIZE_CIRCULAR_BUFFER_eq : SIZE_CIRCULAR_BUFFER = 218 := by decide

theorem EEPROM_SIZE_eq : EEPROM_SIZE = 512 := rfl

theorem NUMBER_OF_SERVOS_eq : NUMBER_OF_SERVOS = 2 := rfl

/-- The slot address as a function of the generation: what `getIndex` computes. -/
theorem getIndex_eq (sp : ServoPosition) (n : Nat) :
    sp.getIndex n =
      if 512 ≤ 293 + sp.numberOfBoots + n then 293 + sp.numberOfBoots + n - 218
      else 293 + sp.numberOfBoots + n := by
  simp [ServoPosition.getIndex, EEPROM_BOOTS_INDEX_eq, SIZE_CIRCULAR_BUFFER_eq, EEPROM_SIZE_eq]

theorem calculateservoPositions_eq (E : EEPROM) (sp : ServoPosition) :
    ServoPosition.calculateservoPositions E sp =
      { sp with servoPositions := fun n =>
          if n = 1 then (if E.cells (sp.getIndex 1) = 255 then 0 else E.cells (sp.getIndex 1))
          else if n = 0 then
            (if E.cells (sp.getIndex 0) = 255 then 0 else E.cells (sp.getIndex 0))
          else sp.servoPositions n } := by
  rfl

theorem update_cells (E : EEPROM) (a v x : Nat) :
    (E.update a v).cells x = if x = a then v % 256 else E.cells x := rfl

theorem new_firstCall (E : EEPROM) : (ServoPosition.new E).firstCall = true := rfl

theorem new_numberOfBoots (E : EEPROM) :
    (ServoPosition.new E).numberOfBoots =
      if E.cells 293 = 0 ∨ E.cells 293 = 255 then 1 else E.cells 293 := by
  show (if (if E.cells 293 = 0 then 1 else E.cells 293) = 255 then 1
        else (if E.cells 293 = 0 then 1 else E.cells 293)) = _
  split_ifs <;> simp_all

theorem new_servoPositions (E : EEPROM) (j : Nat) (hj : j < 2) :
    (ServoPosition.new E).servoPositions j =
      if E.cells ((ServoPosition.new E).getIndex j) = 255 then 0
      else E.cells ((ServoPosition.new E).getIndex j) := by
  have h0 : ∀ n, (ServoPosition.new E).getIndex n =
      ServoPosition.getIndex { firstCall := true, numberOfBoots :=
        (if (if E.cells 293 = 0 then 1 else E.cells 293) = 255 then 1
         else (if E.cells 293 = 0 then 1 else E.cells 293)), servoPositions := fun _ => 0 } n :=
    fun _ => rfl
  rw [h0]
  show (ServoPosition.calculateservoPositions E _).servoPositions j = _
  rw [calculateservoPositions_eq]
  have : j = 0 ∨ j = 1 := by omega
  rcases this with rfl | rfl <;> simp <;> rfl

/-- What a store in a valid state looks like after one `saveServoPosition`: the advance has been
made, the generation is valid and persisted, and the cell of the saved servo holds the value. -/
theorem save_post (sp : ServoPosition) (E : EEPROM) (i v : Nat)
    (h1 : 1 ≤ sp.numberOfBoots) (h2 : sp.numberOfBoots ≤ 218)
    (hc : sp.firstCall = false → E.cells 293 = sp.numberOfBoots) (hi : i < 2) :
    (sp.saveServoPosition E i v).1.firstCall = false ∧
    1 ≤ (sp.saveServoPosition E i v).1.numberOfBoots ∧
    (sp.saveServoPosition E i v).1.numberOfBoots ≤ 218 ∧
    (sp.saveServoPosition E i v).2.cells 293 = (sp.saveServoPosition E i v).1.numberOfBoots ∧
    (sp.saveServoPosition E i v).2.cells ((sp.saveServoPosition E i v).1.getIndex i) = v % 256 := by
  cases hf : sp.firstCall with
  | false =>
    have hc := hc hf
    simp only [ServoPosition.saveServoPosition, hf, update_cells, getIndex_eq]
    simp
    refine ⟨hf, h1, h2, ?_⟩
    split_ifs <;> omega
  | true =>
    simp only [ServoPosition.saveServoPosition, hf, ServoPosition.incrementNumberOfBoots,
      calculateservoPositions_eq, SIZE_CIRCULAR_BUFFER_eq, EEPROM_BOOTS_INDEX_eq]
    by_cases hw : sp.numberOfBoots = 218
    · simp [hw, update_cells, getIndex_eq]
      split_ifs <;> omega
    · simp [hw, update_cells, getIndex_eq]
      have : (sp.numberOfBoots + 1) % 256 = sp.numberOfBoots + 1 := by omega
      rw [this]
      refine ⟨by omega, ?_⟩
      split_ifs <;> omega

theorem getIndex_congr (sp sq : ServoPosition) (h : sp.numberOfBoots = sq.numberOfBoots)
    (n : Nat) : sp.getIndex n = sq.getIndex n := by
  simp [getIndex_eq, h]

theorem validStore_new (E : EEPROM)
    (hgen : E.cells 293 = 0 ∨ E.cells 293 = 255 ∨ (1 ≤ E.cells 293 ∧ E.cells 293 ≤ 218)) :
    ValidStore (ServoPosition.new E, E) := by
  refine ⟨?_, ?_, ?_⟩
  · show 1 ≤ (ServoPosition.new E).numberOfBoots
    rw [new_numberOfBoots]; split_ifs <;> omega
  · show (ServoPosition.new E).numberOfBoots ≤ 218
    rw [new_numberOfBoots]; split_ifs <;> omega
  · intro h
    have : (ServoPosition.new E).firstCall = false := h
    rw [new_firstCall] at this
    cases this

theorem validStore_save (r : ServoPosition × EEPROM) (i v : Nat) (h : ValidStore r)
    (hi : i < 2) : ValidStore (r.1.saveServoPosition r.2 i v) := by
  obtain ⟨h1, h2, h3⟩ := h
  obtain ⟨_, q1, q2, q3, _⟩ := save_post r.1 r.2 i v h1 h2 h3 hi
  exact ⟨q1, q2, fun _ => q3⟩

theorem validStore_saves (l : List (Nat × Nat)) (r : ServoPosition × EEPROM)
    (h : ValidStore r) (hl : ∀ p ∈ l, p.1 < 2) : ValidStore (ServoPosition.saves l r) := by
  induction l generalizing r with
  | nil => exact h
  | cons p rest ih =>
    obtain ⟨number, value⟩ := p
    show ValidStore (ServoPosition.saves rest (r.1.saveServoPosition r.2 number value))
    apply ih
    · exact validStore_save r number value h (hl (number, value) (List.mem_cons_self _ _))
    · intro q hq
      exact hl q (List.mem_cons_of_mem _ hq)

/-- What the restarted store reads for servo `i` right after a save of `v` for that servo. -/
theorem restart_after_save (r : ServoPosition × EEPROM) (i v : Nat) (h : ValidStore r)
    (hi : i < 2) (hv : v < 256) :
    (ServoPosition.new (r.1.saveServoPosition r.2 i v).2).servoPositions i =
      if v = 255 then 0 else v := by
  obtain ⟨h1, h2, h3⟩ := h
  obtain ⟨_, q1, q2, q3, q4⟩ := save_post r.1 r.2 i v h1 h2 h3 hi
  have hnb : (ServoPosition.new (r.1.saveServoPosition r.2 i v).2).numberOfBoots =
      (r.1.saveServoPosition r.2 i v).1.numberOfBoots := by
    rw [new_numberOfBoots, q3]
    split_ifs <;> omega
  rw [new_servoPositions _ i hi, getIndex_congr _ _ hnb, q4, Nat.mod_eq_of_lt hv]

/-- The update calls of the first save after a boot, in the order in which they are made. -/
theorem first_save_updates (sp : ServoPosition) (E : EEPROM) (i v : Nat)
    (hf : sp.firstCall = true) :
    (sp.saveServoPosition E i v).2.updates =
      E.updates ++
        [(sp.getIndex 2, E.cells (sp.getIndex 1) % 256),
         (sp.getIndex 1, E.cells (sp.getIndex 0) % 256),
         (293, (sp.saveServoPosition E i v).1.numberOfBoots % 256),
         ((sp.saveServoPosition E i v).1.getIndex i, v % 256)] := by
  have hs : ∀ n, ServoPosition.getIndex { sp with firstCall := false } n = sp.getIndex n :=
    fun _ => rfl
  simp only [ServoPosition.saveServoPosition, hf, ServoPosition.incrementNumberOfBoots,
    calculateservoPositions_eq, EEPROM_BOOTS_INDEX_eq, if_true]
  show (EEPROM.update (EEPROM.update (EEPROM.update (EEPROM.update E _ _) _ _) _ _) _ _).updates = _
  simp only [EEPROM.update, EEPROM.read, hs, List.append_assoc, List.singleton_append,
    List.cons_append, List.nil_append]
  have hne : sp.getIndex 0 ≠ sp.getIndex 2 := by
    simp only [getIndex_eq]
    split_ifs <;> omega
  simp [hne]

theorem first_save_numberOfBoots (sp : ServoPosition) (E : EEPROM) (i v : Nat)
    (hf : sp.firstCall = true) :
    (sp.saveServoPosition E i v).1.numberOfBoots =
      if sp.numberOfBoots = 218 then 1 else (sp.numberOfBoots + 1) % 256 := by
  simp only [ServoPosition.saveServoPosition, hf, ServoPosition.incrementNumberOfBoots,
    calculateservoPositions_eq, SIZE_CIRCULAR_BUFFER_eq, if_true]
  split_ifs <;> rfl

theorem powerLossAfter_first_save (sp : ServoPosition) (E : EEPROM) (i v k : Nat)
    (hf : sp.firstCall = true) :
    (powerLossAfter E (sp.saveServoPosition E i v).2 k).cells =
      replay E.cells (List.take k
        [(sp.getIndex 2, E.cells (sp.getIndex 1) % 256),
         (sp.getIndex 1, E.cells (sp.getIndex 0) % 256),
         (293, (sp.saveServoPosition E i v).1.numberOfBoots % 256),
         ((sp.saveServoPosition E i v).1.getIndex i, v % 256)]) := by
  simp only [powerLossAfter, first_save_updates sp E i v hf, List.drop_left]

theorem replay_take_four (f : Nat → Nat) (a1 v1 a2 v2 a3 v3 a4 v4 k x : Nat) :
    replay f (List.take k [(a1, v1), (a2, v2), (a3, v3), (a4, v4)]) x =
      if 4 ≤ k ∧ x = a4 then v4 else if 3 ≤ k ∧ x = a3 then v3
      else if 2 ≤ k ∧ x = a2 then v2 else if 1 ≤ k ∧ x = a1 then v1 else f x := by
  rcases k with _ | _ | _ | _ | k <;> simp [replay]

/-- The slots of the old generation `g` and of the generation that follows it. -/
theorem slot_facts (sp sq : ServoPosition) (h1 : 1 ≤ sp.numberOfBoots)
    (h2 : sp.numberOfBoots ≤ 218)
    (hq : sq.numberOfBoots = if sp.numberOfBoots = 218 then 1 else (sp.numberOfBoots + 1) % 256) :
    sq.getIndex 0 = sp.getIndex 1 ∧ sq.getIndex 1 = sp.getIndex 2 ∧
    sp.getIndex 0 ≠ sp.getIndex 1 ∧ sp.getIndex 0 ≠ sp.getIndex 2 ∧
    sp.getIndex 1 ≠ sp.getIndex 2 ∧
    sp.getIndex 0 ≠ 293 ∧ sp.getIndex 1 ≠ 293 ∧ sp.getIndex 2 ≠ 293 ∧
    1 ≤ sq.numberOfBoots ∧ sq.numberOfBoots ≤ 218 := by
  simp only [getIndex_eq, hq]
  split_ifs <;> omega

/-- The positions a restart finds when the first save after a boot was cut off after `k` of its
update calls. -/
theorem restart_after_power_loss (E : EEPROM) (hbytes : ∀ a, E.cells a < 256)
    (hgen : E.cells 293 = 0 ∨ E.cells 293 = 255 ∨ (1 ≤ E.cells 293 ∧ E.cells 293 ≤ 218))
    (i v j k : Nat) (hi : i < 2) (hj : j < 2) (hji : j ≠ i) :
    (ServoPosition.new
        (powerLossAfter E ((ServoPosition.new E).saveServoPosition E i v).2 k)).servoPositions j =
      if k = 2 ∧ j = 1 then (ServoPosition.new E).servoPositions 0
      else (ServoPosition.new E).servoPositions j := by
  have hf := new_firstCall E
  obtain ⟨g1, g2, -⟩ := validStore_new E hgen
  simp only [] at g1 g2
  have hnb := first_save_numberOfBoots (ServoPosition.new E) E i v hf
  obtain ⟨e0, e1, n01, n02, n12, z0, z1, z2, q1, q2⟩ :=
    slot_facts (ServoPosition.new E) ((ServoPosition.new E).saveServoPosition E i v).1 g1 g2 hnb
  have hcells := powerLossAfter_first_save (ServoPosition.new E) E i v k hf
  have hP : ∀ x, (powerLossAfter E ((ServoPosition.new E).saveServoPosition E i v).2 k).cells x
      = _ := fun x => by rw [hcells, replay_take_four]
  have hb0 := hbytes ((ServoPosition.new E).getIndex 0)
  have hb1 := hbytes ((ServoPosition.new E).getIndex 1)
  have hj' : j = 0 ∨ j = 1 := by omega
  have hi' : i = 0 ∨ i = 1 := by omega
  rw [new_servoPositions _ j hj, new_servoPositions E 0 (by omega), new_servoPositions E j hj]
  by_cases hk : k ≤ 2
  · have h293 : (powerLossAfter E ((ServoPosition.new E).saveServoPosition E i v).2 k).cells 293
        = E.cells 293 := by
      rw [hP]
      have : ¬ 3 ≤ k := by omega
      have : ¬ 4 ≤ k := by omega
      simp [*, Ne.symm z1, Ne.symm z2]
    have hg : (ServoPosition.new (powerLossAfter E
        ((ServoPosition.new E).saveServoPosition E i v).2 k)).numberOfBoots
        = (ServoPosition.new E).numberOfBoots := by
      rw [new_numberOfBoots, new_numberOfBoots, h293]
    rw [getIndex_congr _ _ hg, hP]
    have : ¬ 3 ≤ k := by omega
    have : ¬ 4 ≤ k := by omega
    rcases hj' with rfl | rfl
    · simp [*]
    · by_cases hk2 : k = 2
      · subst hk2
        simp [*, Nat.mod_eq_of_lt hb0]
      · have : ¬ 2 ≤ k := by omega
        simp [*]
  · have h3 : 3 ≤ k := by omega
    have hne : ∀ n, ((ServoPosition.new E).saveServoPosition E i v).1.getIndex n ≠ 293 := by
      intro n
      rw [getIndex_eq]
      split_ifs <;> omega
    have h293 : (powerLossAfter E ((ServoPosition.new E).saveServoPosition E i v).2 k).cells 293
        = ((ServoPosition.new E).saveServoPosition E i v).1.numberOfBoots := by
      rw [hP]
      simp [h3, Ne.symm (hne i)]
      omega
    have hg : (ServoPosition.new (powerLossAfter E
        ((ServoPosition.new E).saveServoPosition E i v).2 k)).numberOfBoots
        = ((ServoPosition.new E).saveServoPosition E i v).1.numberOfBoots := by
      rw [new_numberOfBoots, h293]
      split_ifs <;> omega
    have hk2 : ¬ k = 2 := by omega
    have h2 : 2 ≤ k := by omega
    have h1 : 1 ≤ k := by omega
    rw [getIndex_congr _ _ hg, hP]
    rcases hj' with rfl | rfl <;> rcases hi' with rfl | rfl
    · exact absurd rfl hji
    · simp [*, Nat.mod_eq_of_lt hb0, Nat.mod_eq_of_lt hb1, Ne.symm n12]
    · simp [*, Nat.mod_eq_of_lt hb0, Nat.mod_eq_of_lt hb1, Ne.symm n12]
    · exact absurd rfl hji

/-! ## The position store: restart and power loss -/

/-- C1. Position round trip across restart: for every memory content whose stored generation
counter is 0, 255 or in 1..SIZE_CIRCULAR_BUFFER, after any earlier saves of this boot, for every
servo `i < NUMBER_OF_SERVOS` and every byte `v` other than 255, `saveServoPosition(i, v)`
followed by the construction of a new `ServoPosition` from the resulting memory gives
`servoPositions[i] == v`. -/
theorem saveServoPosition_restart_roundtrip (E : EEPROM)
    (hgen : E.read EEPROM_BOOTS_INDEX = 0 ∨ E.read EEPROM_BOOTS_INDEX = 255 ∨
      (1 ≤ E.read EEPROM_BOOTS_INDEX ∧ E.read EEPROM_BOOTS_INDEX ≤ SIZE_CIRCULAR_BUFFER))
    (earlier : List (Nat × Nat)) (hearlier : ∀ p ∈ earlier, p.1 < NUMBER_OF_SERVOS)
    (i v : Nat) (hi : i < NUMBER_OF_SERVOS) (hv : v < 256) (hv255 : v ≠ 255) :
    (ServoPosition.new
      ((ServoPosition.saves earlier (ServoPosition.new E, E)).1.saveServoPosition
        (ServoPosition.saves earlier (ServoPosition.new E, E)).2 i v).2).servoPositions i = v := by
  have hvalid := validStore_saves earlier (ServoPosition.new E, E) (validStore_new E hgen) hearlier
  rw [restart_after_save _ i v hvalid hi hv, if_neg hv255]

theorem saveServoPosition_restart_roundtrip_witness :
    (ServoPosition.new
      ((ServoPosition.saves [(0, 130)] (ServoPosition.new EEPROM.sample,
          EEPROM.sample)).1.saveServoPosition
        (ServoPosition.saves [(0, 130)] (ServoPosition.new EEPROM.sample, EEPROM.sample)).2
        1 2).2).servoPositions 1 = 2 :=
  saveServoPosition_restart_roundtrip EEPROM.sample (by decide) [(0, 130)] (by decide) 1 2
    (by decide) (by decide) (by decide)

/-- C2, as stated, fails: generation 1, servo 0 at curve byte 2, servo 1 at curve byte 130.
The first save after the boot, `saveServoPosition(0, 130)`, is cut off after its second update
call (both copies made, generation counter not yet written). The restarted store reads 2 for
servo 1, which was 130 before the save and is not the servo being saved. -/
theorem power_loss_loses_other_servo :
    (ServoPosition.new EEPROM.sample).servoPositions 1 = 130 ∧
    (ServoPosition.new (powerLossAfter EEPROM.sample
      ((ServoPosition.new EEPROM.sample).saveServoPosition EEPROM.sample 0 130).2
      2)).servoPositions 1 = 2 := by
  decide

/-- C2, amended. For every memory of bytes with a valid generation counter, every servo `i`,
value `v`, every other servo `j` and every number `k` of update calls of the first save after a
boot that took effect before the power was lost: the save makes NUMBER_OF_SERVOS + 2 update
calls; the restarted store reads for `j` the position it had before the save, except when the
cut falls after the last copy and before the write of the generation counter
(`k = NUMBER_OF_SERVOS`), where servo 0 still reads its own position and servo 1 reads the
position servo 0 had. -/
theorem power_loss_between_updates (E : EEPROM) (hbytes : ∀ a, E.read a < 256)
    (hgen : E.read EEPROM_BOOTS_INDEX = 0 ∨ E.read EEPROM_BOOTS_INDEX = 255 ∨
      (1 ≤ E.read EEPROM_BOOTS_INDEX ∧ E.read EEPROM_BOOTS_INDEX ≤ SIZE_CIRCULAR_BUFFER))
    (i v j k : Nat) (hi : i < NUMBER_OF_SERVOS) (hj : j < NUMBER_OF_SERVOS) (hji : j ≠ i) :
    ((ServoPosition.new E).saveServoPosition E i v).2.updates.length =
      E.updates.length + (NUMBER_OF_SERVOS + 2) ∧
    (k ≠ NUMBER_OF_SERVOS ∨ j = 0 →
      (ServoPosition.new (powerLossAfter E
        ((ServoPosition.new E).saveServoPosition E i v).2 k)).servoPositions j =
      (ServoPosition.new E).servoPositions j) ∧
    (k = NUMBER_OF_SERVOS ∧ j = 1 →
      (ServoPosition.new (powerLossAfter E
        ((ServoPosition.new E).saveServoPosition E i v).2 k)).servoPositions j =
      (ServoPosition.new E).servoPositions 0) := by
  have h := restart_after_power_loss E hbytes hgen i v j k hi hj hji
  refine ⟨?_, ?_, ?_⟩
  · rw [first_save_updates _ E i v (new_firstCall E)]
    simp [NUMBER_OF_SERVOS_eq]
  · intro hk
    rw [h, if_neg]
    rw [NUMBER_OF_SERVOS_eq] at hk
    omega
  · intro hk
    rw [h, if_pos]
    rw [NUMBER_OF_SERVOS_eq] at hk
    exact hk

theorem power_loss_between_updates_witness :
    (ServoPosition.new (powerLossAfter EEPROM.sample
      ((ServoPosition.new EEPROM.sample).saveServoPosition EEPROM.sample 0 130).2
      3)).servoPositions 1 = (ServoPosition.new EEPROM.sample).servoPositions 1 :=
  (power_loss_between_updates EEPROM.sample
    (by intro a; simp only [EEPROM.read, EEPROM.sample]; split_ifs <;> omega)
    (by decide) 0 130 1 3 (by decide) (by decide) (by decide)).2.1 (by decide)

/-! ## Lemmas: bits and time -/

theorem bitRead_eq (v k : Nat) : bitRead v k = v / 2 ^ k % 2 := by
  simp [bitRead, Nat.shiftRight_eq_div_pow, Nat.and_one_is_mod]

theorem elapsed_within (t now : Nat) (h1 : t ≤ now) (h2 : now ≤ t + 3000) :
    ¬ elapsed now (t % 4294967296) > F9_ATTEMPTS_INTERVAL := by
  simp only [elapsed, F9_ATTEMPTS_INTERVAL]
  omega

/-- What `validServoFromF` returns, in terms of the four selector bits of `F0F4`. -/
theorem validServoFromF_eq (c : Configure) :
    c.validServoFromF = if c.F0F4 % 16 = 1 then 0 else if c.F0F4 % 16 = 2 then 1 else 255 := by
  have hfs : (((c.F5F8 &&& 0b00000000) <<< 4) + (c.F0F4 &&& 0b00001111)) % 256
      = c.F0F4 % 16 := by
    have h15 : c.F0F4 &&& 15 = c.F0F4 % 16 := Nat.and_pow_two_sub_one_eq_mod c.F0F4 4
    simp only [Nat.and_zero, Nat.zero_shiftLeft, Nat.zero_add, h15]
    omega
  simp only [Configure.validServoFromF, hfs]
  have hlt : c.F0F4 % 16 < 16 := Nat.mod_lt _ (by decide)
  generalize c.F0F4 % 16 = m at hlt
  interval_cases m <;> simp [NUMBER_OF_SERVOS]

theorem selector_bits (x i : Nat) (hi : i < 2) :
    (∀ k, k < 4 → (bitRead x k ≠ 0 ↔ k = i)) ↔ x % 16 = 2 ^ i := by
  constructor
  · intro h
    have h0 := h 0 (by omega)
    have h1 := h 1 (by omega)
    have h2 := h 2 (by omega)
    have h3 := h 3 (by omega)
    simp only [bitRead_eq] at h0 h1 h2 h3
    norm_num at h0 h1 h2 h3
    interval_cases i <;> omega
  · intro h k hk
    simp only [bitRead_eq]
    interval_cases i <;> interval_cases k <;> norm_num at h ⊢ <;> omega

theorem selector_bits_mod (x y : Nat) (h : ∀ k, k < 4 → bitRead x k = bitRead y k) :
    x % 16 = y % 16 := by
  have h0 := h 0 (by omega)
  have h1 := h 1 (by omega)
  have h2 := h 2 (by omega)
  have h3 := h 3 (by omega)
  simp only [bitRead_eq] at h0 h1 h2 h3
  norm_num at h0 h1 h2 h3
  omega

/-- The outcome of `doReady` while F9 is on. -/
theorem doReady_eq (c : Configure) (w : World) (h9 : c.F9 ≠ 0) :
    Configure.doReady c w =
      if c.F0F4 % 16 = 1 then
        (true, { c with selectedServo := 0, configState := State_t.Verify,
                        numberOfMoves := NUMBER_OF_SERVO_MOVES }, w)
      else if c.F0F4 % 16 = 2 then
        (true, { c with selectedServo := 1, configState := State_t.Verify,
                        numberOfMoves := NUMBER_OF_SERVO_MOVES }, w)
      else (true, { c with selectedServo := 255 }, w) := by
  simp only [Configure.doReady, if_neg h9, validServoFromF_eq, NUMBER_OF_SERVOS]
  split_ifs <;> simp_all

theorem checkConfig_ready (L : Lib) (now : Nat) (c : Configure) (w : World)
    (hs : c.configState = State_t.Ready) :
    Configure.checkConfig L now c w = Configure.doReady c w := by
  simp only [Configure.checkConfig, hs]

/-- In Ready with F9 on and only F1 set, a poll selects servo 0 and moves to Verify. -/
theorem checkConfig_ready_F1 (L : Lib) (now : Nat) (c : Configure) (w : World)
    (hs : c.configState = State_t.Ready) (h9 : c.F9F12 = 1) :
    (Configure.checkConfig L now (c.setF0F4 1) w).2.1.configState = State_t.Verify ∧
    (Configure.checkConfig L now (c.setF0F4 1) w).2.1.selectedServo = 0 := by
  have hc := checkConfig_ready L now (c.setF0F4 1) w hs
  have h9 : (c.setF0F4 1).F9 ≠ 0 := by
    have hf : (c.setF0F4 1).F9 = bitRead c.F9F12 0 := rfl
    rw [hf, h9]
    decide
  have hm : (c.setF0F4 1).F0F4 % 16 = 1 := rfl
  rw [hc, doReady_eq _ _ h9, if_pos hm]
  exact ⟨rfl, rfl⟩

/-! ## Entering configuration mode -/

/-- Five `checkStart` calls from a fresh session with F9 on, off, on, off, on, all within the
interval after the first: what each call returns and the state it leaves. -/
theorem checkStarts_five_calls (w : World) (t1 t2 t3 t4 t5 v1 v2 v3 v4 v5 : Nat)
    (h1 : bitRead v1 0 = 1) (h2 : bitRead v2 0 = 0) (h3 : bitRead v3 0 = 1)
    (h4 : bitRead v4 0 = 0) (h5 : bitRead v5 0 = 1)
    (h12 : t1 ≤ t2) (h23 : t2 ≤ t3) (h34 : t3 ≤ t4) (h45 : t4 ≤ t5)
    (hwin : t5 ≤ t1 + 3000) :
    (Configure.checkStarts [(t1, v1)] (false, Configure.fresh, w)).1 = false ∧
    (Configure.checkStarts [(t1, v1)] (false, Configure.fresh, w)).2.1.configState
      = State_t.Waiting ∧
    (Configure.checkStarts [(t1, v1), (t2, v2)] (false, Configure.fresh, w)).1 = false ∧
    (Configure.checkStarts [(t1, v1), (t2, v2)] (false, Configure.fresh, w)).2.1.configState
      = State_t.Waiting ∧
    (Configure.checkStarts [(t1, v1), (t2, v2), (t3, v3)] (false, Configure.fresh, w)).1
      = false ∧
    (Configure.checkStarts [(t1, v1), (t2, v2), (t3, v3)]
      (false, Configure.fresh, w)).2.1.configState = State_t.Waiting ∧
    (Configure.checkStarts [(t1, v1), (t2, v2), (t3, v3), (t4, v4)]
      (false, Configure.fresh, w)).1 = false ∧
    (Configure.checkStarts [(t1, v1), (t2, v2), (t3, v3), (t4, v4)]
      (false, Configure.fresh, w)).2.1.configState = State_t.Waiting ∧
    (Configure.checkStarts [(t1, v1), (t2, v2), (t3, v3), (t4, v4), (t5, v5)]
      (false, Configure.fresh, w)).1 = true ∧
    (Configure.checkStarts [(t1, v1), (t2, v2), (t3, v3), (t4, v4), (t5, v5)]
      (false, Configure.fresh, w)).2.1.configState = State_t.Ready ∧
    (Configure.checkStarts [(t1, v1), (t2, v2), (t3, v3), (t4, v4), (t5, v5)]
      (false, Configure.fresh, w)).2.1.F9F12 = v5 := by
  have e2 := elapsed_within t1 t2 h12 (by omega)
  have e3 := elapsed_within t1 t3 (by omega) (by omega)
  have e4 := elapsed_within t1 t4 (by omega) (by omega)
  have e5 := elapsed_within t1 t5 (by omega) (by omega)
  simp [Configure.checkStarts, Configure.checkStart, Configure.fresh, Configure.F9, h1, h2, h3,
    h4, h5, e2, e3, e4, e5, F9_ATTEMPTS_REQUIRED]

/-- C3. From a fresh session, five `checkStart` calls with F9 on, off, on, off, on, made at
non-decreasing times that are all at most F9_ATTEMPTS_INTERVAL after the first call: the first
four calls return false and leave the state Waiting, the fifth returns true and sets the state
to Ready. -/
theorem checkStart_enters_on_fifth_call (w : World) (t1 t2 t3 t4 t5 v1 v2 v3 v4 v5 : Nat)
    (h1 : bitRead v1 0 = 1) (h2 : bitRead v2 0 = 0) (h3 : bitRead v3 0 = 1)
    (h4 : bitRead v4 0 = 0) (h5 : bitRead v5 0 = 1)
    (h12 : t1 ≤ t2) (h23 : t2 ≤ t3) (h34 : t3 ≤ t4) (h45 : t4 ≤ t5)
    (hwin : t5 ≤ t1 + F9_ATTEMPTS_INTERVAL) :
    (Configure.checkStarts [(t1, v1)] (false, Configure.fresh, w)).1 = false ∧
    (Configure.checkStarts [(t1, v1)] (false, Configure.fresh, w)).2.1.configState
      = State_t.Waiting ∧
    (Configure.checkStarts [(t1, v1), (t2, v2)] (false, Configure.fresh, w)).1 = false ∧
    (Configure.checkStarts [(t1, v1), (t2, v2)] (false, Configure.fresh, w)).2.1.configState
      = State_t.Waiting ∧
    (Configure.checkStarts [(t1, v1), (t2, v2), (t3, v3)] (false, Configure.fresh, w)).1
      = false ∧
    (Configure.checkStarts [(t1, v1), (t2, v2), (t3, v3)]
      (false, Configure.fresh, w)).2.1.configState = State_t.Waiting ∧
    (Configure.checkStarts [(t1, v1), (t2, v2), (t3, v3), (t4, v4)]
      (false, Configure.fresh, w)).1 = false ∧
    (Configure.checkStarts [(t1, v1), (t2, v2), (t3, v3), (t4, v4)]
      (false, Configure.fresh, w)).2.1.configState = State_t.Waiting ∧
    (Configure.checkStarts [(t1, v1), (t2, v2), (t3, v3), (t4, v4), (t5, v5)]
      (false, Configure.fresh, w)).1 = true ∧
    (Configure.checkStarts [(t1, v1), (t2, v2), (t3, v3), (t4, v4), (t5, v5)]
      (false, Configure.fresh, w)).2.1.configState = State_t.Ready := by
  obtain ⟨a1, a2, a3, a4, a5, a6, a7, a8, a9, a10, -⟩ :=
    checkStarts_five_calls w t1 t2 t3 t4 t5 v1 v2 v3 v4 v5 h1 h2 h3 h4 h5 h12 h23 h34 h45 hwin
  exact ⟨a1, a2, a3, a4, a5, a6, a7, a8, a9, a10⟩

theorem checkStart_enters_on_fifth_call_witness :
    (Configure.checkStarts [(0, 1), (10, 0), (20, 1), (30, 0), (40, 1)]
      (false, Configure.fresh, World.sample)).1 = true :=
  (checkStart_enters_on_fifth_call World.sample 0 10 20 30 40 1 0 1 0 1 (by decide) (by decide)
    (by decide) (by decide) (by decide) (by decide) (by decide) (by decide) (by decide)
    (by decide)).2.2.2.2.2.2.2.2.1

theorem checkStart_session_independent (c : Configure) (w1 w2 : World) (now value : Nat) :
    (c.checkStart w1 now value).2.1 = (c.checkStart w2 now value).2.1 ∧
    (c.checkStart w1 now value).1 = (c.checkStart w2 now value).1 := by
  simp only [Configure.checkStart]
  split_ifs <;> exact ⟨rfl, rfl⟩

/-- One `checkStart` call keeps attempts-remaining at most 2 and keeps the sum of
attempts-remaining and the number of F9-off calls in the window at least 2. -/
theorem checkStart_step (c : Configure) (w : World) (now value n : Nat)
    (h1 : c.F9_AttemptsLeft ≤ 2) (h2 : 2 ≤ c.F9_AttemptsLeft + n) :
    (c.checkStart w now value).2.1.F9_AttemptsLeft ≤ 2 ∧
    2 ≤ (c.checkStart w now value).2.1.F9_AttemptsLeft +
      (if c.recordsWindowStart now value then 0
       else if bitRead value 0 = 0 then n + 1 else n) := by
  simp only [Configure.checkStart, Configure.recordsWindowStart, Configure.F9,
    F9_ATTEMPTS_REQUIRED]
  by_cases a : bitRead value 0 ≠ 0 ∧ c.F9_AttemptsLeft = 2
  · simp [a]
  · rw [if_neg a]
    by_cases b : elapsed now c.F9_TimeFirstPush > F9_ATTEMPTS_INTERVAL
    · simp [b]
    · rw [if_neg b]
      have hdec : ¬ ((bitRead value 0 ≠ 0 ∧ c.F9_AttemptsLeft = 2) ∨
          elapsed now c.F9_TimeFirstPush > F9_ATTEMPTS_INTERVAL) := by
        tauto
      simp only [hdec, decide_False, Bool.false_eq_true, if_false]
      by_cases z : c.F9_AttemptsLeft = 0
      · simp only [z, if_true]
        split_ifs <;> omega
      · rw [if_neg z]
        by_cases f : bitRead value 0 = 0
        · simp only [f, if_true]
          omega
        · simp only [f, if_false]
          omega

theorem checkStarts_invariant (w : World) (calls : List (Nat × Nat))
    (r : Bool × Configure × World) (n : Nat)
    (h1 : r.2.1.F9_AttemptsLeft ≤ 2) (h2 : 2 ≤ r.2.1.F9_AttemptsLeft + n) :
    (Configure.checkStarts calls r).2.1.F9_AttemptsLeft ≤ 2 ∧
    2 ≤ (Configure.checkStarts calls r).2.1.F9_AttemptsLeft +
      Configure.offCallsInWindow w calls r.2.1 n := by
  induction calls generalizing r n with
  | nil => exact ⟨h1, h2⟩
  | cons p rest ih =>
    obtain ⟨now, value⟩ := p
    obtain ⟨s1, s2⟩ := checkStart_step r.2.1 r.2.2 now value n h1 h2
    have hi := (checkStart_session_independent r.2.1 r.2.2 w now value).1
    have := ih (r.2.1.checkStart r.2.2 now value) _ s1 s2
    simp only [Configure.checkStarts, Configure.offCallsInWindow]
    rw [← hi]
    exact this

/-- C4, as stated, fails. From a fresh session, `checkStart` is called four times with F9 off,
at 5000, 5001, 5002 and 5003 ms: the fourth call returns true although F9 was never on, so it
never went from on to off; and the second call decrements attempts-remaining from 2 to 1 although
F9 was already off in the call before it. -/
theorem checkStart_counts_off_calls_not_edges :
    (Configure.checkStarts [(5000, 0), (5001, 0), (5002, 0), (5003, 0)]
      (false, Configure.fresh, World.sample)).1 = true ∧
    (∀ p ∈ [(5000, 0), (5001, 0), (5002, 0), (5003, 0)], bitRead p.2 0 = 0) ∧
    (Configure.checkStarts [(5000, 0)]
      (false, Configure.fresh, World.sample)).2.1.F9_AttemptsLeft = 2 ∧
    (Configure.checkStarts [(5000, 0), (5001, 0)]
      (false, Configure.fresh, World.sample)).2.1.F9_AttemptsLeft = 1 := by
  decide

/-- C4, amended. For every run of `checkStart` calls from a fresh session: if the next call
returns true then, among the calls made after the one that last recorded a window start, at
least F9_ATTEMPTS_REQUIRED had F9 off; and a call that lowers attempts-remaining has F9 off and
lowers it by exactly one (whether F9 was on or off in the call before). -/
theorem checkStart_entry_needs_off_calls (w : World) (calls : List (Nat × Nat))
    (now value : Nat) :
    (((Configure.checkStarts calls (false, Configure.fresh, w)).2.1.checkStart
        (Configure.checkStarts calls (false, Configure.fresh, w)).2.2 now value).1 = true →
      F9_ATTEMPTS_REQUIRED ≤ Configure.offCallsInWindow w calls Configure.fresh 0) ∧
    (((Configure.checkStarts calls (false, Configure.fresh, w)).2.1.checkStart
        (Configure.checkStarts calls (false, Configure.fresh, w)).2.2 now value).2.1.F9_AttemptsLeft
        < (Configure.checkStarts calls (false, Configure.fresh, w)).2.1.F9_AttemptsLeft →
      bitRead value 0 = 0 ∧
      ((Configure.checkStarts calls (false, Configure.fresh, w)).2.1.checkStart
        (Configure.checkStarts calls (false, Configure.fresh, w)).2.2 now value).2.1.F9_AttemptsLeft
        + 1 = (Configure.checkStarts calls (false, Configure.fresh, w)).2.1.F9_AttemptsLeft) := by
  obtain ⟨i1, i2⟩ := checkStarts_invariant w calls (false, Configure.fresh, w) 0
    (Nat.le_refl 2) (Nat.le_refl 2)
  generalize Configure.checkStarts calls (false, Configure.fresh, w) = r at i1 i2 ⊢
  have i2 : 2 ≤ r.2.1.F9_AttemptsLeft + Configure.offCallsInWindow w calls Configure.fresh 0 := i2
  simp only [Configure.checkStart, Configure.F9, F9_ATTEMPTS_REQUIRED]
  by_cases a : bitRead value 0 ≠ 0 ∧ r.2.1.F9_AttemptsLeft = 2
  · simp [a]
  · rw [if_neg a]
    by_cases b : elapsed now r.2.1.F9_TimeFirstPush > F9_ATTEMPTS_INTERVAL
    · simp only [b, if_true]
      refine ⟨by simp, ?_⟩
      intro h
      have h : 2 < r.2.1.F9_AttemptsLeft := h
      omega
    · rw [if_neg b]
      by_cases z : r.2.1.F9_AttemptsLeft = 0
      · simp only [z, if_true]
        refine ⟨fun _ => by omega, ?_⟩
        intro h
        exact absurd h (Nat.lt_irrefl _)
      · rw [if_neg z]
        by_cases f : bitRead value 0 = 0
        · simp only [f, if_true]
          refine ⟨by simp, fun _ => ⟨trivial, ?_⟩⟩
          show (r.2.1.F9_AttemptsLeft + 255) % 256 + 1 = r.2.1.F9_AttemptsLeft
          omega
        · simp only [f, if_false]
          refine ⟨by simp, ?_⟩
          intro h
          have h : r.2.1.F9_AttemptsLeft < r.2.1.F9_AttemptsLeft := h
          omega

theorem checkStart_entry_needs_off_calls_witness :
    F9_ATTEMPTS_REQUIRED ≤
      Configure.offCallsInWindow World.sample [(0, 1), (10, 0), (20, 1), (30, 0)]
        Configure.fresh 0 :=
  (checkStart_entry_needs_off_calls World.sample [(0, 1), (10, 0), (20, 1), (30, 0)] 40 1).1
    (by decide)

/-- C5, as stated, fails. From a fresh session, `checkStart` is called with F9 on at 0 ms and
with F9 off at 10, 20 and 30 ms: the fourth call returns true and its F9 bit is off. -/
theorem checkStart_signals_entry_with_F9_off :
    (Configure.checkStarts [(0, 1), (10, 0), (20, 0), (30, 0)]
      (false, Configure.fresh, World.sample)).1 = true ∧
    (Configure.checkStarts [(0, 1), (10, 0), (20, 0), (30, 0)]
      (false, Configure.fresh, World.sample)).2.1.F9 = 0 := by
  decide

/-- C5, amended. For every session state and every `checkStart` call that returns true:
attempts-remaining was already zero before the call and is not changed by it (the call that makes
the last decrement does not itself signal entry), the state becomes Ready and the LED is turned
on. The F9 bit of the signalling call is not examined; when it is off, the next `checkConfig`
poll leaves configuration mode at once (returns false, state Waiting). -/
theorem checkStart_true_only_after_exhaustion (L : Lib) (c : Configure) (w : World)
    (now value later : Nat) (h : (c.checkStart w now value).1 = true) :
    c.F9_AttemptsLeft = 0 ∧
    (c.checkStart w now value).2.1.F9_AttemptsLeft = 0 ∧
    (c.checkStart w now value).2.1.configState = State_t.Ready ∧
    (c.checkStart w now value).2.2.configLed = true ∧
    (bitRead value 0 = 0 →
      (Configure.checkConfig L later (c.checkStart w now value).2.1
        (c.checkStart w now value).2.2).1 = false ∧
      (Configure.checkConfig L later (c.checkStart w now value).2.1
        (c.checkStart w now value).2.2).2.1.configState = State_t.Waiting) := by
  simp only [Configure.checkStart, Configure.F9] at h ⊢
  by_cases a : bitRead value 0 ≠ 0 ∧ c.F9_AttemptsLeft = F9_ATTEMPTS_REQUIRED
  · rw [if_pos a] at h
    cases h
  · rw [if_neg a] at h ⊢
    by_cases b : elapsed now c.F9_TimeFirstPush > F9_ATTEMPTS_INTERVAL
    · rw [if_pos b] at h
      cases h
    · rw [if_neg b] at h ⊢
      by_cases z : c.F9_AttemptsLeft = 0
      · rw [if_pos z]
        refine ⟨z, z, rfl, rfl, ?_⟩
        intro hoff
        simp [Configure.checkConfig, Configure.doReady, Configure.F9, hoff]
      · rw [if_neg z] at h
        split_ifs at h

theorem checkStart_true_only_after_exhaustion_witness :
    (Configure.checkStarts [(0, 1), (10, 0), (20, 1), (30, 0)]
      (false, Configure.fresh, World.sample)).2.1.F9_AttemptsLeft = 0 :=
  (checkStart_true_only_after_exhaustion Lib.sample
    (Configure.checkStarts [(0, 1), (10, 0), (20, 1), (30, 0)]
      (false, Configure.fresh, World.sample)).2.1
    (Configure.checkStarts [(0, 1), (10, 0), (20, 1), (30, 0)]
      (false, Configure.fresh, World.sample)).2.2
    40 1 50 (by decide)).1

/-- C6. Entry window expiry: for every session state and every `checkStart` call made when more
than F9_ATTEMPTS_INTERVAL ms have elapsed since the recorded window start (32 bit unsigned
difference), the call returns false, leaves `configState` unchanged, and afterwards
attempts-remaining is F9_ATTEMPTS_REQUIRED and the window start is the current time. -/
theorem checkStart_window_expired (c : Configure) (w : World) (now value : Nat)
    (hnow : now < 4294967296)
    (h : elapsed now c.F9_TimeFirstPush > F9_ATTEMPTS_INTERVAL) :
    (c.checkStart w now value).1 = false ∧
    (c.checkStart w now value).2.1.configState = c.configState ∧
    (c.checkStart w now value).2.1.F9_AttemptsLeft = F9_ATTEMPTS_REQUIRED ∧
    (c.checkStart w now value).2.1.F9_TimeFirstPush = now := by
  simp only [Configure.checkStart, Configure.F9]
  by_cases a : bitRead value 0 ≠ 0 ∧ c.F9_AttemptsLeft = F9_ATTEMPTS_REQUIRED
  · rw [if_pos a]
    exact ⟨rfl, rfl, a.2, Nat.mod_eq_of_lt hnow⟩
  · rw [if_neg a, if_pos h]
    exact ⟨rfl, rfl, rfl, Nat.mod_eq_of_lt hnow⟩

theorem checkStart_window_expired_witness :
    (Configure.fresh.checkStart World.sample 5000 0).1 = false ∧
    (Configure.fresh.checkStart World.sample 5000 0).2.1.configState
      = Configure.fresh.configState ∧
    (Configure.fresh.checkStart World.sample 5000 0).2.1.F9_AttemptsLeft
      = F9_ATTEMPTS_REQUIRED ∧
    (Configure.fresh.checkStart World.sample 5000 0).2.1.F9_TimeFirstPush = 5000 :=
  checkStart_window_expired Configure.fresh World.sample 5000 0 (by decide) (by decide)

/-- C7, as stated, fails. From a fresh session, after `checkStart` with F9 on at 0 ms, off at
10 ms and on at 20 ms the third call has returned false and the state is Waiting, not Ready;
with selector bit F1 set, the next `checkConfig` poll leaves it Waiting. -/
theorem scenario_on_off_on_stays_waiting :
    (Configure.checkStarts [(0, 1), (10, 0), (20, 1)]
      (false, Configure.fresh, World.sample)).1 = false ∧
    (Configure.checkStarts [(0, 1), (10, 0), (20, 1)]
      (false, Configure.fresh, World.sample)).2.1.configState = State_t.Waiting ∧
    (Configure.checkConfig Lib.sample 20
      ((Configure.checkStarts [(0, 1), (10, 0), (20, 1)]
        (false, Configure.fresh, World.sample)).2.1.setF0F4 1)
      (Configure.checkStarts [(0, 1), (10, 0), (20, 1)]
        (false, Configure.fresh, World.sample)).2.2).2.1.configState = State_t.Waiting := by
  decide

/-- C7, amended. With 2 servos, required entry count 2 and interval 3000 ms, from a fresh
session: after `checkStart` with F9 on at 0, off at 10 and on at 20 ms the state is still
Waiting; after the further calls with F9 off at 30 and on at 40 ms the last call has returned
true and the state is Ready; with selector bit F1 set, the next `checkConfig` poll moves to
Verify with selected servo 0. -/
theorem scenario_on_off_on_off_on_enters (L : Lib) (w : World) (later : Nat) :
    (Configure.checkStarts [(0, 1), (10, 0), (20, 1)]
      (false, Configure.fresh, w)).2.1.configState = State_t.Waiting ∧
    (Configure.checkStarts [(0, 1), (10, 0), (20, 1), (30, 0), (40, 1)]
      (false, Configure.fresh, w)).1 = true ∧
    (Configure.checkStarts [(0, 1), (10, 0), (20, 1), (30, 0), (40, 1)]
      (false, Configure.fresh, w)).2.1.configState = State_t.Ready ∧
    (Configure.checkConfig L later
      ((Configure.checkStarts [(0, 1), (10, 0), (20, 1), (30, 0), (40, 1)]
        (false, Configure.fresh, w)).2.1.setF0F4 1)
      (Configure.checkStarts [(0, 1), (10, 0), (20, 1), (30, 0), (40, 1)]
        (false, Configure.fresh, w)).2.2).2.1.configState = State_t.Verify ∧
    (Configure.checkConfig L later
      ((Configure.checkStarts [(0, 1), (10, 0), (20, 1), (30, 0), (40, 1)]
        (false, Configure.fresh, w)).2.1.setF0F4 1)
      (Configure.checkStarts [(0, 1), (10, 0), (20, 1), (30, 0), (40, 1)]
        (false, Configure.fresh, w)).2.2).2.1.selectedServo = 0 := by
  obtain ⟨-, -, -, -, -, a6, -, -, a9, a10, a11⟩ :=
    checkStarts_five_calls w 0 10 20 30 40 1 0 1 0 1 (by decide) (by decide) (by decide)
      (by decide) (by decide) (by decide) (by decide) (by decide) (by decide) (by decide)
  exact ⟨a6, a9, a10, checkConfig_ready_F1 L later _ _ a10 a11⟩

/-! ## Ready: selecting a servo and leaving configuration mode -/

/-- C8. Actuator selection: for every session in state Ready with F9 on, one `checkConfig` poll
moves to Verify with selected servo `i` and move counter NUMBER_OF_SERVO_MOVES if and only if
`i < NUMBER_OF_SERVOS` and, of the selector bits F1..F4, exactly the bit of index `i` is set; in
every other case the state stays Ready. F0 and F5..F8 do not influence the outcome. -/
theorem checkConfig_ready_selects (L : Lib) (now : Nat) (c : Configure) (w : World)
    (hs : c.configState = State_t.Ready) (h9 : c.F9 ≠ 0) :
    (∀ i, ((Configure.checkConfig L now c w).2.1.configState = State_t.Verify ∧
           (Configure.checkConfig L now c w).2.1.selectedServo = i ∧
           (Configure.checkConfig L now c w).2.1.numberOfMoves = NUMBER_OF_SERVO_MOVES) ↔
          (i < NUMBER_OF_SERVOS ∧ ∀ k, k < 4 → (bitRead c.F0F4 k ≠ 0 ↔ k = i))) ∧
    ((¬ ∃ i, i < NUMBER_OF_SERVOS ∧ ∀ k, k < 4 → (bitRead c.F0F4 k ≠ 0 ↔ k = i)) →
      (Configure.checkConfig L now c w).2.1.configState = State_t.Ready) ∧
    (∀ x y, (∀ k, k < 4 → bitRead x k = bitRead c.F0F4 k) →
      (Configure.checkConfig L now { c with F0F4 := x, F5F8 := y } w).1
        = (Configure.checkConfig L now c w).1 ∧
      (Configure.checkConfig L now { c with F0F4 := x, F5F8 := y } w).2.1.configState
        = (Configure.checkConfig L now c w).2.1.configState ∧
      (Configure.checkConfig L now { c with F0F4 := x, F5F8 := y } w).2.1.selectedServo
        = (Configure.checkConfig L now c w).2.1.selectedServo ∧
      (Configure.checkConfig L now { c with F0F4 := x, F5F8 := y } w).2.1.numberOfMoves
        = (Configure.checkConfig L now c w).2.1.numberOfMoves ∧
      (Configure.checkConfig L now { c with F0F4 := x, F5F8 := y } w).2.2.servo
        = (Configure.checkConfig L now c w).2.2.servo ∧
      (Configure.checkConfig L now { c with F0F4 := x, F5F8 := y } w).2.2.eeprom.cells
        = (Configure.checkConfig L now c w).2.2.eeprom.cells) := by
  have hc := checkConfig_ready L now c w hs
  have hsel : ∀ i, i < 2 → ((∀ k, k < 4 → (bitRead c.F0F4 k ≠ 0 ↔ k = i)) ↔
      c.F0F4 % 16 = 2 ^ i) := fun i hi => selector_bits c.F0F4 i hi
  rw [hc, doReady_eq c w h9]
  refine ⟨?_, ?_, ?_⟩
  · intro i
    rw [NUMBER_OF_SERVOS_eq]
    constructor
    · intro h
      split_ifs at h with a b
      · obtain ⟨-, h2, -⟩ := h
        have h2 : 0 = i := h2
        subst h2
        exact ⟨by omega, (hsel 0 (by omega)).2 a⟩
      · obtain ⟨-, h2, -⟩ := h
        have h2 : 1 = i := h2
        subst h2
        exact ⟨by omega, (hsel 1 (by omega)).2 b⟩
      · obtain ⟨h1, -, -⟩ := h
        have h1 : c.configState = State_t.Verify := h1
        rw [hs] at h1
        cases h1
    · rintro ⟨hi, hb⟩
      have hm := (hsel i hi).1 hb
      have : i = 0 ∨ i = 1 := by omega
      rcases this with rfl | rfl
      · rw [if_pos (by simpa using hm)]
        exact ⟨rfl, rfl, rfl⟩
      · have h1 : ¬ c.F0F4 % 16 = 1 := by norm_num at hm; omega
        rw [if_neg h1, if_pos (by simpa using hm)]
        exact ⟨rfl, rfl, rfl⟩
  · intro hno
    have a : ¬ c.F0F4 % 16 = 1 := fun a =>
      hno ⟨0, by decide, (hsel 0 (by omega)).2 (by simpa using a)⟩
    have b : ¬ c.F0F4 % 16 = 2 := fun b =>
      hno ⟨1, by decide, (hsel 1 (by omega)).2 (by simpa using b)⟩
    rw [if_neg a, if_neg b]
    exact hs
  · intro x y hxy
    have hm := selector_bits_mod x c.F0F4 hxy
    have hc2 := checkConfig_ready L now { c with F0F4 := x, F5F8 := y } w hs
    have d1 := doReady_eq c w h9
    have d2 := doReady_eq { c with F0F4 := x, F5F8 := y } w h9
    rw [hc2, d2]
    simp only [hm]
    split_ifs <;> exact ⟨rfl, rfl, rfl, rfl, rfl, rfl⟩

theorem checkConfig_ready_selects_witness :
    (Configure.checkConfig Lib.sample 50
      { Configure.fresh with configState := State_t.Ready, F9F12 := 1, F0F4 := 2 }
      World.sample).2.1.configState = State_t.Verify ∧
    (Configure.checkConfig Lib.sample 50
      { Configure.fresh with configState := State_t.Ready, F9F12 := 1, F0F4 := 2 }
      World.sample).2.1.selectedServo = 1 ∧
    (Configure.checkConfig Lib.sample 50
      { Configure.fresh with configState := State_t.Ready, F9F12 := 1, F0F4 := 2 }
      World.sample).2.1.numberOfMoves = NUMBER_OF_SERVO_MOVES :=
  ((checkConfig_ready_selects Lib.sample 50
    { Configure.fresh with configState := State_t.Ready, F9F12 := 1, F0F4 := 2 }
    World.sample rfl (by decide)).1 1).2 ⟨by decide, by decide⟩

/-- C9. Leaving configuration mode: for every session, `checkConfig` returns false if and only
if the state at the call is Ready and F9 is off; in that case the state becomes Waiting and
attempts-remaining is reset to F9_ATTEMPTS_REQUIRED. In every other state, the sub-modes with
F9 off included, `checkConfig` returns true. -/
theorem checkConfig_false_iff_ready_and_F9_off (L : Lib) (now : Nat) (c : Configure)
    (w : World) :
    ((Configure.checkConfig L now c w).1 = false ↔
      (c.configState = State_t.Ready ∧ c.F9 = 0)) ∧
    (c.configState = State_t.Ready ∧ c.F9 = 0 →
      (Configure.checkConfig L now c w).2.1.configState = State_t.Waiting ∧
      (Configure.checkConfig L now c w).2.1.F9_AttemptsLeft = F9_ATTEMPTS_REQUIRED) ∧
    (c.configState ≠ State_t.Ready → (Configure.checkConfig L now c w).1 = true) := by
  cases hs : c.configState
  case Ready =>
    rw [checkConfig_ready L now c w hs]
    simp only [Configure.doReady]
    by_cases h : c.F9 = 0
    · simp [h]
    · rw [if_neg h]
      split_ifs <;> simp [h]
  all_goals simp [Configure.checkConfig, hs]

theorem checkConfig_false_iff_ready_and_F9_off_witness :
    (Configure.checkConfig Lib.sample 50
      { Configure.fresh with configState := State_t.Ready, F9_AttemptsLeft := 0 }
      World.sample).2.1.configState = State_t.Waiting ∧
    (Configure.checkConfig Lib.sample 50
      { Configure.fresh with configState := State_t.Ready, F9_AttemptsLeft := 0 }
      World.sample).2.1.F9_AttemptsLeft = F9_ATTEMPTS_REQUIRED :=
  (checkConfig_false_iff_ready_and_F9_off Lib.sample 50
    { Configure.fresh with configState := State_t.Ready, F9_AttemptsLeft := 0 }
    World.sample).2.1 ⟨rfl, by decide⟩

/-! ## Verify: the identification moves -/

/-- One poll in state Verify with one or two moves left. -/
theorem poll_verify_step (L : Lib) (c : Configure) (w : World) (now : Nat) (reading : Bool)
    (hs : c.configState = State_t.Verify)
    (hn : c.numberOfMoves = 2 ∨ c.numberOfMoves = 1) :
    (Configure.poll L c w now reading).1.selectedServo = c.selectedServo ∧
    (Configure.poll L c w now reading).2.eeprom = w.eeprom ∧
    (Configure.poll L c w now reading).2.storedPositions = w.storedPositions ∧
    (∀ n, n ≠ c.selectedServo → (Configure.poll L c w now reading).2.servo n = w.servo n) ∧
    (reading = false →
      (Configure.poll L c w now reading).1.configState = State_t.Verify ∧
      (Configure.poll L c w now reading).1.numberOfMoves = c.numberOfMoves ∧
      ((Configure.poll L c w now reading).2.servo c.selectedServo).calls
        = (w.servo c.selectedServo).calls ∧
      ((Configure.poll L c w now reading).2.servo c.selectedServo).previousCurve
        = (w.servo c.selectedServo).previousCurve) ∧
    (reading = true →
      ((Configure.poll L c w now reading).2.servo c.selectedServo).calls
        = (w.servo c.selectedServo).calls ++
          [LibCall.moveServoAlongCurve
            ((((w.servo c.selectedServo).previousCurve ^^^ DIRECTION) &&& DIRECTION) >>> 7)] ∧
      ((Configure.poll L c w now reading).2.servo c.selectedServo).previousCurve
        = (w.servo c.selectedServo).previousCurve ^^^ DIRECTION ∧
      (c.numberOfMoves = 2 →
        (Configure.poll L c w now reading).1.configState = State_t.Verify ∧
        (Configure.poll L c w now reading).1.numberOfMoves = 1) ∧
      (c.numberOfMoves = 1 →
        (Configure.poll L c w now reading).1.configState = State_t.Set ∧
        (Configure.poll L c w now reading).1.numberOfMoves = 0)) := by
  cases reading <;> rcases hn with hn | hn <;>
    simp [Configure.poll, Configure.checkConfig, hs, Configure.doVerify, Configure.moveServo,
      World.setServo, MyServo.moveServoAlongCurve, hn] <;>
    intro n hne <;> simp [hne]

/-- A run of polls that starts in Verify with one or two moves left, stays in Verify before its
last poll and ends in Set. -/
theorem polls_verify (L : Lib) (polls : List (Nat × Bool)) :
    ∀ (c : Configure) (w : World), c.configState = State_t.Verify →
    (c.numberOfMoves = 2 ∨ c.numberOfMoves = 1) →
    (∀ k, k < polls.length →
      (Configure.polls L (polls.take k) (c, w)).1.configState = State_t.Verify) →
    (Configure.polls L polls (c, w)).1.configState = State_t.Set →
    (Configure.polls L polls (c, w)).1.selectedServo = c.selectedServo ∧
    (Configure.polls L polls (c, w)).1.numberOfMoves = 0 ∧
    (Configure.polls L polls (c, w)).2.eeprom = w.eeprom ∧
    (Configure.polls L polls (c, w)).2.storedPositions = w.storedPositions ∧
    (∀ n, n ≠ c.selectedServo → (Configure.polls L polls (c, w)).2.servo n = w.servo n) ∧
    ((Configure.polls L polls (c, w)).2.servo c.selectedServo).calls =
      (w.servo c.selectedServo).calls ++
        (if c.numberOfMoves = 2 then
          [LibCall.moveServoAlongCurve
            ((((w.servo c.selectedServo).previousCurve ^^^ DIRECTION) &&& DIRECTION) >>> 7),
           LibCall.moveServoAlongCurve
            (((((w.servo c.selectedServo).previousCurve ^^^ DIRECTION) ^^^ DIRECTION)
              &&& DIRECTION) >>> 7)]
         else
          [LibCall.moveServoAlongCurve
            ((((w.servo c.selectedServo).previousCurve ^^^ DIRECTION) &&& DIRECTION) >>> 7)]) ∧
    ((Configure.polls L polls (c, w)).2.servo c.selectedServo).previousCurve =
      (if c.numberOfMoves = 2 then
        ((w.servo c.selectedServo).previousCurve ^^^ DIRECTION) ^^^ DIRECTION
       else (w.servo c.selectedServo).previousCurve ^^^ DIRECTION) := by
  induction polls with
  | nil =>
    intro c w hs _ _ hset
    have hset : c.configState = State_t.Set := hset
    rw [hs] at hset
    cases hset
  | cons x rest ih =>
    intro c w hs hn hfirst hset
    obtain ⟨now, reading⟩ := x
    obtain ⟨s1, s2, s3, s4, s5, s6⟩ := poll_verify_step L c w now reading hs hn
    have hset1 : (Configure.polls L rest (Configure.poll L c w now reading)).1.configState
        = State_t.Set := hset
    have hfirst1 : ∀ k, k < rest.length →
        (Configure.polls L (rest.take k) (Configure.poll L c w now reading)).1.configState
          = State_t.Verify := by
      intro k hk
      have := hfirst (k + 1) (by simp only [List.length_cons]; omega)
      exact this
    show (Configure.polls L rest (Configure.poll L c w now reading)).1.selectedServo = _ ∧
      (Configure.polls L rest (Configure.poll L c w now reading)).1.numberOfMoves = 0 ∧
      (Configure.polls L rest (Configure.poll L c w now reading)).2.eeprom = _ ∧
      (Configure.polls L rest (Configure.poll L c w now reading)).2.storedPositions = _ ∧
      (∀ n, n ≠ c.selectedServo →
        (Configure.polls L rest (Configure.poll L c w now reading)).2.servo n = w.servo n) ∧
      ((Configure.polls L rest (Configure.poll L c w now reading)).2.servo
        c.selectedServo).calls = _ ∧
      ((Configure.polls L rest (Configure.poll L c w now reading)).2.servo
        c.selectedServo).previousCurve = _
    cases reading with
    | false =>
      obtain ⟨t1, t2, t3, t4⟩ := s5 rfl
      obtain ⟨r1, r2, r3, r4, r5, r6, r7⟩ :=
        ih (Configure.poll L c w now false).1 (Configure.poll L c w now false).2 t1
          (by rw [t2]; exact hn) hfirst1 hset1
      rw [s1] at r1 r5 r6 r7
      rw [t2, t3, t4] at r6
      rw [t2, t4] at r7
      refine ⟨r1, r2, r3.trans s2, r4.trans s3, ?_, r6, r7⟩
      intro n hne
      rw [r5 n hne, s4 n hne]
    | true =>
      obtain ⟨t1, t2, t3, t4⟩ := s6 rfl
      rcases hn with hn | hn
      · obtain ⟨u1, u2⟩ := t3 hn
        obtain ⟨r1, r2, r3, r4, r5, r6, r7⟩ :=
          ih (Configure.poll L c w now true).1 (Configure.poll L c w now true).2 u1
            (Or.inr u2) hfirst1 hset1
        rw [s1] at r1 r5 r6 r7
        have h12 : ¬ (1 = 2) := by decide
        rw [u2, if_neg h12, t1, t2] at r6
        rw [u2, if_neg h12, t2] at r7
        refine ⟨r1, r2, r3.trans s2, r4.trans s3, ?_, ?_, ?_⟩
        · intro n hne
          rw [r5 n hne, s4 n hne]
        · rw [r6, if_pos hn, List.append_assoc]
          rfl
        · rw [r7, if_pos hn]
      · obtain ⟨u1, u2⟩ := t4 hn
        have hrest : rest = [] := by
          cases rest with
          | nil => rfl
          | cons y rest2 =>
            have := hfirst 1 (by simp)
            have this : (Configure.poll L c w now true).1.configState = State_t.Verify := this
            rw [u1] at this
            cases this
        subst hrest
        have h12 : ¬ (c.numberOfMoves = 2) := by omega
        rw [if_neg h12, if_neg h12]
        exact ⟨s1, u2, s2, s3, s4, t1, t2⟩

/-- C10. Verification moves: for every session that has just entered Verify (move counter
NUMBER_OF_SERVO_MOVES) and every run of polls with arbitrary movement-completed readings that
stays in Verify before its last poll and ends in Set: exactly NUMBER_OF_SERVO_MOVES moves have
been issued to the selected servo, each one after toggling the direction bit of its current
curve byte, so the first move goes in the toggled direction, the second in the original one and
the curve byte is again what it was on entering Verify; no other servo is touched and nothing is
written to the EEPROM or the position store. -/
theorem verify_issues_two_moves (L : Lib) (c : Configure) (w : World)
    (polls : List (Nat × Bool))
    (hs : c.configState = State_t.Verify)
    (hn : c.numberOfMoves = NUMBER_OF_SERVO_MOVES)
    (hfirst : ∀ k, k < polls.length →
      (Configure.polls L (polls.take k) (c, w)).1.configState = State_t.Verify)
    (hset : (Configure.polls L polls (c, w)).1.configState = State_t.Set) :
    ((Configure.polls L polls (c, w)).2.servo c.selectedServo).calls =
      (w.servo c.selectedServo).calls ++
        [LibCall.moveServoAlongCurve
          ((((w.servo c.selectedServo).previousCurve ^^^ DIRECTION) &&& DIRECTION) >>> 7),
         LibCall.moveServoAlongCurve
          (((w.servo c.selectedServo).previousCurve &&& DIRECTION) >>> 7)] ∧
    ((Configure.polls L polls (c, w)).2.servo c.selectedServo).previousCurve
      = (w.servo c.selectedServo).previousCurve ∧
    (Configure.polls L polls (c, w)).1.numberOfMoves = 0 ∧
    (Configure.polls L polls (c, w)).1.selectedServo = c.selectedServo ∧
    (∀ n, n ≠ c.selectedServo → (Configure.polls L polls (c, w)).2.servo n = w.servo n) ∧
    (Configure.polls L polls (c, w)).2.eeprom = w.eeprom ∧
    (Configure.polls L polls (c, w)).2.storedPositions = w.storedPositions := by
  have hn2 : c.numberOfMoves = 2 := hn
  obtain ⟨r1, r2, r3, r4, r5, r6, r7⟩ := polls_verify L polls c w hs (Or.inl hn2) hfirst hset
  have hx : ((w.servo c.selectedServo).previousCurve ^^^ DIRECTION) ^^^ DIRECTION
      = (w.servo c.selectedServo).previousCurve := by
    rw [Nat.xor_assoc, Nat.xor_self, Nat.xor_zero]
  rw [if_pos hn2, hx] at r6 r7
  exact ⟨r6, r7, r2, r1, r5, r3, r4⟩

theorem verify_issues_two_moves_witness :
    ((Configure.polls Lib.sample [(0, true), (20, false), (40, true)]
      ({ Configure.fresh with configState := State_t.Verify, selectedServo := 1 },
        World.sample)).2.servo 1).calls =
      [LibCall.moveServoAlongCurve 1, LibCall.moveServoAlongCurve 0] :=
  (verify_issues_two_moves Lib.sample
    { Configure.fresh with configState := State_t.Verify, selectedServo := 1 } World.sample
    [(0, true), (20, false), (40, true)] rfl rfl (by decide) (by decide)).1

/-! ## Lemmas: the world and the servo array -/

theorem setServo_same (w : World) (i : Nat) (sv : MyServo) : (w.setServo i sv).servo i = sv := by
  simp [World.setServo]

theorem setServo_other (w : World) (i n : Nat) (sv : MyServo) (h : n ≠ i) :
    (w.setServo i sv).servo n = w.servo n := by
  simp [World.setServo, h]

theorem setServo_setServo (w : World) (i : Nat) (a b : MyServo) :
    (w.setServo i a).setServo i b = w.setServo i b := by
  simp only [World.setServo]
  congr 1
  funext n
  by_cases h : n = i <;> simp [h]

/-- What a poll in TresholdStraight does to the world and to the state. -/
theorem doTresholdStraight_result (L : Lib) (now : Nat) (c : Configure) (w : World) :
    (Configure.doTresholdStraight L now c w).2 =
      (if c.F7 ≠ 0 ∧ elapsed now c.lastConfigTime > CONFIG_STEP_TIME ∧
          L.MIN_PULSE_WIDTH ≤ c.steppedTreshold2 (w.servo c.selectedServo).treshold2 ∧
          c.steppedTreshold2 (w.servo c.selectedServo).treshold2 ≤ L.MAX_PULSE_WIDTH then
        (if c.F0 ≠ 0 then
          { (w.setServo c.selectedServo
              ((((w.servo c.selectedServo).powerOn).writeMicroseconds
                (c.steppedTreshold2 (w.servo c.selectedServo).treshold2)).setTreshold2
                (c.steppedTreshold2 (w.servo c.selectedServo).treshold2))) with
            eeprom := WriteServoMax w.eeprom c.selectedServo
              (c.steppedTreshold2 (w.servo c.selectedServo).treshold2) }
         else
          w.setServo c.selectedServo
            ((((w.servo c.selectedServo).powerOn).writeMicroseconds
              (c.steppedTreshold2 (w.servo c.selectedServo).treshold2)).setTreshold2
              (c.steppedTreshold2 (w.servo c.selectedServo).treshold2)))
       else w.setServo c.selectedServo (w.servo c.selectedServo).powerOn) ∧
    (Configure.doTresholdStraight L now c w).1.configState =
      (if c.F7 ≠ 0 then c.configState else State_t.Set) := by
  have hp : ((w.servo c.selectedServo).powerOn).treshold2 = (w.servo c.selectedServo).treshold2 :=
    rfl
  have hF0 : ∀ x y, Configure.F0 { c with lastConfigTime := x, currentPulseWidth := y } = c.F0 :=
    fun _ _ => rfl
  by_cases h7 : c.F7 ≠ 0
  · by_cases hel : elapsed now c.lastConfigTime > CONFIG_STEP_TIME
    · simp only [Configure.doTresholdStraight, setServo_same, MyServo.getTreshold2, if_pos h7,
        if_pos hel, hp, Configure.steppedTreshold2, true_and]
      by_cases hd : ((w.servo c.selectedServo).powerOn).previousCurve &&& DIRECTION ≠ 0
      · simp only [if_pos hd, hF0, setServo_setServo]
        generalize (if c.locoSpeed < 10 then
            if c.locoDirection = true then
              ((w.servo c.selectedServo).treshold2 + c.locoSpeed) % 65536
            else ((w.servo c.selectedServo).treshold2 + 65536 - c.locoSpeed) % 65536
          else (w.servo c.selectedServo).treshold2) = t
        by_cases hr : t ≥ L.MIN_PULSE_WIDTH ∧ t ≤ L.MAX_PULSE_WIDTH
        · have hall : c.F7 ≠ 0 ∧ elapsed now c.lastConfigTime > CONFIG_STEP_TIME ∧
              L.MIN_PULSE_WIDTH ≤ t ∧ t ≤ L.MAX_PULSE_WIDTH := ⟨h7, hel, hr.1, hr.2⟩
          rw [if_pos hr, if_pos hall]
          by_cases h0 : c.F0 ≠ 0
          · simp only [if_pos h0]
            constructor <;> first | rfl | trivial
          · simp only [if_neg h0]
            constructor <;> first | rfl | trivial
        · have hall : ¬ (c.F7 ≠ 0 ∧ elapsed now c.lastConfigTime > CONFIG_STEP_TIME ∧
              L.MIN_PULSE_WIDTH ≤ t ∧ t ≤ L.MAX_PULSE_WIDTH) := fun h => hr ⟨h.2.2.1, h.2.2.2⟩
          rw [if_neg hr, if_neg hall]
          exact ⟨rfl, rfl⟩
      · simp only [if_neg hd, hF0, setServo_setServo]
        generalize (if c.locoSpeed < 10 then
            if c.locoDirection = true then
              ((w.servo c.selectedServo).treshold2 + c.locoSpeed) % 65536
            else ((w.servo c.selectedServo).treshold2 + 65536 - c.locoSpeed) % 65536
          else (w.servo c.selectedServo).treshold2) = t
        by_cases hr : t ≥ L.MIN_PULSE_WIDTH ∧ t ≤ L.MAX_PULSE_WIDTH
        · have hall : c.F7 ≠ 0 ∧ elapsed now c.lastConfigTime > CONFIG_STEP_TIME ∧
              L.MIN_PULSE_WIDTH ≤ t ∧ t ≤ L.MAX_PULSE_WIDTH := ⟨h7, hel, hr.1, hr.2⟩
          rw [if_pos hr, if_pos hall]
          by_cases h0 : c.F0 ≠ 0
          · simp only [if_pos h0]
            constructor <;> first | rfl | trivial
          · simp only [if_neg h0]
            constructor <;> first | rfl | trivial
        · have hall : ¬ (c.F7 ≠ 0 ∧ elapsed now c.lastConfigTime > CONFIG_STEP_TIME ∧
              L.MIN_PULSE_WIDTH ≤ t ∧ t ≤ L.MAX_PULSE_WIDTH) := fun h => hr ⟨h.2.2.1, h.2.2.2⟩
          rw [if_neg hr, if_neg hall]
          exact ⟨rfl, rfl⟩
    · simp [Configure.doTresholdStraight, h7, hel]
  · simp [Configure.doTresholdStraight, h7]

/-- What a poll in TresholdDiverging does to the world and to the state. -/
theorem doTresholdDiverging_result (L : Lib) (now : Nat) (c : Configure) (w : World) :
    (Configure.doTresholdDiverging L now c w).2 =
      (if c.F8 ≠ 0 ∧ elapsed now c.lastConfigTime > CONFIG_STEP_TIME ∧
          L.MIN_PULSE_WIDTH ≤ c.steppedTreshold1 (w.servo c.selectedServo).treshold1 ∧
          c.steppedTreshold1 (w.servo c.selectedServo).treshold1 ≤ L.MAX_PULSE_WIDTH then
        (if c.F0 ≠ 0 then
          { (w.setServo c.selectedServo
              ((((w.servo c.selectedServo).powerOn).writeMicroseconds
                (c.steppedTreshold1 (w.servo c.selectedServo).treshold1)).setTreshold1
                (c.steppedTreshold1 (w.servo c.selectedServo).treshold1))) with
            eeprom := WriteServoMin w.eeprom c.selectedServo
              (c.steppedTreshold1 (w.servo c.selectedServo).treshold1) }
         else
          w.setServo c.selectedServo
            ((((w.servo c.selectedServo).powerOn).writeMicroseconds
              (c.steppedTreshold1 (w.servo c.selectedServo).treshold1)).setTreshold1
              (c.steppedTreshold1 (w.servo c.selectedServo).treshold1)))
       else w.setServo c.selectedServo (w.servo c.selectedServo).powerOn) ∧
    (Configure.doTresholdDiverging L now c w).1.configState =
      (if c.F8 ≠ 0 then c.configState else State_t.Set) := by
  have hp : ((w.servo c.selectedServo).powerOn).treshold1 = (w.servo c.selectedServo).treshold1 :=
    rfl
  have hF0 : ∀ x y, Configure.F0 { c with lastConfigTime := x, currentPulseWidth := y } = c.F0 :=
    fun _ _ => rfl
  by_cases h7 : c.F8 ≠ 0
  · by_cases hel : elapsed now c.lastConfigTime > CONFIG_STEP_TIME
    · simp only [Configure.doTresholdDiverging, setServo_same, MyServo.getTreshold1, if_pos h7,
        if_pos hel, hp, Configure.steppedTreshold1, true_and]
      by_cases hd : ((w.servo c.selectedServo).powerOn).previousCurve &&& DIRECTION ≠ 0
      · simp only [if_pos hd, hF0, setServo_setServo]
        generalize (if c.locoSpeed < 10 then
            if c.locoDirection = true then
              ((w.servo c.selectedServo).treshold1 + 65536 - c.locoSpeed) % 65536
            else ((w.servo c.selectedServo).treshold1 + c.locoSpeed) % 65536
          else (w.servo c.selectedServo).treshold1) = t
        by_cases hr : t ≥ L.MIN_PULSE_WIDTH ∧ t ≤ L.MAX_PULSE_WIDTH
        · have hall : c.F8 ≠ 0 ∧ elapsed now c.lastConfigTime > CONFIG_STEP_TIME ∧
              L.MIN_PULSE_WIDTH ≤ t ∧ t ≤ L.MAX_PULSE_WIDTH := ⟨h7, hel, hr.1, hr.2⟩
          rw [if_pos hr, if_pos hall]
          by_cases h0 : c.F0 ≠ 0
          · simp only [if_pos h0]
            constructor <;> first | rfl | trivial
          · simp only [if_neg h0]
            constructor <;> first | rfl | trivial
        · have hall : ¬ (c.F8 ≠ 0 ∧ elapsed now c.lastConfigTime > CONFIG_STEP_TIME ∧
              L.MIN_PULSE_WIDTH ≤ t ∧ t ≤ L.MAX_PULSE_WIDTH) := fun h => hr ⟨h.2.2.1, h.2.2.2⟩
          rw [if_neg hr, if_neg hall]
          exact ⟨rfl, rfl⟩
      · simp only [if_neg hd, hF0, setServo_setServo]
        generalize (if c.locoSpeed < 10 then
            if c.locoDirection = true then
              ((w.servo c.selectedServo).treshold1 + 65536 - c.locoSpeed) % 65536
            else ((w.servo c.selectedServo).treshold1 + c.locoSpeed) % 65536
          else (w.servo c.selectedServo).treshold1) = t
        by_cases hr : t ≥ L.MIN_PULSE_WIDTH ∧ t ≤ L.MAX_PULSE_WIDTH
        · have hall : c.F8 ≠ 0 ∧ elapsed now c.lastConfigTime > CONFIG_STEP_TIME ∧
              L.MIN_PULSE_WIDTH ≤ t ∧ t ≤ L.MAX_PULSE_WIDTH := ⟨h7, hel, hr.1, hr.2⟩
          rw [if_pos hr, if_pos hall]
          by_cases h0 : c.F0 ≠ 0
          · simp only [if_pos h0]
            constructor <;> first | rfl | trivial
          · simp only [if_neg h0]
            constructor <;> first | rfl | trivial
        · have hall : ¬ (c.F8 ≠ 0 ∧ elapsed now c.lastConfigTime > CONFIG_STEP_TIME ∧
              L.MIN_PULSE_WIDTH ≤ t ∧ t ≤ L.MAX_PULSE_WIDTH) := fun h => hr ⟨h.2.2.1, h.2.2.2⟩
          rw [if_neg hr, if_neg hall]
          exact ⟨rfl, rfl⟩
    · simp [Configure.doTresholdDiverging, h7, hel]
  · simp [Configure.doTresholdDiverging, h7]

theorem checkConfig_straight (L : Lib) (now : Nat) (c : Configure) (w : World)
    (hs : c.configState = State_t.TresholdStraight) :
    (Configure.checkConfig L now c w).2 = Configure.doTresholdStraight L now c w := by
  simp only [Configure.checkConfig, hs]

theorem checkConfig_diverging (L : Lib) (now : Nat) (c : Configure) (w : World)
    (hs : c.configState = State_t.TresholdDiverging) :
    (Configure.checkConfig L now c w).2 = Configure.doTresholdDiverging L now c w := by
  simp only [Configure.checkConfig, hs]

/-! ## Treshold sub-modes: the range guard -/

/-- C11. Treshold range guard: for every session in TresholdStraight (treshold 2) or
TresholdDiverging (treshold 1), every starting treshold, speed value and direction flag, a poll
either writes nothing (the only library call is `powerOn`, both runtime tresholds and the EEPROM
are unchanged) or the stepped treshold lies in [MIN_PULSE_WIDTH, MAX_PULSE_WIDTH] and is what is
written as pulse width, as runtime treshold and, with F0 on, by `WriteServoMax` or
`WriteServoMin`; when the stepped treshold lies outside the range nothing is written. -/
theorem treshold_range_guard (L : Lib) (now : Nat) (c : Configure) (w : World) :
    (c.configState = State_t.TresholdStraight →
      ((((Configure.checkConfig L now c w).2.2.servo c.selectedServo).calls =
            (w.servo c.selectedServo).calls ++ [LibCall.powerOn] ∧
          ((Configure.checkConfig L now c w).2.2.servo c.selectedServo).treshold1 =
            (w.servo c.selectedServo).treshold1 ∧
          ((Configure.checkConfig L now c w).2.2.servo c.selectedServo).treshold2 =
            (w.servo c.selectedServo).treshold2 ∧
          (Configure.checkConfig L now c w).2.2.eeprom = w.eeprom) ∨
        (L.MIN_PULSE_WIDTH ≤ c.steppedTreshold2 (w.servo c.selectedServo).treshold2 ∧
          c.steppedTreshold2 (w.servo c.selectedServo).treshold2 ≤ L.MAX_PULSE_WIDTH ∧
          ((Configure.checkConfig L now c w).2.2.servo c.selectedServo).calls =
            (w.servo c.selectedServo).calls ++ [LibCall.powerOn,
              LibCall.writeMicroseconds
                (c.steppedTreshold2 (w.servo c.selectedServo).treshold2)] ∧
          ((Configure.checkConfig L now c w).2.2.servo c.selectedServo).treshold2 =
            c.steppedTreshold2 (w.servo c.selectedServo).treshold2 ∧
          (Configure.checkConfig L now c w).2.2.eeprom =
            (if c.F0 ≠ 0 then
              WriteServoMax w.eeprom c.selectedServo
                (c.steppedTreshold2 (w.servo c.selectedServo).treshold2)
             else w.eeprom))) ∧
      (¬ (L.MIN_PULSE_WIDTH ≤ c.steppedTreshold2 (w.servo c.selectedServo).treshold2 ∧
          c.steppedTreshold2 (w.servo c.selectedServo).treshold2 ≤ L.MAX_PULSE_WIDTH) →
        ((Configure.checkConfig L now c w).2.2.servo c.selectedServo).calls =
          (w.servo c.selectedServo).calls ++ [LibCall.powerOn] ∧
        ((Configure.checkConfig L now c w).2.2.servo c.selectedServo).treshold2 =
          (w.servo c.selectedServo).treshold2 ∧
        (Configure.checkConfig L now c w).2.2.eeprom = w.eeprom)) ∧
    (c.configState = State_t.TresholdDiverging →
      ((((Configure.checkConfig L now c w).2.2.servo c.selectedServo).calls =
            (w.servo c.selectedServo).calls ++ [LibCall.powerOn] ∧
          ((Configure.checkConfig L now c w).2.2.servo c.selectedServo).treshold1 =
            (w.servo c.selectedServo).treshold1 ∧
          ((Configure.checkConfig L now c w).2.2.servo c.selectedServo).treshold2 =
            (w.servo c.selectedServo).treshold2 ∧
          (Configure.checkConfig L now c w).2.2.eeprom = w.eeprom) ∨
        (L.MIN_PULSE_WIDTH ≤ c.steppedTreshold1 (w.servo c.selectedServo).treshold1 ∧
          c.steppedTreshold1 (w.servo c.selectedServo).treshold1 ≤ L.MAX_PULSE_WIDTH ∧
          ((Configure.checkConfig L now c w).2.2.servo c.selectedServo).calls =
            (w.servo c.selectedServo).calls ++ [LibCall.powerOn,
              LibCall.writeMicroseconds
                (c.steppedTreshold1 (w.servo c.selectedServo).treshold1)] ∧
          ((Configure.checkConfig L now c w).2.2.servo c.selectedServo).treshold1 =
            c.steppedTreshold1 (w.servo c.selectedServo).treshold1 ∧
          (Configure.checkConfig L now c w).2.2.eeprom =
            (if c.F0 ≠ 0 then
              WriteServoMin w.eeprom c.selectedServo
                (c.steppedTreshold1 (w.servo c.selectedServo).treshold1)
             else w.eeprom))) ∧
      (¬ (L.MIN_PULSE_WIDTH ≤ c.steppedTreshold1 (w.servo c.selectedServo).treshold1 ∧
          c.steppedTreshold1 (w.servo c.selectedServo).treshold1 ≤ L.MAX_PULSE_WIDTH) →
        ((Configure.checkConfig L now c w).2.2.servo c.selectedServo).calls =
          (w.servo c.selectedServo).calls ++ [LibCall.powerOn] ∧
        ((Configure.checkConfig L now c w).2.2.servo c.selectedServo).treshold1 =
          (w.servo c.selectedServo).treshold1 ∧
        (Configure.checkConfig L now c w).2.2.eeprom = w.eeprom)) := by
  constructor
  · intro hs
    have hw : (Configure.checkConfig L now c w).2.2 = (Configure.doTresholdStraight L now c w).2 :=
      by rw [checkConfig_straight L now c w hs]
    rw [hw, (doTresholdStraight_result L now c w).1]
    by_cases hall : c.F7 ≠ 0 ∧ elapsed now c.lastConfigTime > CONFIG_STEP_TIME ∧
        L.MIN_PULSE_WIDTH ≤ c.steppedTreshold2 (w.servo c.selectedServo).treshold2 ∧
        c.steppedTreshold2 (w.servo c.selectedServo).treshold2 ≤ L.MAX_PULSE_WIDTH
    · rw [if_pos hall]
      refine ⟨Or.inr ⟨hall.2.2.1, hall.2.2.2, ?_⟩, fun hn => absurd hall.2.2 hn⟩
      by_cases h0 : c.F0 ≠ 0
      · simp only [if_pos h0]
        refine ⟨?_, ?_, trivial⟩
        · show ((w.setServo c.selectedServo _).servo c.selectedServo).calls = _
          rw [setServo_same]
          simp [MyServo.powerOn, MyServo.writeMicroseconds, MyServo.setTreshold2]
        · show ((w.setServo c.selectedServo _).servo c.selectedServo).treshold2 = _
          rw [setServo_same]
          rfl
      · simp only [if_neg h0]
        refine ⟨?_, ?_, rfl⟩
        · rw [setServo_same]
          simp [MyServo.powerOn, MyServo.writeMicroseconds, MyServo.setTreshold2]
        · rw [setServo_same]
          rfl
    · rw [if_neg hall, setServo_same]
      exact ⟨Or.inl ⟨rfl, rfl, rfl, rfl⟩, fun _ => ⟨rfl, rfl, rfl⟩⟩
  · intro hs
    have hw : (Configure.checkConfig L now c w).2.2 = (Configure.doTresholdDiverging L now c w).2 :=
      by rw [checkConfig_diverging L now c w hs]
    rw [hw, (doTresholdDiverging_result L now c w).1]
    by_cases hall : c.F8 ≠ 0 ∧ elapsed now c.lastConfigTime > CONFIG_STEP_TIME ∧
        L.MIN_PULSE_WIDTH ≤ c.steppedTreshold1 (w.servo c.selectedServo).treshold1 ∧
        c.steppedTreshold1 (w.servo c.selectedServo).treshold1 ≤ L.MAX_PULSE_WIDTH
    · rw [if_pos hall]
      refine ⟨Or.inr ⟨hall.2.2.1, hall.2.2.2, ?_⟩, fun hn => absurd hall.2.2 hn⟩
      by_cases h0 : c.F0 ≠ 0
      · simp only [if_pos h0]
        refine ⟨?_, ?_, trivial⟩
        · show ((w.setServo c.selectedServo _).servo c.selectedServo).calls = _
          rw [setServo_same]
          simp [MyServo.powerOn, MyServo.writeMicroseconds, MyServo.setTreshold1]
        · show ((w.setServo c.selectedServo _).servo c.selectedServo).treshold1 = _
          rw [setServo_same]
          rfl
      · simp only [if_neg h0]
        refine ⟨?_, ?_, rfl⟩
        · rw [setServo_same]
          simp [MyServo.powerOn, MyServo.writeMicroseconds, MyServo.setTreshold1]
        · rw [setServo_same]
          rfl
    · rw [if_neg hall, setServo_same]
      exact ⟨Or.inl ⟨rfl, rfl, rfl, rfl⟩, fun _ => ⟨rfl, rfl, rfl⟩⟩

theorem treshold_range_guard_witness :
    ((Configure.checkConfig Lib.narrow 1000 Configure.sampleStraight
        World.sample).2.2.servo Configure.sampleStraight.selectedServo).calls =
      (World.sample.servo Configure.sampleStraight.selectedServo).calls ++ [LibCall.powerOn] ∧
    ((Configure.checkConfig Lib.narrow 1000 Configure.sampleStraight
        World.sample).2.2.servo Configure.sampleStraight.selectedServo).treshold2 =
      (World.sample.servo Configure.sampleStraight.selectedServo).treshold2 ∧
    (Configure.checkConfig Lib.narrow 1000 Configure.sampleStraight World.sample).2.2.eeprom =
      World.sample.eeprom :=
  ((treshold_range_guard Lib.narrow 1000 Configure.sampleStraight World.sample).1 rfl).2
    (by decide)

/-! ## Lemmas: calibration variables and `MyServo::init` -/

theorem WriteServoCV_cells (E : EEPROM) (servo CV value x : Nat) :
    (WriteServoCV E servo CV value).cells x =
      if servo < 2 ∧ x = 65 + servo * 18 + CV then value % 256 else E.cells x := by
  simp only [WriteServoCV, NUMBER_OF_SERVOS, START_INDEX_SERVO_CVS, NUMBER_OF_SERVO_CVS]
  by_cases h : servo < 2
  · simp [h, update_cells]
  · simp [h]

theorem ReadServoMax_WriteServoMax (E : EEPROM) (servo value : Nat) (hs : servo < 2)
    (hv : value < 65536) : ReadServoMax (WriteServoMax E servo value) servo = value := by
  simp only [ReadServoMax, ReadServoCV, EEPROM.read, WriteServoMax, WriteServoCV_cells,
    START_INDEX_SERVO_CVS, NUMBER_OF_SERVO_CVS, MaxLow, MaxHigh]
  simp [hs]
  omega

theorem ReadServoMin_WriteServoMin (E : EEPROM) (servo value : Nat) (hs : servo < 2)
    (hv : value < 65536) : ReadServoMin (WriteServoMin E servo value) servo = value := by
  simp only [ReadServoMin, ReadServoCV, EEPROM.read, WriteServoMin, WriteServoCV_cells,
    START_INDEX_SERVO_CVS, NUMBER_OF_SERVO_CVS, MinLow, MinHigh]
  simp [hs]
  omega

/-- The settings of a servo object that only `init` and the configuration loads change. -/
theorem loadCurve_settings (L : Lib) (sv : MyServo) (curve : Nat) :
    (MyServo.loadCurve L sv curve).treshold1 = sv.treshold1 ∧
    (MyServo.loadCurve L sv curve).treshold2 = sv.treshold2 ∧
    (MyServo.loadCurve L sv curve).timeMultiplier = sv.timeMultiplier ∧
    (MyServo.loadCurve L sv curve).servoNumber = sv.servoNumber := by
  simp only [MyServo.loadCurve]
  split_ifs <;> exact ⟨rfl, rfl, rfl, rfl⟩

theorem setPolarisationRelay_settings (sv : MyServo) (b : Bool) :
    (sv.setPolarisationRelay b).treshold1 = sv.treshold1 ∧
    (sv.setPolarisationRelay b).treshold2 = sv.treshold2 ∧
    (sv.setPolarisationRelay b).timeMultiplier = sv.timeMultiplier ∧
    (sv.setPolarisationRelay b).servoNumber = sv.servoNumber := by
  simp only [MyServo.setPolarisationRelay]
  split <;> exact ⟨rfl, rfl, rfl, rfl⟩

theorem configPowerSignal_settings (sv : MyServo) (E : EEPROM) :
    (sv.configPowerSignal E).treshold1 = sv.treshold1 ∧
    (sv.configPowerSignal E).treshold2 = sv.treshold2 ∧
    (sv.configPowerSignal E).timeMultiplier = sv.timeMultiplier ∧
    (sv.configPowerSignal E).servoNumber = sv.servoNumber := by
  simp only [MyServo.configPowerSignal]
  split <;> exact ⟨rfl, rfl, rfl, rfl⟩

theorem configPulseSignal_settings (sv : MyServo) (E : EEPROM) (width : Nat) :
    (sv.configPulseSignal E width).treshold1 = sv.treshold1 ∧
    (sv.configPulseSignal E width).treshold2 = sv.treshold2 ∧
    (sv.configPulseSignal E width).timeMultiplier = sv.timeMultiplier ∧
    (sv.configPulseSignal E width).servoNumber = sv.servoNumber := by
  simp only [MyServo.configPulseSignal]
  split
  · exact ⟨rfl, rfl, rfl, rfl⟩
  · exact ⟨rfl, rfl, rfl, rfl⟩
  · exact ⟨rfl, rfl, rfl, rfl⟩
  · exact ⟨rfl, rfl, rfl, rfl⟩
  · split_ifs <;> exact ⟨rfl, rfl, rfl, rfl⟩

theorem attachMyServo_settings (sv : MyServo) :
    sv.attachMyServo.treshold1 = sv.treshold1 ∧
    sv.attachMyServo.treshold2 = sv.treshold2 ∧
    sv.attachMyServo.timeMultiplier = sv.timeMultiplier ∧
    sv.attachMyServo.servoNumber = sv.servoNumber := by
  simp only [MyServo.attachMyServo]
  split <;> exact ⟨rfl, rfl, rfl, rfl⟩

theorem initPolarisationRelay_settings (sv : MyServo) :
    sv.initPolarisationRelay.treshold1 = sv.treshold1 ∧
    sv.initPolarisationRelay.treshold2 = sv.treshold2 ∧
    sv.initPolarisationRelay.timeMultiplier = sv.timeMultiplier ∧
    sv.initPolarisationRelay.servoNumber = sv.servoNumber := by
  simp only [MyServo.initPolarisationRelay]
  obtain ⟨a1, a2, a3, a4⟩ := setPolarisationRelay_settings
    (match sv.servoNumber with
      | 0 => { sv with calls := sv.calls ++ [LibCall.pinMode Pin.RELAYS0_PIN] }
      | 1 => { sv with calls := sv.calls ++ [LibCall.pinMode Pin.RELAYS1_PIN] }
      | _ => sv)
    (if (match sv.servoNumber with
          | 0 => { sv with calls := sv.calls ++ [LibCall.pinMode Pin.RELAYS0_PIN] }
          | 1 => { sv with calls := sv.calls ++ [LibCall.pinMode Pin.RELAYS1_PIN] }
          | _ => sv).servoDirectionInverted = true then
        !((match sv.servoNumber with
          | 0 => { sv with calls := sv.calls ++ [LibCall.pinMode Pin.RELAYS0_PIN] }
          | 1 => { sv with calls := sv.calls ++ [LibCall.pinMode Pin.RELAYS1_PIN] }
          | _ => sv).previousCurve &&& DIRECTION != 0)
      else ((match sv.servoNumber with
          | 0 => { sv with calls := sv.calls ++ [LibCall.pinMode Pin.RELAYS0_PIN] }
          | 1 => { sv with calls := sv.calls ++ [LibCall.pinMode Pin.RELAYS1_PIN] }
          | _ => sv).previousCurve &&& DIRECTION != 0))
  rw [a1, a2, a3, a4]
  split <;> exact ⟨rfl, rfl, rfl, rfl⟩

/-- What `MyServo::init` loads from the calibration store, whatever the object held before. -/
theorem init_loads (L : Lib) (sv : MyServo) (sp : ServoPosition) (E : EEPROM) (n : Nat) :
    (MyServo.init L sv sp E n).treshold1 = ReadServoMin E n ∧
    (MyServo.init L sv sp E n).treshold2 = ReadServoMax E n ∧
    (MyServo.init L sv sp E n).timeMultiplier = ReadServoCV E n Speed := by
  simp only [MyServo.init,
    fun a => (initPolarisationRelay_settings a).1, fun a => (initPolarisationRelay_settings a).2.1,
    fun a => (initPolarisationRelay_settings a).2.2.1]
  split_ifs <;>
  simp only [
    fun a => (attachMyServo_settings a).1, fun a => (attachMyServo_settings a).2.1,
    fun a => (attachMyServo_settings a).2.2.1,
    fun a b => (configPowerSignal_settings a b).1, fun a b => (configPowerSignal_settings a b).2.1,
    fun a b => (configPowerSignal_settings a b).2.2.1,
    fun a b c => (configPulseSignal_settings a b c).1,
    fun a b c => (configPulseSignal_settings a b c).2.1,
    fun a b c => (configPulseSignal_settings a b c).2.2.1,
    fun a b => (loadCurve_settings L a b).1, fun a b => (loadCurve_settings L a b).2.1,
    fun a b => (loadCurve_settings L a b).2.2.1] <;>
  exact ⟨rfl, rfl, rfl⟩

theorem steppedTreshold2_lt (c : Configure) (t : Nat) (h : t < 65536) :
    c.steppedTreshold2 t < 65536 := by
  simp only [Configure.steppedTreshold2]
  split_ifs <;> omega

theorem steppedTreshold1_lt (c : Configure) (t : Nat) (h : t < 65536) :
    c.steppedTreshold1 t < 65536 := by
  simp only [Configure.steppedTreshold1]
  split_ifs <;> omega

/-! ## Treshold sub-modes: the commit -/

/-- C12. Treshold commit is what restart restores: for every session in TresholdStraight on a
servo below NUMBER_OF_SERVOS whose poll performs an in-range step (F7 on, step time passed,
stepped treshold in range), with F0 on `ReadServoMax` of the selected servo afterwards equals the
new runtime treshold 2, and that is what `MyServo::init` loads as treshold 2; with F0 off the
EEPROM is unchanged. The same holds for TresholdDiverging with F8, `ReadServoMin` and
treshold 1. -/
theorem treshold_commit_restored (L : Lib) (now : Nat) (c : Configure) (w : World)
    (sv0 : MyServo) (hsel : c.selectedServo < NUMBER_OF_SERVOS) :
    (c.configState = State_t.TresholdStraight → c.F7 ≠ 0 →
      elapsed now c.lastConfigTime > CONFIG_STEP_TIME →
      L.MIN_PULSE_WIDTH ≤ c.steppedTreshold2 (w.servo c.selectedServo).treshold2 →
      c.steppedTreshold2 (w.servo c.selectedServo).treshold2 ≤ L.MAX_PULSE_WIDTH →
      (w.servo c.selectedServo).treshold2 < 65536 →
      ((Configure.checkConfig L now c w).2.2.servo c.selectedServo).treshold2 =
          c.steppedTreshold2 (w.servo c.selectedServo).treshold2 ∧
      (c.F0 ≠ 0 →
        ReadServoMax (Configure.checkConfig L now c w).2.2.eeprom c.selectedServo =
          ((Configure.checkConfig L now c w).2.2.servo c.selectedServo).treshold2 ∧
        (MyServo.init L sv0 (Configure.checkConfig L now c w).2.2.storedPositions
            (Configure.checkConfig L now c w).2.2.eeprom c.selectedServo).treshold2 =
          ((Configure.checkConfig L now c w).2.2.servo c.selectedServo).treshold2) ∧
      (c.F0 = 0 → (Configure.checkConfig L now c w).2.2.eeprom = w.eeprom)) ∧
    (c.configState = State_t.TresholdDiverging → c.F8 ≠ 0 →
      elapsed now c.lastConfigTime > CONFIG_STEP_TIME →
      L.MIN_PULSE_WIDTH ≤ c.steppedTreshold1 (w.servo c.selectedServo).treshold1 →
      c.steppedTreshold1 (w.servo c.selectedServo).treshold1 ≤ L.MAX_PULSE_WIDTH →
      (w.servo c.selectedServo).treshold1 < 65536 →
      ((Configure.checkConfig L now c w).2.2.servo c.selectedServo).treshold1 =
          c.steppedTreshold1 (w.servo c.selectedServo).treshold1 ∧
      (c.F0 ≠ 0 →
        ReadServoMin (Configure.checkConfig L now c w).2.2.eeprom c.selectedServo =
          ((Configure.checkConfig L now c w).2.2.servo c.selectedServo).treshold1 ∧
        (MyServo.init L sv0 (Configure.checkConfig L now c w).2.2.storedPositions
            (Configure.checkConfig L now c w).2.2.eeprom c.selectedServo).treshold1 =
          ((Configure.checkConfig L now c w).2.2.servo c.selectedServo).treshold1) ∧
      (c.F0 = 0 → (Configure.checkConfig L now c w).2.2.eeprom = w.eeprom)) := by
  have hsel2 : c.selectedServo < 2 := hsel
  constructor
  · intro hs h7 hel hmin hmax hu
    have hw : (Configure.checkConfig L now c w).2.2 = (Configure.doTresholdStraight L now c w).2 :=
      by rw [checkConfig_straight L now c w hs]
    have hall : c.F7 ≠ 0 ∧ elapsed now c.lastConfigTime > CONFIG_STEP_TIME ∧
        L.MIN_PULSE_WIDTH ≤ c.steppedTreshold2 (w.servo c.selectedServo).treshold2 ∧
        c.steppedTreshold2 (w.servo c.selectedServo).treshold2 ≤ L.MAX_PULSE_WIDTH :=
      ⟨h7, hel, hmin, hmax⟩
    have hlt := steppedTreshold2_lt c _ hu
    rw [hw, (doTresholdStraight_result L now c w).1, if_pos hall]
    by_cases h0 : c.F0 ≠ 0
    · simp only [if_pos h0]
      have ht : ((w.setServo c.selectedServo
          ((((w.servo c.selectedServo).powerOn).writeMicroseconds
            (c.steppedTreshold2 (w.servo c.selectedServo).treshold2)).setTreshold2
            (c.steppedTreshold2 (w.servo c.selectedServo).treshold2))).servo
            c.selectedServo).treshold2 =
          c.steppedTreshold2 (w.servo c.selectedServo).treshold2 := by
        rw [setServo_same]
        rfl
      refine ⟨ht, fun _ => ⟨?_, ?_⟩, fun hz => absurd hz h0⟩
      · rw [ht]
        exact ReadServoMax_WriteServoMax _ _ _ hsel2 hlt
      · rw [ht, (init_loads L sv0 _ _ _).2.1]
        exact ReadServoMax_WriteServoMax _ _ _ hsel2 hlt
    · simp only [if_neg h0]
      refine ⟨?_, fun hz => absurd hz h0, fun _ => rfl⟩
      rw [setServo_same]
      rfl
  · intro hs h8 hel hmin hmax hu
    have hw : (Configure.checkConfig L now c w).2.2 = (Configure.doTresholdDiverging L now c w).2 :=
      by rw [checkConfig_diverging L now c w hs]
    have hall : c.F8 ≠ 0 ∧ elapsed now c.lastConfigTime > CONFIG_STEP_TIME ∧
        L.MIN_PULSE_WIDTH ≤ c.steppedTreshold1 (w.servo c.selectedServo).treshold1 ∧
        c.steppedTreshold1 (w.servo c.selectedServo).treshold1 ≤ L.MAX_PULSE_WIDTH :=
      ⟨h8, hel, hmin, hmax⟩
    have hlt := steppedTreshold1_lt c _ hu
    rw [hw, (doTresholdDiverging_result L now c w).1, if_pos hall]
    by_cases h0 : c.F0 ≠ 0
    · simp only [if_pos h0]
      have ht : ((w.setServo c.selectedServo
          ((((w.servo c.selectedServo).powerOn).writeMicroseconds
            (c.steppedTreshold1 (w.servo c.selectedServo).treshold1)).setTreshold1
            (c.steppedTreshold1 (w.servo c.selectedServo).treshold1))).servo
            c.selectedServo).treshold1 =
          c.steppedTreshold1 (w.servo c.selectedServo).treshold1 := by
        rw [setServo_same]
        rfl
      refine ⟨ht, fun _ => ⟨?_, ?_⟩, fun hz => absurd hz h0⟩
      · rw [ht]
        exact ReadServoMin_WriteServoMin _ _ _ hsel2 hlt
      · rw [ht, (init_loads L sv0 _ _ _).1]
        exact ReadServoMin_WriteServoMin _ _ _ hsel2 hlt
    · simp only [if_neg h0]
      refine ⟨?_, fun hz => absurd hz h0, fun _ => rfl⟩
      rw [setServo_same]
      rfl

theorem treshold_commit_restored_witness :
    ReadServoMax (Configure.checkConfig Lib.sample 1000 Configure.sampleStraight
        World.sample).2.2.eeprom Configure.sampleStraight.selectedServo =
      ((Configure.checkConfig Lib.sample 1000 Configure.sampleStraight
        World.sample).2.2.servo Configure.sampleStraight.selectedServo).treshold2 ∧
    (MyServo.init Lib.sample MyServo.blank
        (Configure.checkConfig Lib.sample 1000 Configure.sampleStraight
          World.sample).2.2.storedPositions
        (Configure.checkConfig Lib.sample 1000 Configure.sampleStraight World.sample).2.2.eeprom
        Configure.sampleStraight.selectedServo).treshold2 =
      ((Configure.checkConfig Lib.sample 1000 Configure.sampleStraight
        World.sample).2.2.servo Configure.sampleStraight.selectedServo).treshold2 :=
  ((treshold_commit_restored Lib.sample 1000 Configure.sampleStraight World.sample MyServo.blank
    (by decide)).1 rfl (by decide) (by decide) (by decide) (by decide) (by decide)).2.1
    (by decide)

/-! ## Speed sub-mode -/

set_option maxRecDepth 100000 in
/-- C13: the code at the failing input. After a boot with the factory defaults (CV Speed 6,
CV InvertServoDir 0), a session in Speed on servo 0 with F6 and F0 on and speed 3 is polled with
the movement completed. The runtime multiplier becomes 3, but the CV at offset 6 (Speed) still
holds 6 and the 3 is stored in the CV at offset 7 (InvertServoDir); the next `MyServo::init`
loads multiplier 6 and inverts the servo direction. -/
theorem doSpeed_commit_writes_offset_7 :
    ReadServoCV World.factory.eeprom 0 Speed = 6 ∧
    ReadServoCV World.factory.eeprom 0 InvertServoDir = 0 ∧
    ((Configure.poll Lib.sample Configure.sampleSpeed World.factory 100 true).2.servo
      0).timeMultiplier = 3 ∧
    ReadServoCV (Configure.poll Lib.sample Configure.sampleSpeed World.factory 100
      true).2.eeprom 0 Speed = 6 ∧
    ReadServoCV (Configure.poll Lib.sample Configure.sampleSpeed World.factory 100
      true).2.eeprom 0 InvertServoDir = 3 ∧
    (MyServo.init Lib.sample MyServo.blank
      (ServoPosition.new
        (Configure.poll Lib.sample Configure.sampleSpeed World.factory 100 true).2.eeprom)
      (Configure.poll Lib.sample Configure.sampleSpeed World.factory 100 true).2.eeprom
      0).timeMultiplier = 6 ∧
    (MyServo.init Lib.sample MyServo.blank
      (ServoPosition.new
        (Configure.poll Lib.sample Configure.sampleSpeed World.factory 100 true).2.eeprom)
      (Configure.poll Lib.sample Configure.sampleSpeed World.factory 100 true).2.eeprom
      0).servoDirectionInverted = true := by
  decide

set_option maxRecDepth 100000 in
/-- C14: the code at the failing input. After a boot with the factory defaults (CV Speed 6,
CV InvertServoDir 0), a session in Speed on servo 0 with F6 off is polled with the movement
completed. The state becomes Set, but the runtime multiplier is set to 0, the byte of the CV at
offset 7 (InvertServoDir), not to the 6 stored in the CV at offset 6 (Speed), and the curve is
reloaded with multiplier 0. -/
theorem doSpeed_release_reads_offset_7 :
    ReadServoCV World.factory.eeprom 0 Speed = 6 ∧
    ReadServoCV World.factory.eeprom 0 InvertServoDir = 0 ∧
    (World.factory.servo 0).timeMultiplier = 6 ∧
    (Configure.poll Lib.sample Configure.sampleSpeedReleased World.factory 100
      true).1.configState = State_t.Set ∧
    ((Configure.poll Lib.sample Configure.sampleSpeedReleased World.factory 100 true).2.servo
      0).timeMultiplier = 0 ∧
    LibCall.initCurveFromPROGMEM 0 0 ∈
      ((Configure.poll Lib.sample Configure.sampleSpeedReleased World.factory 100 true).2.servo
        0).calls := by
  decide

theorem set_settings (L : Lib) (sv : MyServo) (sp : ServoPosition) (E : EEPROM) (p : Nat) :
    (MyServo.set L sv sp E p).1.treshold1 = sv.treshold1 ∧
    (MyServo.set L sv sp E p).1.treshold2 = sv.treshold2 ∧
    (MyServo.set L sv sp E p).1.timeMultiplier = sv.timeMultiplier ∧
    (MyServo.set L sv sp E p).1.servoNumber = sv.servoNumber := by
  simp only [MyServo.set]
  split_ifs
  · exact ⟨rfl, rfl, rfl, rfl⟩
  · exact ⟨rfl, rfl, rfl, rfl⟩
  · simp only [fun a b => (setPolarisationRelay_settings a b).1,
      fun a b => (setPolarisationRelay_settings a b).2.1,
      fun a b => (setPolarisationRelay_settings a b).2.2.1,
      fun a b => (setPolarisationRelay_settings a b).2.2.2]
    exact ⟨rfl, rfl, rfl, rfl⟩
  · simp only [fun a b => (setPolarisationRelay_settings a b).1,
      fun a b => (setPolarisationRelay_settings a b).2.1,
      fun a b => (setPolarisationRelay_settings a b).2.2.1,
      fun a b => (setPolarisationRelay_settings a b).2.2.2]
    exact ⟨(loadCurve_settings L sv sv.curve0).1, (loadCurve_settings L sv sv.curve0).2.1,
      (loadCurve_settings L sv sv.curve0).2.2.1, (loadCurve_settings L sv sv.curve0).2.2.2⟩
  · simp only [fun a b => (setPolarisationRelay_settings a b).1,
      fun a b => (setPolarisationRelay_settings a b).2.1,
      fun a b => (setPolarisationRelay_settings a b).2.2.1,
      fun a b => (setPolarisationRelay_settings a b).2.2.2]
    exact ⟨(loadCurve_settings L sv sv.curve1).1, (loadCurve_settings L sv sv.curve1).2.1,
      (loadCurve_settings L sv sv.curve1).2.2.1, (loadCurve_settings L sv sv.curve1).2.2.2⟩

theorem servoSet_servo (L : Lib) (w : World) (i p : Nat) :
    (World.servoSet L w i p).servo i = (MyServo.set L (w.servo i) w.storedPositions w.eeprom p).1 := by
  simp [World.servoSet, World.setServo]

theorem checkConfig_speed (L : Lib) (now : Nat) (c : Configure) (w : World)
    (hs : c.configState = State_t.Speed) :
    (Configure.checkConfig L now c w).2 = Configure.doSpeed L c w := by
  simp only [Configure.checkConfig, hs]

/-- C15. Speed preview: for every session in Speed with F6 on and the selected servo's previous
move finished, the poll sets the servo's runtime multiplier to the speed value when that is at
least 1 and to 6 when it is 0, whether or not F0 is set; the multiplier is never 0 and the state
stays Speed. -/
theorem doSpeed_preview (L : Lib) (now : Nat) (c : Configure) (w : World)
    (hs : c.configState = State_t.Speed) (h6 : c.F6 ≠ 0)
    (hm : (w.servo c.selectedServo).movementCompleted = true) :
    ((Configure.checkConfig L now c w).2.2.servo c.selectedServo).timeMultiplier =
      (if c.locoSpeed < 1 then 6 else c.locoSpeed) ∧
    ((Configure.checkConfig L now c w).2.2.servo c.selectedServo).timeMultiplier ≠ 0 ∧
    (Configure.checkConfig L now c w).2.1.configState = State_t.Speed := by
  have key : ((Configure.checkConfig L now c w).2.2.servo c.selectedServo).timeMultiplier =
      (if c.locoSpeed < 1 then 6 else c.locoSpeed) := by
    rw [checkConfig_speed L now c w hs]
    simp only [Configure.doSpeed, if_pos hm, if_pos h6]
    have e1 : ∀ (v : World) (E : EEPROM), ({ v with eeprom := E } : World).servo = v.servo :=
      fun _ _ => rfl
    split_ifs <;>
    simp only [e1, servoSet_servo, (set_settings L _ _ _ _).2.2.1, setServo_same,
      (loadCurve_settings L _ _).2.2.1]
  refine ⟨key, ?_, ?_⟩
  · rw [key]
    split_ifs <;> omega
  · rw [checkConfig_speed L now c w hs]
    simp only [Configure.doSpeed, if_pos hm, if_pos h6]
    exact hs

theorem doSpeed_preview_witness :
    ((Configure.checkConfig Lib.sample 100 Configure.sampleSpeed
      World.sample).2.2.servo Configure.sampleSpeed.selectedServo).timeMultiplier =
      (if Configure.sampleSpeed.locoSpeed < 1 then 6 else Configure.sampleSpeed.locoSpeed) :=
  (doSpeed_preview Lib.sample 100 Configure.sampleSpeed World.sample rfl (by decide) rfl).1

/-! ## Middle sub-mode and the release of a button -/

theorem checkConfig_middle (L : Lib) (now : Nat) (c : Configure) (w : World)
    (hs : c.configState = State_t.Middle) :
    (Configure.checkConfig L now c w).2 = Configure.doMiddle c w := by
  simp only [Configure.checkConfig, hs]

/-- C16. Middle sub-mode: for every session in Middle, if F5 is on the poll writes pulse width
1500 to the selected servo, sets both runtime tresholds to 1500 and the state stays Middle; if F5
is off the state becomes Set and the tresholds are not touched; in both cases the EEPROM and the
position store are unchanged. -/
theorem doMiddle_poll (L : Lib) (now : Nat) (c : Configure) (w : World)
    (hs : c.configState = State_t.Middle) :
    (c.F5 ≠ 0 →
      ((Configure.checkConfig L now c w).2.2.servo c.selectedServo).calls =
        (w.servo c.selectedServo).calls ++ [LibCall.powerOn, LibCall.writeMicroseconds 1500] ∧
      ((Configure.checkConfig L now c w).2.2.servo c.selectedServo).treshold1 = 1500 ∧
      ((Configure.checkConfig L now c w).2.2.servo c.selectedServo).treshold2 = 1500 ∧
      (Configure.checkConfig L now c w).2.1.configState = State_t.Middle) ∧
    (c.F5 = 0 →
      (Configure.checkConfig L now c w).2.1.configState = State_t.Set ∧
      ((Configure.checkConfig L now c w).2.2.servo c.selectedServo).treshold1 =
        (w.servo c.selectedServo).treshold1 ∧
      ((Configure.checkConfig L now c w).2.2.servo c.selectedServo).treshold2 =
        (w.servo c.selectedServo).treshold2 ∧
      ((Configure.checkConfig L now c w).2.2.servo c.selectedServo).calls =
        (w.servo c.selectedServo).calls ++ [LibCall.powerOn]) ∧
    (Configure.checkConfig L now c w).2.2.eeprom = w.eeprom ∧
    (Configure.checkConfig L now c w).2.2.storedPositions = w.storedPositions := by
  rw [checkConfig_middle L now c w hs]
  simp only [Configure.doMiddle]
  by_cases h5 : c.F5 ≠ 0
  · simp only [if_pos h5, setServo_same, setServo_setServo]
    refine ⟨fun _ => ⟨?_, rfl, rfl, hs⟩, fun hz => absurd hz h5, rfl, rfl⟩
    simp [MyServo.powerOn, MyServo.writeMicroseconds, MyServo.setTreshold1,
      MyServo.setTreshold2]
  · simp only [if_neg h5, setServo_same]
    exact ⟨fun hz => absurd hz h5, fun _ => ⟨trivial, rfl, rfl, rfl⟩, rfl, rfl⟩

theorem doMiddle_poll_witness :
    ((Configure.checkConfig Lib.sample 100 (Configure.sampleMiddle 1)
        World.sample).2.2.servo (Configure.sampleMiddle 1).selectedServo).calls =
      (World.sample.servo (Configure.sampleMiddle 1).selectedServo).calls ++
        [LibCall.powerOn, LibCall.writeMicroseconds 1500] ∧
    ((Configure.checkConfig Lib.sample 100 (Configure.sampleMiddle 1)
        World.sample).2.2.servo (Configure.sampleMiddle 1).selectedServo).treshold1 = 1500 ∧
    ((Configure.checkConfig Lib.sample 100 (Configure.sampleMiddle 1)
        World.sample).2.2.servo (Configure.sampleMiddle 1).selectedServo).treshold2 = 1500 ∧
    (Configure.checkConfig Lib.sample 100 (Configure.sampleMiddle 1)
        World.sample).2.1.configState = State_t.Middle :=
  (doMiddle_poll Lib.sample 100 (Configure.sampleMiddle 1) World.sample rfl).1 (by decide)

/-- C17, as stated, fails. A session in Speed on servo 0 with F6 off is polled while the servo
has not finished its move: the state is still Speed after the poll. -/
theorem speed_release_waits_for_movement :
    Configure.sampleSpeedReleased.configState = State_t.Speed ∧
    Configure.sampleSpeedReleased.F6 = 0 ∧
    (Configure.poll Lib.sample Configure.sampleSpeedReleased World.sample 100
      false).1.configState = State_t.Speed := by
  decide

/-- C17, amended. For every session in Middle, TresholdStraight or TresholdDiverging, one
`checkConfig` poll in which the trigger bit of that sub-mode (F5, F7, F8) is off leaves the
state Set. For a session in Speed, a poll in which F6 is off leaves the state Set when the
selected servo reports its movement completed; while the servo is still moving the state stays
Speed. -/
theorem release_returns_to_set (L : Lib) (now : Nat) (c : Configure) (w : World) :
    (c.configState = State_t.Middle → c.F5 = 0 →
      (Configure.checkConfig L now c w).2.1.configState = State_t.Set) ∧
    (c.configState = State_t.TresholdStraight → c.F7 = 0 →
      (Configure.checkConfig L now c w).2.1.configState = State_t.Set) ∧
    (c.configState = State_t.TresholdDiverging → c.F8 = 0 →
      (Configure.checkConfig L now c w).2.1.configState = State_t.Set) ∧
    (c.configState = State_t.Speed → c.F6 = 0 →
      (Configure.checkConfig L now c w).2.1.configState =
        (if (w.servo c.selectedServo).movementCompleted = true then State_t.Set
         else State_t.Speed)) := by
  refine ⟨?_, ?_, ?_, ?_⟩
  · intro hs h
    rw [checkConfig_middle L now c w hs]
    simp only [Configure.doMiddle]
    rw [if_neg (not_not.mpr h)]
  · intro hs h
    rw [checkConfig_straight L now c w hs, (doTresholdStraight_result L now c w).2,
      if_neg (not_not.mpr h)]
  · intro hs h
    rw [checkConfig_diverging L now c w hs, (doTresholdDiverging_result L now c w).2,
      if_neg (not_not.mpr h)]
  · intro hs h
    rw [checkConfig_speed L now c w hs]
    simp only [Configure.doSpeed]
    by_cases hm : (w.servo c.selectedServo).movementCompleted = true
    · rw [if_pos hm, if_pos hm, if_neg (not_not.mpr h)]
    · rw [if_neg hm, if_neg hm]
      exact hs

theorem release_returns_to_set_witness :
    (Configure.checkConfig Lib.sample 100 (Configure.sampleMiddle 0)
      World.sample).2.1.configState = State_t.Set :=
  (release_returns_to_set Lib.sample 100 (Configure.sampleMiddle 0) World.sample).1 rfl
    (by decide)

/-! ## Set: the hub -/

theorem F_congr (c : Configure) (st : State_t) :
    Configure.F5 { c with configState := st } = c.F5 ∧
    Configure.F6 { c with configState := st } = c.F6 ∧
    Configure.F7 { c with configState := st } = c.F7 ∧
    Configure.F8 { c with configState := st } = c.F8 :=
  ⟨rfl, rfl, rfl, rfl⟩

/-- The world after a poll in Set: the optional restore of the idle power, then the optional
`set(1)` for F7, then the optional `set(0)` for F8. -/
theorem doSet_world (L : Lib) (c : Configure) (w : World) :
    (Configure.doSet L c w).2 =
      (if c.F8 ≠ 0 then
        World.servoSet L
          (if c.F7 ≠ 0 then
            World.servoSet L
              (if c.servoDeselected = true then
                w.setServo c.selectedServo
                  ((w.servo c.selectedServo).configPowerSignal w.eeprom)
               else w) c.selectedServo 1
           else
            (if c.servoDeselected = true then
              w.setServo c.selectedServo
                ((w.servo c.selectedServo).configPowerSignal w.eeprom)
             else w)) c.selectedServo 0
       else
        (if c.F7 ≠ 0 then
          World.servoSet L
            (if c.servoDeselected = true then
              w.setServo c.selectedServo
                ((w.servo c.selectedServo).configPowerSignal w.eeprom)
             else w) c.selectedServo 1
         else
          (if c.servoDeselected = true then
            w.setServo c.selectedServo
              ((w.servo c.selectedServo).configPowerSignal w.eeprom)
           else w))) := by
  by_cases hd : c.servoDeselected = true <;> by_cases h5 : c.F5 = 0 <;>
    by_cases h6 : c.F6 = 0 <;> by_cases h7 : c.F7 = 0 <;> by_cases h8 : c.F8 = 0 <;>
    simp [Configure.doSet, hd, h5, h6, h7, h8, fun st => (F_congr c st).1,
      fun st => (F_congr c st).2.1, fun st => (F_congr c st).2.2.1,
      fun st => (F_congr c st).2.2.2, apply_ite Prod.fst, apply_ite Prod.snd,
      apply_ite Configure.F8, apply_ite Configure.selectedServo]

theorem doSet_state_no_treshold (L : Lib) (c : Configure) (w : World)
    (h7 : c.F7 = 0) (h8 : c.F8 = 0) :
    (Configure.doSet L c w).1.configState =
      (if c.F6 ≠ 0 then State_t.Speed else if c.F5 ≠ 0 then State_t.Middle
       else if c.servoDeselected = true then State_t.Ready else c.configState) := by
  by_cases hd : c.servoDeselected = true <;> by_cases h5 : c.F5 = 0 <;>
    by_cases h6 : c.F6 = 0 <;>
    simp [Configure.doSet, hd, h5, h6, h7, h8, fun st => (F_congr c st).1,
      fun st => (F_congr c st).2.1, fun st => (F_congr c st).2.2.1,
      fun st => (F_congr c st).2.2.2, apply_ite Prod.fst, apply_ite Prod.snd,
      apply_ite Configure.F8, apply_ite Configure.selectedServo,
      apply_ite Configure.configState]

theorem doSet_state_F7 (L : Lib) (c : Configure) (w : World)
    (h7 : c.F7 ≠ 0) (h8 : c.F8 = 0) :
    (Configure.doSet L c w).1.configState =
      (if ((Configure.doSet L c w).2.servo c.selectedServo).movementCompleted = true then
        State_t.TresholdStraight
       else if c.F6 ≠ 0 then State_t.Speed else if c.F5 ≠ 0 then State_t.Middle
       else if c.servoDeselected = true then State_t.Ready else c.configState) := by
  rw [doSet_world]
  by_cases hd : c.servoDeselected = true <;> by_cases h5 : c.F5 = 0 <;>
    by_cases h6 : c.F6 = 0 <;>
    simp [Configure.doSet, hd, h5, h6, h7, h8, fun st => (F_congr c st).1,
      fun st => (F_congr c st).2.1, fun st => (F_congr c st).2.2.1,
      fun st => (F_congr c st).2.2.2, apply_ite Prod.fst, apply_ite Prod.snd,
      apply_ite Configure.F8, apply_ite Configure.selectedServo,
      apply_ite Configure.configState]

theorem doSet_state_F8 (L : Lib) (c : Configure) (w : World)
    (h7 : c.F7 = 0) (h8 : c.F8 ≠ 0) :
    (Configure.doSet L c w).1.configState =
      (if ((Configure.doSet L c w).2.servo c.selectedServo).movementCompleted = true then
        State_t.TresholdDiverging
       else if c.F6 ≠ 0 then State_t.Speed else if c.F5 ≠ 0 then State_t.Middle
       else if c.servoDeselected = true then State_t.Ready else c.configState) := by
  rw [doSet_world]
  by_cases hd : c.servoDeselected = true <;> by_cases h5 : c.F5 = 0 <;>
    by_cases h6 : c.F6 = 0 <;>
    simp [Configure.doSet, hd, h5, h6, h7, h8, fun st => (F_congr c st).1,
      fun st => (F_congr c st).2.1, fun st => (F_congr c st).2.2.1,
      fun st => (F_congr c st).2.2.2, apply_ite Prod.fst, apply_ite Prod.snd,
      apply_ite Configure.F8, apply_ite Configure.selectedServo,
      apply_ite Configure.configState]

theorem checkConfig_set (L : Lib) (now : Nat) (c : Configure) (w : World)
    (hs : c.configState = State_t.Set) :
    (Configure.checkConfig L now c w).2 = Configure.doSet L c w := by
  simp only [Configure.checkConfig, hs]

theorem servoDeselected_iff (c : Configure) (hsel : c.selectedServo < 4) :
    c.servoDeselected = true ↔ bitRead c.F0F4 c.selectedServo = 0 := by
  simp only [Configure.servoDeselected, Configure.F1, Configure.F2, Configure.F3, Configure.F4]
  generalize c.selectedServo = n at hsel
  interval_cases n <;> simp

theorem loadCurve_calls (L : Lib) (sv : MyServo) (curve : Nat) :
    ∃ rest, (MyServo.loadCurve L sv curve).calls = sv.calls ++ rest := by
  simp only [MyServo.loadCurve]
  split_ifs
  · exact ⟨_, rfl⟩
  · exact ⟨[], (List.append_nil _).symm⟩
  · exact ⟨_, rfl⟩
  · exact ⟨[], (List.append_nil _).symm⟩

theorem setPolarisationRelay_calls (sv : MyServo) (b : Bool) :
    ∃ rest, (MyServo.setPolarisationRelay sv b).calls = sv.calls ++ rest := by
  simp only [MyServo.setPolarisationRelay]
  split
  · exact ⟨_, rfl⟩
  · exact ⟨_, rfl⟩
  · exact ⟨[], (List.append_nil _).symm⟩

theorem set_calls (L : Lib) (sv : MyServo) (sp : ServoPosition) (E : EEPROM) (p : Nat) :
    ∃ rest, (MyServo.set L sv sp E p).1.calls = sv.calls ++ rest := by
  simp only [MyServo.set]
  split_ifs
  · exact ⟨[], (List.append_nil _).symm⟩
  · exact ⟨[], (List.append_nil _).symm⟩
  · obtain ⟨r, hr⟩ := setPolarisationRelay_calls
      (MyServo.moveServoAlongCurve
        { sv with previousCurve := sv.previousCurve ^^^ DIRECTION }
        ((({ sv with previousCurve := sv.previousCurve ^^^ DIRECTION } : MyServo).previousCurve
          &&& DIRECTION) >>> 7)) (p != 0)
    rw [hr]
    exact ⟨LibCall.moveServoAlongCurve
      (((sv.previousCurve ^^^ DIRECTION) &&& DIRECTION) >>> 7) :: r,
      by simp [MyServo.moveServoAlongCurve]⟩
  · obtain ⟨r, hr⟩ := setPolarisationRelay_calls
      (MyServo.moveServoAlongCurve (MyServo.loadCurve L sv sv.curve0)
        (((MyServo.loadCurve L sv sv.curve0).previousCurve &&& DIRECTION) >>> 7)) (p != 0)
    obtain ⟨q, hq⟩ := loadCurve_calls L sv sv.curve0
    rw [hr]
    exact ⟨q ++ LibCall.moveServoAlongCurve
      (((MyServo.loadCurve L sv sv.curve0).previousCurve &&& DIRECTION) >>> 7) :: r,
      by simp [MyServo.moveServoAlongCurve, hq]⟩
  · obtain ⟨r, hr⟩ := setPolarisationRelay_calls
      (MyServo.moveServoAlongCurve (MyServo.loadCurve L sv sv.curve1)
        (((MyServo.loadCurve L sv sv.curve1).previousCurve &&& DIRECTION) >>> 7)) (p != 0)
    obtain ⟨q, hq⟩ := loadCurve_calls L sv sv.curve1
    rw [hr]
    exact ⟨q ++ LibCall.moveServoAlongCurve
      (((MyServo.loadCurve L sv sv.curve1).previousCurve &&& DIRECTION) >>> 7) :: r,
      by simp [MyServo.moveServoAlongCurve, hq]⟩

theorem servoSet_calls (L : Lib) (w : World) (i p : Nat) :
    ∃ rest, ((World.servoSet L w i p).servo i).calls = (w.servo i).calls ++ rest := by
  rw [servoSet_servo]
  exact set_calls L _ _ _ _

/-- C18, as stated, fails. A session in Set on servo 0 whose selector bit F1 is off is polled
while F5 is on: the idle-power configuration is restored, but the state after the poll is
Middle, not Ready. -/
theorem deselect_with_F5_leaves_middle :
    (Configure.sampleSet 0 1).configState = State_t.Set ∧
    bitRead (Configure.sampleSet 0 1).F0F4 (Configure.sampleSet 0 1).selectedServo = 0 ∧
    (Configure.checkConfig Lib.sample 100 (Configure.sampleSet 0 1)
      World.sample).2.1.configState = State_t.Middle ∧
    ((Configure.checkConfig Lib.sample 100 (Configure.sampleSet 0 1)
      World.sample).2.2.servo 0).calls =
      [LibCall.initPower false Pin.SERVO0_ENABLE_PIN SERVO_ENABLE_VALUE 255 255] := by
  decide

/-- C18, amended. For every session in state Set whose selected servo (index below 4) has its
selector bit off, one `checkConfig` poll restores the idle-power configuration of that servo
from the calibration store: what `configPowerSignal` calls on the servo comes first among the
calls of the poll. When F7 and F8 are off that restore is the only change of the world, and
the state is left Ready if F5 and F6 are off, Middle if F5 is on and F6 is off, Speed if F6 is
on. -/
theorem doSet_deselected (L : Lib) (now : Nat) (c : Configure) (w : World)
    (hs : c.configState = State_t.Set) (hsel : c.selectedServo < 4)
    (hbit : bitRead c.F0F4 c.selectedServo = 0) :
    (∃ rest, ((Configure.checkConfig L now c w).2.2.servo c.selectedServo).calls =
      ((w.servo c.selectedServo).configPowerSignal w.eeprom).calls ++ rest) ∧
    (c.F7 = 0 → c.F8 = 0 →
      (Configure.checkConfig L now c w).2.2 =
        w.setServo c.selectedServo ((w.servo c.selectedServo).configPowerSignal w.eeprom) ∧
      (Configure.checkConfig L now c w).2.1.configState =
        (if c.F6 ≠ 0 then State_t.Speed else if c.F5 ≠ 0 then State_t.Middle
         else State_t.Ready)) := by
  have hd : c.servoDeselected = true := (servoDeselected_iff c hsel).mpr hbit
  rw [checkConfig_set L now c w hs]
  refine ⟨?_, ?_⟩
  · rw [doSet_world, if_pos hd]
    by_cases h7 : c.F7 = 0 <;> by_cases h8 : c.F8 = 0
    · rw [if_neg (not_not.mpr h8), if_neg (not_not.mpr h7), setServo_same]
      exact ⟨[], (List.append_nil _).symm⟩
    · rw [if_pos h8, if_neg (not_not.mpr h7)]
      obtain ⟨r, hr⟩ := servoSet_calls L (w.setServo c.selectedServo
        ((w.servo c.selectedServo).configPowerSignal w.eeprom)) c.selectedServo 0
      rw [setServo_same] at hr
      exact ⟨r, hr⟩
    · rw [if_neg (not_not.mpr h8), if_pos h7]
      obtain ⟨r, hr⟩ := servoSet_calls L (w.setServo c.selectedServo
        ((w.servo c.selectedServo).configPowerSignal w.eeprom)) c.selectedServo 1
      rw [setServo_same] at hr
      exact ⟨r, hr⟩
    · rw [if_pos h8, if_pos h7]
      obtain ⟨r, hr⟩ := servoSet_calls L (w.setServo c.selectedServo
        ((w.servo c.selectedServo).configPowerSignal w.eeprom)) c.selectedServo 1
      obtain ⟨q, hq⟩ := servoSet_calls L (World.servoSet L (w.setServo c.selectedServo
        ((w.servo c.selectedServo).configPowerSignal w.eeprom)) c.selectedServo 1)
        c.selectedServo 0
      rw [setServo_same] at hr
      exact ⟨r ++ q, by rw [hq, hr, List.append_assoc]⟩
  · intro h7 h8
    rw [doSet_world, doSet_state_no_treshold L c w h7 h8, if_neg (not_not.mpr h8),
      if_neg (not_not.mpr h7), if_pos hd, if_pos hd]
    exact ⟨rfl, rfl⟩

theorem doSet_deselected_witness :
    (Configure.checkConfig Lib.sample 100 (Configure.sampleSet 0 0) World.sample).2.2 =
      World.sample.setServo (Configure.sampleSet 0 0).selectedServo
        ((World.sample.servo (Configure.sampleSet 0 0).selectedServo).configPowerSignal
          World.sample.eeprom) ∧
    (Configure.checkConfig Lib.sample 100 (Configure.sampleSet 0 0)
      World.sample).2.1.configState =
      (if (Configure.sampleSet 0 0).F6 ≠ 0 then State_t.Speed
       else if (Configure.sampleSet 0 0).F5 ≠ 0 then State_t.Middle else State_t.Ready) :=
  (doSet_deselected Lib.sample 100 (Configure.sampleSet 0 0) World.sample rfl (by decide)
    (by decide)).2 (by decide) (by decide)

/-- C19, as stated, fails. A session in Set on servo 0, which stands at position 0, is polled
with only F7 of F5..F8 on: the poll commands position 1 (one move, relay set for position 1,
the servo ends at position 1), whereas a command to position 0 would have done nothing. -/
theorem F7_commands_position_1 :
    (Configure.sampleSet 1 4).configState = State_t.Set ∧
    (Configure.sampleSet 1 4).F5 = 0 ∧ (Configure.sampleSet 1 4).F6 = 0 ∧
    (Configure.sampleSet 1 4).F7 = 1 ∧ (Configure.sampleSet 1 4).F8 = 0 ∧
    (World.sample.servo 0).getPosition = false ∧
    ((Configure.checkConfig Lib.sample 100 (Configure.sampleSet 1 4)
      World.sample).2.2.servo 0).calls =
      [LibCall.moveServoAlongCurve 1, LibCall.digitalWriteFast Pin.RELAYS0_PIN false] ∧
    ((Configure.checkConfig Lib.sample 100 (Configure.sampleSet 1 4)
      World.sample).2.2.servo 0).getPosition = true ∧
    ((World.servoSet Lib.sample World.sample 0 0).servo 0).calls = [] := by
  decide

/-- C19, amended. For every session in Set with F5 and F6 off: when only F7 is on, the poll
calls `set(1)` on the selected servo (position 1, straight) and the state becomes
TresholdStraight if the servo then reports its movement completed; when only F8 is on, the poll
calls `set(0)` (position 0, diverging) and the state becomes TresholdDiverging if the servo then
reports its movement completed. Otherwise the state stays Set, or becomes Ready when the servo
was deselected, in which case its idle-power configuration is restored before the call of
`set`. -/
theorem doSet_treshold_entry (L : Lib) (now : Nat) (c : Configure) (w : World)
    (hs : c.configState = State_t.Set) (h5 : c.F5 = 0) (h6 : c.F6 = 0) :
    (c.F7 ≠ 0 → c.F8 = 0 →
      (Configure.checkConfig L now c w).2.2 =
        World.servoSet L
          (if c.servoDeselected = true then
            w.setServo c.selectedServo ((w.servo c.selectedServo).configPowerSignal w.eeprom)
           else w) c.selectedServo 1 ∧
      (Configure.checkConfig L now c w).2.1.configState =
        (if ((Configure.checkConfig L now c w).2.2.servo c.selectedServo).movementCompleted
            = true then State_t.TresholdStraight
         else if c.servoDeselected = true then State_t.Ready else State_t.Set)) ∧
    (c.F7 = 0 → c.F8 ≠ 0 →
      (Configure.checkConfig L now c w).2.2 =
        World.servoSet L
          (if c.servoDeselected = true then
            w.setServo c.selectedServo ((w.servo c.selectedServo).configPowerSignal w.eeprom)
           else w) c.selectedServo 0 ∧
      (Configure.checkConfig L now c w).2.1.configState =
        (if ((Configure.checkConfig L now c w).2.2.servo c.selectedServo).movementCompleted
            = true then State_t.TresholdDiverging
         else if c.servoDeselected = true then State_t.Ready else State_t.Set)) := by
  rw [checkConfig_set L now c w hs]
  refine ⟨fun h7 h8 => ⟨?_, ?_⟩, fun h7 h8 => ⟨?_, ?_⟩⟩
  · rw [doSet_world, if_neg (not_not.mpr h8), if_pos h7]
  · rw [doSet_state_F7 L c w h7 h8, if_neg (not_not.mpr h6), if_neg (not_not.mpr h5), hs]
  · rw [doSet_world, if_pos h8, if_neg (not_not.mpr h7)]
  · rw [doSet_state_F8 L c w h7 h8, if_neg (not_not.mpr h6), if_neg (not_not.mpr h5), hs]

theorem doSet_treshold_entry_witness :
    (Configure.checkConfig Lib.sample 100 (Configure.sampleSet 1 4) World.sample).2.2 =
      World.servoSet Lib.sample
        (if (Configure.sampleSet 1 4).servoDeselected = true then
          World.sample.setServo (Configure.sampleSet 1 4).selectedServo
            ((World.sample.servo (Configure.sampleSet 1 4).selectedServo).configPowerSignal
              World.sample.eeprom)
         else World.sample) (Configure.sampleSet 1 4).selectedServo 1 ∧
    (Configure.checkConfig Lib.sample 100 (Configure.sampleSet 1 4)
      World.sample).2.1.configState =
      (if ((Configure.checkConfig Lib.sample 100 (Configure.sampleSet 1 4)
            World.sample).2.2.servo (Configure.sampleSet 1 4).selectedServo).movementCompleted
          = true then State_t.TresholdStraight
       else if (Configure.sampleSet 1 4).servoDeselected = true then State_t.Ready
       else State_t.Set) :=
  (doSet_treshold_entry Lib.sample 100 (Configure.sampleSet 1 4) World.sample rfl (by decide)
    (by decide)).1 (by decide) (by decide)

/-! ## Verify: the hand-over to Set -/

theorem checkConfig_verify (L : Lib) (now : Nat) (c : Configure) (w : World)
    (hs : c.configState = State_t.Verify) :
    (Configure.checkConfig L now c w).2 = Configure.doVerify c w := by
  simp only [Configure.checkConfig, hs]

/-- C20, as stated, fails. A session in Verify on servo 0 with one move left is polled while
the servo reports its movement completed: the poll issues the last verification move and the
state is Set after that same poll. -/
theorem verify_sets_in_poll_of_last_move :
    Configure.sampleVerify.configState = State_t.Verify ∧
    Configure.sampleVerify.numberOfMoves = 1 ∧
    (World.sample.servo 0).calls = [] ∧
    ((Configure.poll Lib.sample Configure.sampleVerify World.sample 100 true).2.servo 0).calls =
      [LibCall.moveServoAlongCurve 1] ∧
    (Configure.poll Lib.sample Configure.sampleVerify World.sample 100
      true).1.configState = State_t.Set := by
  decide

/-- C20, amended. For every session in Verify (the move counter is a byte), the state after
one `checkConfig` poll is Set exactly when the selected servo reports its movement completed
at the start of the poll and the move counter is then zero or one. With the counter at one
the poll issues the last verification move (`moveServo`) and sets the counter to zero in the
same poll; with the counter at zero the poll issues no move and changes nothing else. -/
theorem verify_hands_over (L : Lib) (now : Nat) (c : Configure) (w : World)
    (hs : c.configState = State_t.Verify) (hn : c.numberOfMoves < 256) :
    ((Configure.checkConfig L now c w).2.1.configState = State_t.Set ↔
      ((w.servo c.selectedServo).movementCompleted = true ∧ c.numberOfMoves ≤ 1)) ∧
    ((w.servo c.selectedServo).movementCompleted = true → c.numberOfMoves = 1 →
      (Configure.checkConfig L now c w).2.2 = Configure.moveServo w c.selectedServo ∧
      (Configure.checkConfig L now c w).2.1.numberOfMoves = 0) ∧
    (c.numberOfMoves = 0 →
      (Configure.checkConfig L now c w).2.2 = w ∧
      (Configure.checkConfig L now c w).2.1.numberOfMoves = 0) := by
  rw [checkConfig_verify L now c w hs]
  simp only [Configure.doVerify]
  by_cases hm : (w.servo c.selectedServo).movementCompleted = true
  · by_cases h0 : c.numberOfMoves = 0
    · have hgt : ¬ c.numberOfMoves > 0 := by omega
      simp only [if_neg hgt, if_pos hm]
      exact ⟨⟨fun _ => ⟨hm, by omega⟩, fun _ => trivial⟩, fun _ h1 => by omega,
        fun _ => ⟨trivial, h0⟩⟩
    · have hgt : c.numberOfMoves > 0 := by omega
      simp only [if_pos hgt, if_pos hm]
      by_cases h1 : c.numberOfMoves = 1
      · have hz : (c.numberOfMoves + 255) % 256 = 0 := by omega
        simp only [if_pos hz]
        exact ⟨⟨fun _ => ⟨hm, by omega⟩, fun _ => trivial⟩, fun _ _ => ⟨trivial, hz⟩,
          fun h => absurd h h0⟩
      · have hz : ¬ (c.numberOfMoves + 255) % 256 = 0 := by omega
        simp only [if_neg hz]
        refine ⟨⟨fun h => ?_, fun h => by omega⟩, fun _ h => absurd h h1,
          fun h => absurd h h0⟩
        rw [hs] at h
        exact absurd h (by decide)
  · have hns : ¬ State_t.Verify = State_t.Set := by decide
    by_cases h0 : c.numberOfMoves = 0
    · have hgt : ¬ c.numberOfMoves > 0 := by omega
      simp only [if_neg hgt, if_neg hm]
      refine ⟨⟨fun h => ?_, fun h => absurd h.1 hm⟩, fun h => absurd h hm,
        fun _ => ⟨trivial, h0⟩⟩
      rw [hs] at h
      exact absurd h hns
    · have hgt : c.numberOfMoves > 0 := by omega
      simp only [if_pos hgt, if_neg hm]
      refine ⟨⟨fun h => ?_, fun h => absurd h.1 hm⟩, fun h => absurd h hm,
        fun h => absurd h h0⟩
      rw [hs] at h
      exact absurd h hns

theorem verify_hands_over_witness :
    (Configure.checkConfig Lib.sample 100 Configure.sampleVerify World.sample).2.2 =
      Configure.moveServo World.sample Configure.sampleVerify.selectedServo ∧
    (Configure.checkConfig Lib.sample 100 Configure.sampleVerify
      World.sample).2.1.numberOfMoves = 0 :=
  (verify_hands_over Lib.sample 100 Configure.sampleVerify World.sample rfl
    (by decide)).2.1 rfl rfl

/-! ## The calibration store -/

/-- C21. Out-of-range calibration write is a no-op: for every servo index at or above
NUMBER_OF_SERVOS, every CV offset and every value, `WriteServoCV`, `WriteServoMin` and
`WriteServoMax` return the memory as it was: no cell changes and no update call is made. -/
theorem write_out_of_range_noop (E : EEPROM) (servo CV value : Nat)
    (h : NUMBER_OF_SERVOS ≤ servo) :
    WriteServoCV E servo CV value = E ∧ WriteServoMin E servo value = E ∧
    WriteServoMax E servo value = E := by
  have hn : ¬ servo < NUMBER_OF_SERVOS := by omega
  simp [WriteServoMin, WriteServoMax, WriteServoCV, hn]

theorem write_out_of_range_noop_witness :
    NUMBER_OF_SERVOS ≤ 2 ∧
    WriteServoCV EEPROM.sample 2 Speed 1500 = EEPROM.sample ∧
    WriteServoMin EEPROM.sample 2 1500 = EEPROM.sample ∧
    WriteServoMax EEPROM.sample 2 1500 = EEPROM.sample :=
  ⟨by decide, write_out_of_range_noop EEPROM.sample 2 Speed 1500 (by decide)⟩

/-- C22. 16-bit treshold round trip: for every servo below NUMBER_OF_SERVOS and every 16-bit
value `v`, `ReadServoMin` after `WriteServoMin(s, v)` returns `v`, CV MinLow holds `v mod 256`
and CV MinHigh holds `v div 256`; the same holds for `WriteServoMax`, `ReadServoMax`, MaxLow and
MaxHigh; writing Min does not change what `ReadServoMax` returns, and writing Max does not
change what `ReadServoMin` returns. -/
theorem treshold_roundtrip (E : EEPROM) (s v : Nat) (hs : s < NUMBER_OF_SERVOS)
    (hv : v < 65536) :
    ReadServoMin (WriteServoMin E s v) s = v ∧
    ReadServoCV (WriteServoMin E s v) s MinLow = v % 256 ∧
    ReadServoCV (WriteServoMin E s v) s MinHigh = v / 256 ∧
    ReadServoMax (WriteServoMax E s v) s = v ∧
    ReadServoCV (WriteServoMax E s v) s MaxLow = v % 256 ∧
    ReadServoCV (WriteServoMax E s v) s MaxHigh = v / 256 ∧
    ReadServoMax (WriteServoMin E s v) s = ReadServoMax E s ∧
    ReadServoMin (WriteServoMax E s v) s = ReadServoMin E s := by
  have hs2 : s < 2 := hs
  have hd : v / 256 % 256 = v / 256 := Nat.mod_eq_of_lt (by omega)
  refine ⟨ReadServoMin_WriteServoMin E s v hs2 hv, ?_, ?_,
    ReadServoMax_WriteServoMax E s v hs2 hv, ?_, ?_, ?_, ?_⟩ <;>
  simp [ReadServoMin, ReadServoMax, ReadServoCV, EEPROM.read, WriteServoMin, WriteServoMax,
    WriteServoCV_cells, START_INDEX_SERVO_CVS, NUMBER_OF_SERVO_CVS, MinLow, MinHigh, MaxLow,
    MaxHigh, hs2, hd]

theorem treshold_roundtrip_witness :
    ReadServoMin (WriteServoMin EEPROM.sample 1 1300) 1 = 1300 ∧
    ReadServoCV (WriteServoMin EEPROM.sample 1 1300) 1 MinLow = 1300 % 256 ∧
    ReadServoCV (WriteServoMin EEPROM.sample 1 1300) 1 MinHigh = 1300 / 256 ∧
    ReadServoMax (WriteServoMax EEPROM.sample 1 1300) 1 = 1300 ∧
    ReadServoCV (WriteServoMax EEPROM.sample 1 1300) 1 MaxLow = 1300 % 256 ∧
    ReadServoCV (WriteServoMax EEPROM.sample 1 1300) 1 MaxHigh = 1300 / 256 ∧
    ReadServoMax (WriteServoMin EEPROM.sample 1 1300) 1 = ReadServoMax EEPROM.sample 1 ∧
    ReadServoMin (WriteServoMax EEPROM.sample 1 1300) 1 = ReadServoMin EEPROM.sample 1 :=
  treshold_roundtrip EEPROM.sample 1 1300 (by decide) (by decide)

/-- C23. Calibration addresses never overlap: for all servos `s1`, `s2` below NUMBER_OF_SERVOS
and CV offsets `f1`, `f2` below NUMBER_OF_SERVO_CVS with `(s1, f1)` different from `(s2, f2)`,
the two CV addresses differ and lie in [START_INDEX_SERVO_CVS, START_INDEX_SERVO_CURVES), below
the generation counter; `WriteServoCV(s1, f1, v)` stores `v` at its own CV, leaves what
`ReadServoCV(s2, f2)` returns, and leaves every cell from START_INDEX_SERVO_CURVES on (curve
bytes, generation counter, position buffer) and every cell below START_INDEX_SERVO_CVS. -/
theorem cv_addresses_disjoint (E : EEPROM) (s1 f1 s2 f2 v : Nat)
    (h1 : s1 < NUMBER_OF_SERVOS) (h2 : s2 < NUMBER_OF_SERVOS)
    (g1 : f1 < NUMBER_OF_SERVO_CVS) (g2 : f2 < NUMBER_OF_SERVO_CVS)
    (hne : (s1, f1) ≠ (s2, f2)) :
    START_INDEX_SERVO_CVS + s1 * NUMBER_OF_SERVO_CVS + f1 ≠
      START_INDEX_SERVO_CVS + s2 * NUMBER_OF_SERVO_CVS + f2 ∧
    START_INDEX_SERVO_CVS ≤ START_INDEX_SERVO_CVS + s1 * NUMBER_OF_SERVO_CVS + f1 ∧
    START_INDEX_SERVO_CVS + s1 * NUMBER_OF_SERVO_CVS + f1 < START_INDEX_SERVO_CURVES ∧
    START_INDEX_SERVO_CURVES ≤ EEPROM_BOOTS_INDEX ∧
    ReadServoCV (WriteServoCV E s1 f1 v) s1 f1 = v % 256 ∧
    ReadServoCV (WriteServoCV E s1 f1 v) s2 f2 = ReadServoCV E s2 f2 ∧
    (∀ a, START_INDEX_SERVO_CURVES ≤ a → (WriteServoCV E s1 f1 v).read a = E.read a) ∧
    (∀ a, a < START_INDEX_SERVO_CVS → (WriteServoCV E s1 f1 v).read a = E.read a) := by
  have h1b : s1 < 2 := h1
  have h2b : s2 < 2 := h2
  have g1b : f1 < 18 := g1
  have g2b : f2 < 18 := g2
  have hne2 : ¬ (s1 = s2 ∧ f1 = f2) := fun h => hne (by rw [h.1, h.2])
  have hcurves : START_INDEX_SERVO_CURVES = 101 := by decide
  simp only [ReadServoCV, EEPROM.read, WriteServoCV_cells, START_INDEX_SERVO_CVS,
    NUMBER_OF_SERVO_CVS, hcurves, EEPROM_BOOTS_INDEX_eq]
  refine ⟨by omega, by omega, by omega, by omega, ?_, ?_, ?_, ?_⟩
  · rw [if_pos ⟨h1b, trivial⟩]
  · rw [if_neg]
    omega
  · intro a ha
    rw [if_neg]
    omega
  · intro a ha
    rw [if_neg]
    omega

theorem cv_addresses_disjoint_witness :
    ReadServoCV (WriteServoCV EEPROM.sample 0 PowerOffAfter 7) 1 MinLow =
      ReadServoCV EEPROM.sample 1 MinLow :=
  (cv_addresses_disjoint EEPROM.sample 0 PowerOffAfter 1 MinLow 7 (by decide) (by decide)
    (by decide) (by decide) (by decide)).2.2.2.2.2.1

/-! ## Lemmas: one boot session of the position store -/

theorem getIndex_ne_boots (sp : ServoPosition) (n : Nat) (h : 1 ≤ sp.numberOfBoots) :
    sp.getIndex n ≠ 293 := by
  rw [getIndex_eq]
  split_ifs <;> omega

theorem new_numberOfBoots_bounds (E : EEPROM) (hb : E.cells 293 < 256) :
    1 ≤ (ServoPosition.new E).numberOfBoots ∧ (ServoPosition.new E).numberOfBoots ≤ 254 := by
  rw [new_numberOfBoots]
  split_ifs <;> omega

theorem first_save_firstCall (sp : ServoPosition) (E : EEPROM) (i v : Nat)
    (hf : sp.firstCall = true) : (sp.saveServoPosition E i v).1.firstCall = false := by
  simp only [ServoPosition.saveServoPosition, hf, ServoPosition.incrementNumberOfBoots,
    calculateservoPositions_eq, if_true]
  split_ifs <;> rfl

theorem later_save (sp : ServoPosition) (E : EEPROM) (i v : Nat) (hf : sp.firstCall = false) :
    sp.saveServoPosition E i v = (sp, E.update (sp.getIndex i) v) := by
  simp [ServoPosition.saveServoPosition, hf]

theorem later_saves (l : List (Nat × Nat)) (sp : ServoPosition) (E : EEPROM)
    (hf : sp.firstCall = false) :
    (ServoPosition.saves l (sp, E)).1 = sp ∧
    (ServoPosition.saves l (sp, E)).2.updates =
      E.updates ++ l.map (fun p => (sp.getIndex p.1, p.2 % 256)) := by
  induction l generalizing E with
  | nil => exact ⟨rfl, (List.append_nil _).symm⟩
  | cons p rest ih =>
    obtain ⟨number, value⟩ := p
    show (ServoPosition.saves rest (sp.saveServoPosition E number value)).1 = sp ∧
      (ServoPosition.saves rest (sp.saveServoPosition E number value)).2.updates = _
    rw [later_save sp E number value hf]
    refine ⟨(ih _).1, ?_⟩
    rw [(ih _).2]
    simp [EEPROM.update]

/-- The update calls of a boot session with at least one save: the two copies and the
generation counter of the advance, then one call per save, each to the slot of its servo in
the new generation. -/
theorem session_updates (E : EEPROM) (i v : Nat) (rest : List (Nat × Nat)) :
    (ServoPosition.session E ((i, v) :: rest)).1 =
      ((ServoPosition.new E).saveServoPosition E i v).1 ∧
    ServoPosition.sessionLog E ((i, v) :: rest) =
      [((ServoPosition.new E).getIndex 2, E.cells ((ServoPosition.new E).getIndex 1) % 256),
       ((ServoPosition.new E).getIndex 1, E.cells ((ServoPosition.new E).getIndex 0) % 256),
       (293, ((ServoPosition.new E).saveServoPosition E i v).1.numberOfBoots % 256)] ++
      ((i, v) :: rest).map (fun p =>
        (((ServoPosition.new E).saveServoPosition E i v).1.getIndex p.1, p.2 % 256)) := by
  have hf := first_save_firstCall (ServoPosition.new E) E i v (new_firstCall E)
  have hl := later_saves rest ((ServoPosition.new E).saveServoPosition E i v).1
    ((ServoPosition.new E).saveServoPosition E i v).2 hf
  have hs : ServoPosition.session E ((i, v) :: rest) =
      ServoPosition.saves rest (((ServoPosition.new E).saveServoPosition E i v).1,
        ((ServoPosition.new E).saveServoPosition E i v).2) := rfl
  refine ⟨by rw [hs]; exact hl.1, ?_⟩
  simp only [ServoPosition.sessionLog]
  rw [hs, hl.2, first_save_updates _ E i v (new_firstCall E), List.append_assoc,
    List.drop_left]
  simp

theorem contentChanges_le (log : List (Nat × Nat)) (cells : Nat → Nat) (a : Nat) :
    contentChanges cells log a ≤ updatesTo log a := by
  induction log generalizing cells with
  | nil => exact Nat.le_refl _
  | cons p rest ih =>
    obtain ⟨address, value⟩ := p
    have h := ih (fun x => if x = address then value else cells x)
    simp only [contentChanges, updatesTo, List.countP_cons] at h ⊢
    by_cases ha : address = a
    · subst ha
      simp only [true_and, decide_True, if_true]
      split_ifs <;> omega
    · simp only [ha, false_and, if_false, decide_False]
      simpa using h

theorem first_save_generation (E : EEPROM) (i v : Nat) (hb : E.cells 293 < 256) :
    1 ≤ ((ServoPosition.new E).saveServoPosition E i v).1.numberOfBoots ∧
    ((ServoPosition.new E).saveServoPosition E i v).1.numberOfBoots ≤ 255 ∧
    ((ServoPosition.new E).saveServoPosition E i v).1.numberOfBoots ≠ E.cells 293 ∧
    (∀ n, n < 218 → ((ServoPosition.new E).saveServoPosition E i v).1.getIndex n =
      (ServoPosition.new E).getIndex (n + 1)) := by
  obtain ⟨b1, b2⟩ := new_numberOfBoots_bounds E hb
  have hn := new_numberOfBoots E
  have hg := first_save_numberOfBoots (ServoPosition.new E) E i v (new_firstCall E)
  refine ⟨?_, ?_, ?_, ?_⟩
  · rw [hg]; split_ifs <;> omega
  · rw [hg]; split_ifs <;> omega
  · rw [hg, hn]; split_ifs <;> omega
  · intro n hlt
    rw [getIndex_eq, getIndex_eq, hg]
    by_cases hw : (ServoPosition.new E).numberOfBoots = 218
    · rw [if_pos hw, hw]
      split_ifs <;> omega
    · rw [if_neg hw]
      have hm : ((ServoPosition.new E).numberOfBoots + 1) % 256 =
          (ServoPosition.new E).numberOfBoots + 1 := Nat.mod_eq_of_lt (by omega)
      rw [hm]
      split_ifs <;> omega

theorem first_save_counter (E : EEPROM) (i v : Nat) (hb : E.cells 293 < 256) :
    ((ServoPosition.new E).saveServoPosition E i v).2.cells 293 =
      ((ServoPosition.new E).saveServoPosition E i v).1.numberOfBoots := by
  obtain ⟨g1, g2, _, _⟩ := first_save_generation E i v hb
  have hne := getIndex_ne_boots ((ServoPosition.new E).saveServoPosition E i v).1 i g1
  have hcell : ((ServoPosition.new E).saveServoPosition E i v).2.cells 293 =
      (if 293 = ((ServoPosition.new E).saveServoPosition E i v).1.getIndex i then v % 256
       else ((ServoPosition.new E).saveServoPosition E i v).1.numberOfBoots % 256) := by
    simp only [ServoPosition.saveServoPosition, new_firstCall, if_true,
      ServoPosition.incrementNumberOfBoots, calculateservoPositions_eq, update_cells,
      EEPROM_BOOTS_INDEX_eq]
  rw [hcell, if_neg (fun h => hne h.symm), Nat.mod_eq_of_lt (by omega)]

theorem later_saves_counter (l : List (Nat × Nat)) (sp : ServoPosition) (E : EEPROM)
    (hf : sp.firstCall = false) (h1 : 1 ≤ sp.numberOfBoots) :
    (ServoPosition.saves l (sp, E)).2.cells 293 = E.cells 293 := by
  induction l generalizing E with
  | nil => rfl
  | cons p rest ih =>
    obtain ⟨number, value⟩ := p
    show (ServoPosition.saves rest (sp.saveServoPosition E number value)).2.cells 293 = _
    rw [later_save sp E number value hf, ih, update_cells,
      if_neg (fun h => getIndex_ne_boots sp number h1 h.symm)]

theorem updatesTo_append (l1 l2 : List (Nat × Nat)) (a : Nat) :
    updatesTo (l1 ++ l2) a = updatesTo l1 a + updatesTo l2 a := by
  simp [updatesTo, List.countP_append]

theorem updatesTo_slots (sp : ServoPosition) (l : List (Nat × Nat)) (a : Nat) :
    updatesTo (l.map (fun p => (sp.getIndex p.1, p.2 % 256))) a =
      l.countP (fun p => decide (sp.getIndex p.1 = a)) := by
  simp only [updatesTo, List.countP_map]
  rfl

theorem updatesTo_slots_boots (sp : ServoPosition) (l : List (Nat × Nat))
    (h1 : 1 ≤ sp.numberOfBoots) :
    updatesTo (l.map (fun p => (sp.getIndex p.1, p.2 % 256))) 293 = 0 := by
  rw [updatesTo_slots]
  simp [List.countP_eq_zero, getIndex_ne_boots sp _ h1]

theorem session_nil (E : EEPROM) :
    ServoPosition.session E [] = (ServoPosition.new E, E) ∧
    ServoPosition.sessionLog E [] = [] := by
  refine ⟨rfl, ?_⟩
  show List.drop E.updates.length E.updates = []
  simp

/-! ## The position store: wear within one boot session -/

/-- C24. One generation-counter persist per boot: for every memory whose counter cell holds a
byte and every boot session with at least one `saveServoPosition` call, the update calls of the
session are those of its first call followed by one call per later save, each to the slot of
its servo; the first call makes exactly one update call to the cell EEPROM_BOOTS_INDEX, which
changes its content, and the later calls make none; the generation, and with it every slot
address, is after every later call what it was after the first call. -/
theorem one_counter_persist_per_boot (E : EEPROM) (hb : E.read EEPROM_BOOTS_INDEX < 256)
    (i v : Nat) (rest : List (Nat × Nat)) :
    ServoPosition.sessionLog E ((i, v) :: rest) =
      ServoPosition.sessionLog E [(i, v)] ++
        rest.map (fun p => ((ServoPosition.session E [(i, v)]).1.getIndex p.1, p.2 % 256)) ∧
    updatesTo (ServoPosition.sessionLog E [(i, v)]) EEPROM_BOOTS_INDEX = 1 ∧
    updatesTo
      (rest.map (fun p => ((ServoPosition.session E [(i, v)]).1.getIndex p.1, p.2 % 256)))
      EEPROM_BOOTS_INDEX = 0 ∧
    updatesTo (ServoPosition.sessionLog E ((i, v) :: rest)) EEPROM_BOOTS_INDEX = 1 ∧
    (ServoPosition.session E [(i, v)]).2.read EEPROM_BOOTS_INDEX ≠
      E.read EEPROM_BOOTS_INDEX ∧
    (∀ k, k ≤ rest.length →
      (ServoPosition.session E ((i, v) :: rest.take k)).1.numberOfBoots =
        (ServoPosition.session E [(i, v)]).1.numberOfBoots ∧
      ∀ n, (ServoPosition.session E ((i, v) :: rest.take k)).1.getIndex n =
        (ServoPosition.session E [(i, v)]).1.getIndex n) := by
  have hb2 : E.cells 293 < 256 := by
    rw [EEPROM_BOOTS_INDEX_eq] at hb
    exact hb
  obtain ⟨g1, g2, g3, _⟩ := first_save_generation E i v hb2
  have hone : (ServoPosition.session E [(i, v)]).1 =
      ((ServoPosition.new E).saveServoPosition E i v).1 := rfl
  have hfirst : ServoPosition.sessionLog E [(i, v)] =
      [((ServoPosition.new E).getIndex 2, E.cells ((ServoPosition.new E).getIndex 1) % 256),
       ((ServoPosition.new E).getIndex 1, E.cells ((ServoPosition.new E).getIndex 0) % 256),
       (293, ((ServoPosition.new E).saveServoPosition E i v).1.numberOfBoots % 256),
       (((ServoPosition.new E).saveServoPosition E i v).1.getIndex i, v % 256)] := by
    rw [(session_updates E i v []).2]
    rfl
  have hall : ServoPosition.sessionLog E ((i, v) :: rest) =
      ServoPosition.sessionLog E [(i, v)] ++
        rest.map (fun p => ((ServoPosition.session E [(i, v)]).1.getIndex p.1, p.2 % 256)) := by
    rw [(session_updates E i v rest).2, hfirst, hone]
    simp
  have hn1 := (new_numberOfBoots_bounds E hb2).1
  have hc1 : updatesTo (ServoPosition.sessionLog E [(i, v)]) EEPROM_BOOTS_INDEX = 1 := by
    rw [hfirst, EEPROM_BOOTS_INDEX_eq]
    simp [updatesTo, List.countP_cons, getIndex_ne_boots _ _ hn1, getIndex_ne_boots _ _ g1]
  have hc0 : updatesTo
      (rest.map (fun p => ((ServoPosition.session E [(i, v)]).1.getIndex p.1, p.2 % 256)))
      EEPROM_BOOTS_INDEX = 0 := by
    rw [EEPROM_BOOTS_INDEX_eq, hone]
    exact updatesTo_slots_boots _ rest g1
  refine ⟨hall, hc1, hc0, ?_, ?_, ?_⟩
  · rw [hall, updatesTo_append, hc1, hc0]
  · show ((ServoPosition.new E).saveServoPosition E i v).2.cells EEPROM_BOOTS_INDEX ≠
      E.cells EEPROM_BOOTS_INDEX
    rw [EEPROM_BOOTS_INDEX_eq, first_save_counter E i v hb2]
    exact g3
  · intro k _
    have hk := (session_updates E i v (rest.take k)).1
    rw [hk, hone]
    exact ⟨rfl, fun _ => rfl⟩

theorem one_counter_persist_per_boot_witness :
    EEPROM.sample.read EEPROM_BOOTS_INDEX < 256 ∧
    updatesTo (ServoPosition.sessionLog EEPROM.sample [(0, 130), (1, 2), (0, 2)])
      EEPROM_BOOTS_INDEX = 1 :=
  ⟨by decide,
    (one_counter_persist_per_boot EEPROM.sample (by decide) 0 130 [(1, 2), (0, 2)]).2.2.2.1⟩

/-- C25, as stated, fails. Generation 1, servo 0 at curve byte 2, servo 1 at curve byte 130.
In one boot session servo 0 is saved at 130 and then at 2: the content of cell 295, the slot of
servo 0 in the new generation, changes three times (the copy of the advance and the two
saves). -/
theorem slot_written_on_every_change :
    (ServoPosition.session EEPROM.sample [(0, 130), (0, 2)]).1.getIndex 0 = 295 ∧
    ServoPosition.sessionLog EEPROM.sample [(0, 130), (0, 2)] =
      [(296, 130), (295, 2), (293, 2), (295, 130), (295, 2)] ∧
    contentChanges EEPROM.sample.cells
      (ServoPosition.sessionLog EEPROM.sample [(0, 130), (0, 2)]) 295 = 3 := by
  decide

/-- C25, amended. For every memory whose counter cell holds a byte, every boot session and
every cell `a`: the content of `a` changes at most as often as update calls address it, and
these are at most one (from the advance made by the first save) plus the number of saves of
the session whose servo has its slot at `a`; a cell that is the slot of no saved servo is
addressed at most once. Every update call of the session addresses the generation-counter
cell, the slot of servo 0 or 1, or the slot of a saved servo, all in the generation of the
session; after the NUMBER_OF_SERVOS + 1 calls of the advance, every save makes one update call,
with its value, to the slot of its servo. -/
theorem wear_per_boot (E : EEPROM) (hb : E.read EEPROM_BOOTS_INDEX < 256)
    (l : List (Nat × Nat)) (a : Nat) :
    contentChanges E.cells (ServoPosition.sessionLog E l) a ≤
      updatesTo (ServoPosition.sessionLog E l) a ∧
    updatesTo (ServoPosition.sessionLog E l) a ≤
      1 + l.countP (fun p => decide ((ServoPosition.session E l).1.getIndex p.1 = a)) ∧
    ((∀ p ∈ l, (ServoPosition.session E l).1.getIndex p.1 ≠ a) →
      updatesTo (ServoPosition.sessionLog E l) a ≤ 1) ∧
    (∀ u ∈ ServoPosition.sessionLog E l,
      u.1 = EEPROM_BOOTS_INDEX ∨ u.1 = (ServoPosition.session E l).1.getIndex 0 ∨
      u.1 = (ServoPosition.session E l).1.getIndex 1 ∨
      ∃ p ∈ l, u.1 = (ServoPosition.session E l).1.getIndex p.1) ∧
    (l ≠ [] → ∃ advance, advance.length = NUMBER_OF_SERVOS + 1 ∧
      ServoPosition.sessionLog E l =
        advance ++ l.map (fun p => ((ServoPosition.session E l).1.getIndex p.1, p.2 % 256))) := by
  have hb2 : E.cells 293 < 256 := by
    rw [EEPROM_BOOTS_INDEX_eq] at hb
    exact hb
  have hsaves : l ≠ [] → ∃ advance, advance.length = NUMBER_OF_SERVOS + 1 ∧
      ServoPosition.sessionLog E l =
        advance ++ l.map (fun p => ((ServoPosition.session E l).1.getIndex p.1, p.2 % 256)) := by
    intro hl
    cases l with
    | nil => exact absurd rfl hl
    | cons p rest =>
      obtain ⟨i, v⟩ := p
      obtain ⟨hst, hlog⟩ := session_updates E i v rest
      rw [hlog, hst]
      exact ⟨[((ServoPosition.new E).getIndex 2,
            E.cells ((ServoPosition.new E).getIndex 1) % 256),
          ((ServoPosition.new E).getIndex 1, E.cells ((ServoPosition.new E).getIndex 0) % 256),
          (293, ((ServoPosition.new E).saveServoPosition E i v).1.numberOfBoots % 256)],
        rfl, rfl⟩
  have hmain : updatesTo (ServoPosition.sessionLog E l) a ≤
      1 + l.countP (fun p => decide ((ServoPosition.session E l).1.getIndex p.1 = a)) ∧
    (∀ u ∈ ServoPosition.sessionLog E l,
      u.1 = EEPROM_BOOTS_INDEX ∨ u.1 = (ServoPosition.session E l).1.getIndex 0 ∨
      u.1 = (ServoPosition.session E l).1.getIndex 1 ∨
      ∃ p ∈ l, u.1 = (ServoPosition.session E l).1.getIndex p.1) := by
    cases l with
    | nil =>
      rw [(session_nil E).2]
      exact ⟨Nat.zero_le _, fun u hu => absurd hu (List.not_mem_nil u)⟩
    | cons p rest =>
      obtain ⟨i, v⟩ := p
      obtain ⟨hst, hlog⟩ := session_updates E i v rest
      obtain ⟨g1, g2, g3, g4⟩ := first_save_generation E i v hb2
      have hn1 := (new_numberOfBoots_bounds E hb2).1
      have hn2 := (new_numberOfBoots_bounds E hb2).2
      rw [hlog, hst]
      refine ⟨?_, ?_⟩
      · rw [updatesTo_append, updatesTo_slots]
        have h3 : updatesTo
            [((ServoPosition.new E).getIndex 2,
                E.cells ((ServoPosition.new E).getIndex 1) % 256),
             ((ServoPosition.new E).getIndex 1,
                E.cells ((ServoPosition.new E).getIndex 0) % 256),
             (293, ((ServoPosition.new E).saveServoPosition E i v).1.numberOfBoots % 256)]
            a ≤ 1 := by
          have d1 := getIndex_ne_boots (ServoPosition.new E) 1 hn1
          have d2 := getIndex_ne_boots (ServoPosition.new E) 2 hn1
          have d3 : (ServoPosition.new E).getIndex 1 ≠ (ServoPosition.new E).getIndex 2 := by
            rw [getIndex_eq, getIndex_eq]
            split_ifs <;> omega
          simp only [updatesTo, List.countP_cons, List.countP_nil]
          by_cases e1 : (ServoPosition.new E).getIndex 2 = a <;>
            by_cases e2 : (ServoPosition.new E).getIndex 1 = a <;>
            by_cases e3 : 293 = a <;> simp [e1, e2, e3] <;> omega
        omega
      · intro u hu
        rw [List.mem_append] at hu
        rcases hu with hu | hu
        · simp only [List.mem_cons, List.mem_singleton, List.not_mem_nil, or_false] at hu
          rcases hu with rfl | rfl | rfl
          · exact Or.inr (Or.inr (Or.inl (g4 1 (by omega)).symm))
          · exact Or.inr (Or.inl (g4 0 (by omega)).symm)
          · exact Or.inl EEPROM_BOOTS_INDEX_eq.symm
        · rw [List.mem_map] at hu
          obtain ⟨p, hp, rfl⟩ := hu
          exact Or.inr (Or.inr (Or.inr ⟨p, hp, rfl⟩))
  refine ⟨contentChanges_le _ _ _, hmain.1, ?_, hmain.2, hsaves⟩
  intro hno
  have hz : l.countP (fun p => decide ((ServoPosition.session E l).1.getIndex p.1 = a)) = 0 := by
    rw [List.countP_eq_zero]
    intro p hp
    simpa using hno p hp
  have := hmain.1
  omega

theorem wear_per_boot_witness :
    EEPROM.sample.read EEPROM_BOOTS_INDEX < 256 ∧
    updatesTo (ServoPosition.sessionLog EEPROM.sample [(0, 130), (0, 2)]) 295 ≤
      1 + [(0, 130), (0, 2)].countP (fun p =>
        decide ((ServoPosition.session EEPROM.sample [(0, 130), (0, 2)]).1.getIndex p.1 = 295)) :=
  ⟨by decide, (wear_per_boot EEPROM.sample (by decide) [(0, 130), (0, 2)] 295).2.1⟩

/-- C26. Boot alone causes no wear: the constructor only reads, so a boot session without a
save leaves the memory as it was and makes no update call; for every memory whose counter cell
holds a byte, the first `saveServoPosition` call of the session changes the generation-counter
cell (to the generation the store then uses) and no later call of the session changes it
again. -/
theorem boot_alone_no_wear (E : EEPROM) (hb : E.read EEPROM_BOOTS_INDEX < 256)
    (i v : Nat) (rest : List (Nat × Nat)) :
    (ServoPosition.session E []).2 = E ∧
    ServoPosition.sessionLog E [] = [] ∧
    (ServoPosition.session E [(i, v)]).2.read EEPROM_BOOTS_INDEX ≠
      E.read EEPROM_BOOTS_INDEX ∧
    (ServoPosition.session E [(i, v)]).2.read EEPROM_BOOTS_INDEX =
      (ServoPosition.session E [(i, v)]).1.numberOfBoots ∧
    (ServoPosition.session E ((i, v) :: rest)).2.read EEPROM_BOOTS_INDEX =
      (ServoPosition.session E [(i, v)]).2.read EEPROM_BOOTS_INDEX := by
  have hb2 : E.cells 293 < 256 := by
    rw [EEPROM_BOOTS_INDEX_eq] at hb
    exact hb
  obtain ⟨g1, g2, g3, _⟩ := first_save_generation E i v hb2
  have hc := first_save_counter E i v hb2
  have hf := first_save_firstCall (ServoPosition.new E) E i v (new_firstCall E)
  refine ⟨rfl, (session_nil E).2, ?_, ?_, ?_⟩
  · show ((ServoPosition.new E).saveServoPosition E i v).2.cells EEPROM_BOOTS_INDEX ≠
      E.cells EEPROM_BOOTS_INDEX
    rw [EEPROM_BOOTS_INDEX_eq, hc]
    exact g3
  · show ((ServoPosition.new E).saveServoPosition E i v).2.cells EEPROM_BOOTS_INDEX = _
    rw [EEPROM_BOOTS_INDEX_eq, hc]
    rfl
  · show (ServoPosition.saves rest (((ServoPosition.new E).saveServoPosition E i v).1,
        ((ServoPosition.new E).saveServoPosition E i v).2)).2.cells EEPROM_BOOTS_INDEX =
      ((ServoPosition.new E).saveServoPosition E i v).2.cells EEPROM_BOOTS_INDEX
    rw [EEPROM_BOOTS_INDEX_eq]
    exact later_saves_counter rest _ _ hf g1

theorem boot_alone_no_wear_witness :
    EEPROM.sample.read EEPROM_BOOTS_INDEX < 256 ∧
    (ServoPosition.session EEPROM.sample [(0, 130)]).2.read EEPROM_BOOTS_INDEX ≠
      EEPROM.sample.read EEPROM_BOOTS_INDEX :=
  ⟨by decide, (boot_alone_no_wear EEPROM.sample (by decide) 0 130 [(1, 2)]).2.2.1⟩

/-! ## The position store: reset, erased cells and the wrap -/

theorem clearLoop_cells (todo i : Nat) (E : EEPROM) (a : Nat) :
    (ServoPosition.clearLoop todo i E).cells a =
      if i ≤ a ∧ a < i + todo then 255 else E.cells a := by
  induction todo generalizing i E with
  | zero =>
    show E.cells a = _
    rw [if_neg]
    omega
  | succ k ih =>
    show (ServoPosition.clearLoop k (i + 1) (E.update i 255)).cells a = _
    rw [ih, update_cells]
    split_ifs <;> omega

theorem clear_cells (sp : ServoPosition) (E : EEPROM) (a : Nat) :
    (sp.clearEEPROMCircularBufferValues E).2.cells a =
      if 293 ≤ a ∧ a < 512 then 255 else E.cells a := by
  show (ServoPosition.clearLoop (EEPROM_SIZE - EEPROM_BOOTS_INDEX) EEPROM_BOOTS_INDEX E).cells a
    = _
  rw [clearLoop_cells, EEPROM_BOOTS_INDEX_eq, EEPROM_SIZE_eq]

theorem clear_store (sp : ServoPosition) (E : EEPROM) :
    (sp.clearEEPROMCircularBufferValues E).1 =
      ServoPosition.calculateservoPositions (sp.clearEEPROMCircularBufferValues E).2
        { sp with firstCall := true, numberOfBoots := 1 } := rfl

/-- C27. Reset of the position store: `clearEEPROMCircularBufferValues` sets every cell from
EEPROM_BOOTS_INDEX up to EEPROM_SIZE - 1 to 255 and leaves every other cell unchanged; the
generation of the store object becomes 1 and `firstCall` is set again; the cached position of
every servo is then 0, and a store constructed from the resulting memory also has generation 1,
`firstCall` set and all positions 0. -/
theorem clear_resets_store (sp : ServoPosition) (E : EEPROM) :
    (∀ a, EEPROM_BOOTS_INDEX ≤ a → a < EEPROM_SIZE →
      (sp.clearEEPROMCircularBufferValues E).2.read a = 255) ∧
    (∀ a, a < EEPROM_BOOTS_INDEX →
      (sp.clearEEPROMCircularBufferValues E).2.read a = E.read a) ∧
    (sp.clearEEPROMCircularBufferValues E).1.numberOfBoots = 1 ∧
    (sp.clearEEPROMCircularBufferValues E).1.firstCall = true ∧
    (∀ s, s < NUMBER_OF_SERVOS →
      (sp.clearEEPROMCircularBufferValues E).1.servoPositions s = 0) ∧
    (ServoPosition.new (sp.clearEEPROMCircularBufferValues E).2).numberOfBoots = 1 ∧
    (ServoPosition.new (sp.clearEEPROMCircularBufferValues E).2).firstCall = true ∧
    (∀ s, s < NUMBER_OF_SERVOS →
      (ServoPosition.new (sp.clearEEPROMCircularBufferValues E).2).servoPositions s = 0) := by
  have hcell : ∀ a, 293 ≤ a → a < 512 →
      (sp.clearEEPROMCircularBufferValues E).2.cells a = 255 := by
    intro a h1 h2
    rw [clear_cells, if_pos ⟨h1, h2⟩]
  have hnew : (ServoPosition.new (sp.clearEEPROMCircularBufferValues E).2).numberOfBoots = 1 := by
    rw [new_numberOfBoots, hcell 293 (by omega) (by omega)]
    simp
  refine ⟨?_, ?_, rfl, rfl, ?_, hnew, rfl, ?_⟩
  · intro a h1 h2
    rw [EEPROM_BOOTS_INDEX_eq] at h1
    rw [EEPROM_SIZE_eq] at h2
    exact hcell a h1 h2
  · intro a h1
    rw [EEPROM_BOOTS_INDEX_eq] at h1
    show (sp.clearEEPROMCircularBufferValues E).2.cells a = E.cells a
    rw [clear_cells, if_neg]
    omega
  · intro s hs
    have hs2 : s < 2 := hs
    rw [clear_store, calculateservoPositions_eq]
    have e0 : ServoPosition.getIndex { sp with firstCall := true, numberOfBoots := 1 } 0 = 294 := by
      rw [getIndex_eq]
      rfl
    have e1 : ServoPosition.getIndex { sp with firstCall := true, numberOfBoots := 1 } 1 = 295 := by
      rw [getIndex_eq]
      rfl
    have : s = 0 ∨ s = 1 := by omega
    rcases this with rfl | rfl
    · simp only [e0, hcell 294 (by omega) (by omega)]
      rfl
    · simp only [e1, hcell 295 (by omega) (by omega)]
      rfl
  · intro s hs
    have hs2 : s < 2 := hs
    rw [new_servoPositions _ s hs2]
    have hidx : (ServoPosition.new (sp.clearEEPROMCircularBufferValues E).2).getIndex s =
        294 + s := by
      rw [getIndex_eq, hnew]
      split_ifs <;> omega
    rw [hidx, hcell (294 + s) (by omega) (by omega)]
    rfl

theorem clear_resets_store_witness :
    ((ServoPosition.new EEPROM.sample).clearEEPROMCircularBufferValues EEPROM.sample).1.servoPositions
      1 = 0 :=
  (clear_resets_store (ServoPosition.new EEPROM.sample) EEPROM.sample).2.2.2.2.1 1 (by decide)

/-- C28. Erased cells read as the default position: after the construction of the store, for
every memory content and every servo below NUMBER_OF_SERVOS, the cached position is 0 if the
cell at the slot of the servo holds 255 and the value of that cell otherwise, so it is never
255; a stored generation counter of 0 or 255 gives generation 1, any other stored counter is
the generation. -/
theorem erased_reads_default (E : EEPROM) (s : Nat) (hs : s < NUMBER_OF_SERVOS) :
    (ServoPosition.new E).servoPositions s =
      (if E.read ((ServoPosition.new E).getIndex s) = 255 then 0
       else E.read ((ServoPosition.new E).getIndex s)) ∧
    (ServoPosition.new E).servoPositions s ≠ 255 ∧
    (E.read EEPROM_BOOTS_INDEX = 0 ∨ E.read EEPROM_BOOTS_INDEX = 255 →
      (ServoPosition.new E).numberOfBoots = 1) ∧
    (E.read EEPROM_BOOTS_INDEX ≠ 0 → E.read EEPROM_BOOTS_INDEX ≠ 255 →
      (ServoPosition.new E).numberOfBoots = E.read EEPROM_BOOTS_INDEX) := by
  have hs2 : s < 2 := hs
  have hpos := new_servoPositions E s hs2
  have hgen := new_numberOfBoots E
  refine ⟨hpos, ?_, ?_, ?_⟩
  · rw [hpos]
    split_ifs with h
    · omega
    · exact h
  · intro h
    rw [EEPROM_BOOTS_INDEX_eq] at h
    have h2 : E.cells 293 = 0 ∨ E.cells 293 = 255 := h
    rw [hgen, if_pos h2]
  · intro h0 h255
    rw [EEPROM_BOOTS_INDEX_eq] at h0 h255 ⊢
    have h2 : ¬ (E.cells 293 = 0 ∨ E.cells 293 = 255) := by
      intro h
      rcases h with h | h
      · exact h0 h
      · exact h255 h
    rw [hgen, if_neg h2]
    rfl

theorem erased_reads_default_witness :
    (ServoPosition.new EEPROM.erased).servoPositions 1 =
      (if EEPROM.erased.read ((ServoPosition.new EEPROM.erased).getIndex 1) = 255 then 0
       else EEPROM.erased.read ((ServoPosition.new EEPROM.erased).getIndex 1)) ∧
    (ServoPosition.new EEPROM.erased).numberOfBoots = 1 :=
  ⟨(erased_reads_default EEPROM.erased 1 (by decide)).1,
    (erased_reads_default EEPROM.erased 1 (by decide)).2.2.1 (Or.inr rfl)⟩

/-- C29. No aliasing within a generation: for every generation in 1..SIZE_CIRCULAR_BUFFER and
all distinct servos below NUMBER_OF_SERVOS, `getIndex` gives different addresses, both inside
the position buffer (above EEPROM_BOOTS_INDEX and below EEPROM_SIZE). -/
theorem getIndex_no_aliasing (sp : ServoPosition) (s1 s2 : Nat)
    (h1 : 1 ≤ sp.numberOfBoots) (h2 : sp.numberOfBoots ≤ SIZE_CIRCULAR_BUFFER)
    (hs1 : s1 < NUMBER_OF_SERVOS) (hs2 : s2 < NUMBER_OF_SERVOS) (hne : s1 ≠ s2) :
    sp.getIndex s1 ≠ sp.getIndex s2 ∧
    EEPROM_BOOTS_INDEX < sp.getIndex s1 ∧ sp.getIndex s1 < EEPROM_SIZE := by
  rw [SIZE_CIRCULAR_BUFFER_eq] at h2
  have a1 : s1 < 2 := hs1
  have a2 : s2 < 2 := hs2
  rw [getIndex_eq, getIndex_eq, EEPROM_BOOTS_INDEX_eq, EEPROM_SIZE_eq]
  split_ifs <;> omega

theorem getIndex_no_aliasing_witness :
    ServoPosition.getIndex
        { firstCall := true, numberOfBoots := 218, servoPositions := fun _ => 0 } 0 ≠
      ServoPosition.getIndex
        { firstCall := true, numberOfBoots := 218, servoPositions := fun _ => 0 } 1 :=
  (getIndex_no_aliasing
    { firstCall := true, numberOfBoots := 218, servoPositions := fun _ => 0 } 0 1
    (by decide) (by decide) (by decide) (by decide) (by decide)).1

theorem increment_numberOfBoots (sp : ServoPosition) (E : EEPROM) :
    (sp.incrementNumberOfBoots E).1.numberOfBoots =
      if sp.numberOfBoots = 218 then 1 else (sp.numberOfBoots + 1) % 256 := by
  simp only [ServoPosition.incrementNumberOfBoots, calculateservoPositions_eq,
    SIZE_CIRCULAR_BUFFER_eq]
  split_ifs <;> rfl

theorem advances_numberOfBoots (k : Nat) (r : ServoPosition × EEPROM)
    (h1 : 1 ≤ r.1.numberOfBoots) (h2 : r.1.numberOfBoots ≤ 218) :
    (ServoPosition.advances k r).1.numberOfBoots = (r.1.numberOfBoots - 1 + k) % 218 + 1 := by
  induction k generalizing r with
  | zero =>
    show r.1.numberOfBoots = _
    omega
  | succ j ih =>
    show (ServoPosition.advances j (r.1.incrementNumberOfBoots r.2)).1.numberOfBoots = _
    have hstep := increment_numberOfBoots r.1 r.2
    have b1 : 1 ≤ (r.1.incrementNumberOfBoots r.2).1.numberOfBoots := by
      rw [hstep]; split_ifs <;> omega
    have b2 : (r.1.incrementNumberOfBoots r.2).1.numberOfBoots ≤ 218 := by
      rw [hstep]; split_ifs <;> omega
    rw [ih _ b1 b2, hstep]
    split_ifs <;> omega

/-- C30. Wrap period: starting from any generation in 1..SIZE_CIRCULAR_BUFFER, after exactly
SIZE_CIRCULAR_BUFFER advances (`incrementNumberOfBoots`) the generation and the slot address
of every servo are what they were at the start, and after any number of advances from 1 to
SIZE_CIRCULAR_BUFFER - 1 the generation and the slot address of every servo below
NUMBER_OF_SERVOS differ from what they were at the start. -/
theorem wrap_period (sp : ServoPosition) (E : EEPROM)
    (h1 : 1 ≤ sp.numberOfBoots) (h2 : sp.numberOfBoots ≤ SIZE_CIRCULAR_BUFFER) :
    (ServoPosition.advances SIZE_CIRCULAR_BUFFER (sp, E)).1.numberOfBoots = sp.numberOfBoots ∧
    (∀ s, (ServoPosition.advances SIZE_CIRCULAR_BUFFER (sp, E)).1.getIndex s =
      sp.getIndex s) ∧
    (∀ k, 1 ≤ k → k < SIZE_CIRCULAR_BUFFER →
      (ServoPosition.advances k (sp, E)).1.numberOfBoots ≠ sp.numberOfBoots ∧
      ∀ s, s < NUMBER_OF_SERVOS →
        (ServoPosition.advances k (sp, E)).1.getIndex s ≠ sp.getIndex s) := by
  rw [SIZE_CIRCULAR_BUFFER_eq] at h2 ⊢
  have hfull : (ServoPosition.advances 218 (sp, E)).1.numberOfBoots = sp.numberOfBoots := by
    rw [advances_numberOfBoots 218 (sp, E) h1 h2]
    show (sp.numberOfBoots - 1 + 218) % 218 + 1 = sp.numberOfBoots
    omega
  refine ⟨hfull, fun s => getIndex_congr _ _ hfull s, ?_⟩
  intro k k1 k2
  have hk := advances_numberOfBoots k (sp, E) h1 h2
  have hk2 : (ServoPosition.advances k (sp, E)).1.numberOfBoots =
      (sp.numberOfBoots - 1 + k) % 218 + 1 := hk
  refine ⟨by omega, ?_⟩
  intro s hs
  have hs2 : s < 2 := hs
  rw [getIndex_eq, getIndex_eq, hk2]
  split_ifs <;> omega

theorem wrap_period_witness :
    (ServoPosition.advances SIZE_CIRCULAR_BUFFER
      (ServoPosition.new EEPROM.sample, EEPROM.sample)).1.numberOfBoots =
      (ServoPosition.new EEPROM.sample).numberOfBoots :=
  (wrap_period (ServoPosition.new EEPROM.sample) EEPROM.sample (by decide) (by decide)).1

/-! ## The servo object: curves -/

/-- C31. Curve load bound check: for a curve byte with the EPROM bit (0x40) set and index
(low six bits) at or above NUMBER_OF_CURVES, and for a curve byte with that bit clear and index
above NUMBER_OF_LAST_CURVE, `loadCurve` leaves the servo object as it was and makes no library
call; for every other curve byte it makes exactly one call: with the EPROM bit set
`initCurveFromEEPROM` with start address START_INDEX_SERVO_CURVES + index * 48, with the bit
clear `initCurveFromPROGMEM`, both with the curve byte and the time multiplier of the servo. -/
theorem loadCurve_bound_check (L : Lib) (sv : MyServo) (curve : Nat) :
    (curve &&& EPROM ≠ 0 → NUMBER_OF_CURVES ≤ curve &&& INDEX →
      MyServo.loadCurve L sv curve = sv) ∧
    (curve &&& EPROM = 0 → L.NUMBER_OF_LAST_CURVE < curve &&& INDEX →
      MyServo.loadCurve L sv curve = sv) ∧
    (curve &&& EPROM ≠ 0 → curve &&& INDEX < NUMBER_OF_CURVES →
      (MyServo.loadCurve L sv curve).calls = sv.calls ++
        [LibCall.initCurveFromEEPROM curve sv.timeMultiplier
          (START_INDEX_SERVO_CURVES + (curve &&& INDEX) * 48)] ∧
      (MyServo.loadCurve L sv curve).previousCurve = curve) ∧
    (curve &&& EPROM = 0 → curve &&& INDEX ≤ L.NUMBER_OF_LAST_CURVE →
      (MyServo.loadCurve L sv curve).calls = sv.calls ++
        [LibCall.initCurveFromPROGMEM curve sv.timeMultiplier] ∧
      (MyServo.loadCurve L sv curve).previousCurve = curve) := by
  refine ⟨?_, ?_, ?_, ?_⟩
  · intro he hi
    simp only [MyServo.loadCurve]
    rw [if_pos he, if_neg (by omega)]
  · intro he hi
    simp only [MyServo.loadCurve]
    rw [if_neg (not_not.mpr he), if_neg (by omega)]
  · intro he hi
    simp only [MyServo.loadCurve]
    rw [if_pos he, if_pos hi]
    exact ⟨rfl, rfl⟩
  · intro he hi
    simp only [MyServo.loadCurve]
    rw [if_neg (not_not.mpr he), if_pos hi]
    exact ⟨rfl, rfl⟩

theorem loadCurve_bound_check_witness :
    MyServo.loadCurve Lib.sample (MyServo.sample 0) 0x44 = MyServo.sample 0 ∧
    (MyServo.loadCurve Lib.sample (MyServo.sample 0) 0x43).calls = (MyServo.sample 0).calls ++
      [LibCall.initCurveFromEEPROM 0x43 (MyServo.sample 0).timeMultiplier
        (START_INDEX_SERVO_CURVES + (0x43 &&& INDEX) * 48)] :=
  ⟨(loadCurve_bound_check Lib.sample (MyServo.sample 0) 0x44).1 (by decide) (by decide),
    ((loadCurve_bound_check Lib.sample (MyServo.sample 0) 0x43).2.2.1 (by decide)
      (by decide)).1⟩

/-- C32. Symmetric curve defaulting: for every memory content, after `copyCurveCVs` curve0 is
the CV CurveA and curve1 differs from curve0; when the CV CurveB is 0, 255 or equal to CurveA,
curve1 is CurveA with the direction bit (0x80) toggled; in every other case curve1 is
CurveB. -/
theorem copyCurveCVs_symmetric (sv : MyServo) (E : EEPROM) :
    (sv.copyCurveCVs E).curve0 = ReadServoCV E sv.servoNumber CurveA ∧
    (sv.copyCurveCVs E).curve1 ≠ (sv.copyCurveCVs E).curve0 ∧
    (ReadServoCV E sv.servoNumber CurveB = 0 ∨ ReadServoCV E sv.servoNumber CurveB = 255 ∨
        ReadServoCV E sv.servoNumber CurveB = ReadServoCV E sv.servoNumber CurveA →
      (sv.copyCurveCVs E).curve1 = ReadServoCV E sv.servoNumber CurveA ^^^ DIRECTION) ∧
    (ReadServoCV E sv.servoNumber CurveB ≠ 0 → ReadServoCV E sv.servoNumber CurveB ≠ 255 →
        ReadServoCV E sv.servoNumber CurveB ≠ ReadServoCV E sv.servoNumber CurveA →
      (sv.copyCurveCVs E).curve1 = ReadServoCV E sv.servoNumber CurveB) := by
  have hx : ∀ a : Nat, a ^^^ 128 ≠ a := by
    intro a h
    have h2 : (a ^^^ 128) ^^^ a = a ^^^ a := congrArg (fun x => x ^^^ a) h
    rw [Nat.xor_comm a 128, Nat.xor_assoc, Nat.xor_self, Nat.xor_zero] at h2
    exact absurd h2 (by decide)
  simp only [MyServo.copyCurveCVs, DIRECTION]
  generalize ReadServoCV E sv.servoNumber CurveA = a
  generalize ReadServoCV E sv.servoNumber CurveB = b
  refine ⟨trivial, ?_, ?_, ?_⟩
  · by_cases h1 : b = 0 ∨ b = 255
    · rw [if_pos h1, if_neg (hx a)]
      exact hx a
    · rw [if_neg h1]
      by_cases h2 : b = a
      · rw [if_pos h2, h2]
        exact hx a
      · rw [if_neg h2]
        exact h2
  · intro h
    by_cases h1 : b = 0 ∨ b = 255
    · rw [if_pos h1, if_neg (hx a)]
    · rw [if_neg h1]
      have h2 : b = a := by
        rcases h with h | h | h
        · exact absurd (Or.inl h) h1
        · exact absurd (Or.inr h) h1
        · exact h
      rw [if_pos h2, h2]
  · intro n0 n255 na
    have h1 : ¬ (b = 0 ∨ b = 255) := by
      intro h
      rcases h with h | h
      · exact n0 h
      · exact n255 h
    rw [if_neg h1, if_neg na]

theorem copyCurveCVs_symmetric_witness :
    ((MyServo.sample 0).copyCurveCVs EEPROM.sample).curve1 =
      ReadServoCV EEPROM.sample (MyServo.sample 0).servoNumber CurveA ^^^ DIRECTION :=
  (copyCurveCVs_symmetric (MyServo.sample 0) EEPROM.sample).2.2.1 (by decide)

/-! ## Lemmas: the generation advance -/

theorem getIndex_ge (sp : ServoPosition) (n : Nat) : 293 ≤ sp.getIndex n := by
  rw [getIndex_eq]
  split_ifs <;> omega

theorem increment_getIndex (sp : ServoPosition) (E : EEPROM) (n : Nat)
    (h1 : 1 ≤ sp.numberOfBoots) (h2 : sp.numberOfBoots ≤ 218) (hn : n < 218) :
    (sp.incrementNumberOfBoots E).1.getIndex n = sp.getIndex (n + 1) := by
  rw [getIndex_eq, getIndex_eq, increment_numberOfBoots]
  by_cases hw : sp.numberOfBoots = 218
  · rw [if_pos hw, hw]
    split_ifs <;> omega
  · rw [if_neg hw, Nat.mod_eq_of_lt (by omega)]
    split_ifs <;> omega

/-- The memory after the advance: the generation counter, the two copies, everything else as
it was. -/
theorem increment_cells (sp : ServoPosition) (E : EEPROM) (a : Nat) :
    (sp.incrementNumberOfBoots E).2.cells a =
      if a = 293 then (sp.incrementNumberOfBoots E).1.numberOfBoots % 256
      else if a = sp.getIndex 1 then E.cells (sp.getIndex 0) % 256
      else if a = sp.getIndex 2 then E.cells (sp.getIndex 1) % 256
      else E.cells a := by
  have hs : ∀ n, ServoPosition.getIndex { sp with firstCall := false } n = sp.getIndex n :=
    fun _ => rfl
  have hne : sp.getIndex 0 ≠ sp.getIndex 2 := by
    rw [getIndex_eq, getIndex_eq]
    split_ifs <;> omega
  have hcells : (sp.incrementNumberOfBoots E).2.cells a =
      (EEPROM.update (EEPROM.update (EEPROM.update E (sp.getIndex 2) (E.read (sp.getIndex 1)))
        (sp.getIndex 1)
        ((EEPROM.update E (sp.getIndex 2) (E.read (sp.getIndex 1))).read (sp.getIndex 0)))
        293 (sp.incrementNumberOfBoots E).1.numberOfBoots).cells a := by
    simp only [ServoPosition.incrementNumberOfBoots, calculateservoPositions_eq,
      EEPROM_BOOTS_INDEX_eq]
    rfl
  rw [hcells]
  simp only [update_cells, EEPROM.read, if_neg hne]

theorem calculate_positions (E : EEPROM) (sp : ServoPosition) (s : Nat) (hs : s < 2) :
    (ServoPosition.calculateservoPositions E sp).servoPositions s =
      (if E.cells (sp.getIndex s) = 255 then 0 else E.cells (sp.getIndex s)) ∧
    (ServoPosition.calculateservoPositions E sp).numberOfBoots = sp.numberOfBoots ∧
    (ServoPosition.calculateservoPositions E sp).firstCall = sp.firstCall := by
  rw [calculateservoPositions_eq]
  refine ⟨?_, rfl, rfl⟩
  have hcase : s = 0 ∨ s = 1 := by omega
  rcases hcase with rfl | rfl <;> rfl

theorem increment_positions (sp : ServoPosition) (E : EEPROM) (s : Nat) (hs : s < 2) :
    (sp.incrementNumberOfBoots E).1.servoPositions s =
      (if (sp.incrementNumberOfBoots E).2.cells ((sp.incrementNumberOfBoots E).1.getIndex s)
          = 255 then 0
       else (sp.incrementNumberOfBoots E).2.cells
        ((sp.incrementNumberOfBoots E).1.getIndex s)) := by
  have hdec : ∀ (sq : ServoPosition) (F : EEPROM),
      ((ServoPosition.calculateservoPositions F sq, F) : ServoPosition × EEPROM).1.servoPositions
        s =
      (if F.cells (ServoPosition.getIndex (ServoPosition.calculateservoPositions F sq) s) = 255
        then 0
       else F.cells (ServoPosition.getIndex (ServoPosition.calculateservoPositions F sq) s)) := by
    intro sq F
    have hg : ServoPosition.getIndex (ServoPosition.calculateservoPositions F sq) s =
        sq.getIndex s := getIndex_congr _ _ (calculate_positions F sq s hs).2.1 s
    rw [hg]
    exact (calculate_positions F sq s hs).1
  exact hdec _ _

theorem save_first (sp : ServoPosition) (E : EEPROM) (i v : Nat) (hf : sp.firstCall = true) :
    sp.saveServoPosition E i v =
      ((sp.incrementNumberOfBoots E).1,
        (sp.incrementNumberOfBoots E).2.update ((sp.incrementNumberOfBoots E).1.getIndex i) v) := by
  simp [ServoPosition.saveServoPosition, hf]

theorem increment_bounds (sp : ServoPosition) (E : EEPROM)
    (h1 : 1 ≤ sp.numberOfBoots) (h2 : sp.numberOfBoots ≤ 218) :
    1 ≤ (sp.incrementNumberOfBoots E).1.numberOfBoots ∧
    (sp.incrementNumberOfBoots E).1.numberOfBoots ≤ 218 := by
  rw [increment_numberOfBoots]
  split_ifs <;> omega

/-- The generation and the counter cell after any `saveServoPosition` on a store with a
generation in 1..218. -/
theorem save_generation (sp : ServoPosition) (E : EEPROM) (i v : Nat)
    (h1 : 1 ≤ sp.numberOfBoots) (h2 : sp.numberOfBoots ≤ 218) :
    1 ≤ (sp.saveServoPosition E i v).1.numberOfBoots ∧
    (sp.saveServoPosition E i v).1.numberOfBoots ≤ 218 ∧
    (sp.saveServoPosition E i v).2.cells 293 =
      (if sp.firstCall = true then (sp.saveServoPosition E i v).1.numberOfBoots
       else E.cells 293) := by
  cases hf : sp.firstCall with
  | false =>
    rw [later_save sp E i v hf]
    refine ⟨h1, h2, ?_⟩
    rw [update_cells, if_neg (fun h => getIndex_ne_boots sp i h1 h.symm)]
    simp
  | true =>
    rw [save_first sp E i v hf]
    obtain ⟨b1, b2⟩ := increment_bounds sp E h1 h2
    refine ⟨b1, b2, ?_⟩
    rw [update_cells, if_neg (fun h => getIndex_ne_boots _ i b1 h.symm), increment_cells,
      if_pos rfl, Nat.mod_eq_of_lt (by omega)]
    simp

theorem runOps_valid (ops : List StoreOp) (r : ServoPosition × EEPROM)
    (h1 : 1 ≤ r.1.numberOfBoots) (h2 : r.1.numberOfBoots ≤ 218)
    (hc : r.2.cells 293 = 0 ∨ r.2.cells 293 = 255 ∨ (1 ≤ r.2.cells 293 ∧ r.2.cells 293 ≤ 218)) :
    1 ≤ (ServoPosition.runOps ops r).1.numberOfBoots ∧
    (ServoPosition.runOps ops r).1.numberOfBoots ≤ 218 := by
  induction ops generalizing r with
  | nil => exact ⟨h1, h2⟩
  | cons op rest ih =>
    show 1 ≤ (ServoPosition.runOps rest (ServoPosition.applyOp op r)).1.numberOfBoots ∧
      (ServoPosition.runOps rest (ServoPosition.applyOp op r)).1.numberOfBoots ≤ 218
    cases op with
    | construct =>
      obtain ⟨g1, g2, -⟩ := validStore_new r.2 hc
      exact ih (ServoPosition.new r.2, r.2) g1 g2 hc
    | save number value =>
      obtain ⟨g1, g2, g3⟩ := save_generation r.1 r.2 number value h1 h2
      have hop : ServoPosition.applyOp (StoreOp.save number value) r =
          r.1.saveServoPosition r.2 number value := rfl
      rw [hop]
      refine ih _ g1 g2 ?_
      rw [g3]
      split_ifs
      · exact Or.inr (Or.inr ⟨g1, g2⟩)
      · exact hc
    | clear =>
      have hop : ServoPosition.applyOp StoreOp.clear r =
          r.1.clearEEPROMCircularBufferValues r.2 := rfl
      have hnb : (r.1.clearEEPROMCircularBufferValues r.2).1.numberOfBoots = 1 := by
        rw [clear_store, calculateservoPositions_eq]
      have hcell : (r.1.clearEEPROMCircularBufferValues r.2).2.cells 293 = 255 := by
        rw [clear_cells, if_pos ⟨by omega, by omega⟩]
      rw [hop]
      exact ih _ (by rw [hnb]) (by rw [hnb]; omega) (Or.inr (Or.inl hcell))

/-! ## The position store: the generation advance -/

/-- C33. The generation advance keeps every position readable: for a memory of bytes and a
generation in 1..SIZE_CIRCULAR_BUFFER, after `incrementNumberOfBoots` the cell at the new slot
of every servo below NUMBER_OF_SERVOS holds what the old slot of that servo held before, and
the cached positions are what the old slots give; a copy never reads a cell that an earlier
copy of the loop has written (the slot read for servo index m differs from every slot k above
m + 1 written before); after the whole first `saveServoPosition(i, v)` of a boot this still
holds for every servo other than `i`, and the slot of `i` holds `v`. -/
theorem advance_keeps_positions (sp : ServoPosition) (E : EEPROM)
    (hbytes : ∀ a, E.read a < 256)
    (h1 : 1 ≤ sp.numberOfBoots) (h2 : sp.numberOfBoots ≤ SIZE_CIRCULAR_BUFFER) :
    (∀ s, s < NUMBER_OF_SERVOS →
      (sp.incrementNumberOfBoots E).2.read ((sp.incrementNumberOfBoots E).1.getIndex s) =
        E.read (sp.getIndex s) ∧
      (sp.incrementNumberOfBoots E).1.servoPositions s =
        (if E.read (sp.getIndex s) = 255 then 0 else E.read (sp.getIndex s))) ∧
    (∀ m k, m + 1 < k → k ≤ NUMBER_OF_SERVOS → sp.getIndex m ≠ sp.getIndex k) ∧
    (sp.firstCall = true → ∀ i v s, i < NUMBER_OF_SERVOS → s < NUMBER_OF_SERVOS →
      (sp.saveServoPosition E i v).2.read ((sp.saveServoPosition E i v).1.getIndex s) =
        (if s = i then v % 256 else E.read (sp.getIndex s))) := by
  rw [SIZE_CIRCULAR_BUFFER_eq] at h2
  have hb : ∀ a, E.cells a < 256 := hbytes
  obtain ⟨b1, b2⟩ := increment_bounds sp E h1 h2
  have hslot : ∀ s, s < 2 →
      (sp.incrementNumberOfBoots E).2.cells ((sp.incrementNumberOfBoots E).1.getIndex s) =
        E.cells (sp.getIndex s) := by
    intro s hs
    rw [increment_getIndex sp E s h1 h2 (by omega), increment_cells,
      if_neg (getIndex_ne_boots sp (s + 1) h1)]
    have hcase : s = 0 ∨ s = 1 := by omega
    rcases hcase with rfl | rfl
    · rw [if_pos rfl, Nat.mod_eq_of_lt (hb _)]
    · have hne : sp.getIndex 2 ≠ sp.getIndex 1 := by
        rw [getIndex_eq, getIndex_eq]
        split_ifs <;> omega
      rw [if_neg hne, if_pos rfl, Nat.mod_eq_of_lt (hb _)]
  refine ⟨?_, ?_, ?_⟩
  · intro s hs
    have hs2 : s < 2 := hs
    refine ⟨hslot s hs2, ?_⟩
    rw [increment_positions sp E s hs2]
    show (if (sp.incrementNumberOfBoots E).2.cells ((sp.incrementNumberOfBoots E).1.getIndex s)
        = 255 then 0
      else (sp.incrementNumberOfBoots E).2.cells ((sp.incrementNumberOfBoots E).1.getIndex s)) =
      (if E.cells (sp.getIndex s) = 255 then 0 else E.cells (sp.getIndex s))
    rw [hslot s hs2]
  · intro m k hmk hk
    have hk2 : k ≤ 2 := hk
    rw [getIndex_eq, getIndex_eq]
    split_ifs <;> omega
  · intro hf i v s hi hs
    have hi2 : i < 2 := hi
    have hs2 : s < 2 := hs
    rw [save_first sp E i v hf]
    show (EEPROM.update _ _ v).cells _ = _
    rw [update_cells]
    by_cases hsi : s = i
    · rw [if_pos (by rw [hsi]), if_pos hsi]
    · have hne : (sp.incrementNumberOfBoots E).1.getIndex s ≠
          (sp.incrementNumberOfBoots E).1.getIndex i := by
        rw [getIndex_eq, getIndex_eq]
        split_ifs <;> omega
      rw [if_neg hne, if_neg hsi]
      exact hslot s hs2

theorem advance_keeps_positions_witness :
    (ServoPosition.incrementNumberOfBoots (ServoPosition.new EEPROM.sample) EEPROM.sample).2.read
      ((ServoPosition.incrementNumberOfBoots (ServoPosition.new EEPROM.sample)
        EEPROM.sample).1.getIndex 1) =
      EEPROM.sample.read ((ServoPosition.new EEPROM.sample).getIndex 1) :=
  ((advance_keeps_positions (ServoPosition.new EEPROM.sample) EEPROM.sample
    (by intro a; simp only [EEPROM.read, EEPROM.sample]; split_ifs <;> omega)
    (by decide) (by decide)).1 1 (by decide)).1

/-- C34. The generation counter stays in 1..SIZE_CIRCULAR_BUFFER: the advance maps a generation
g in that range to g + 1 when g is below SIZE_CIRCULAR_BUFFER and to 1 when g is
SIZE_CIRCULAR_BUFFER, and stores that value at EEPROM_BOOTS_INDEX; in every state reached from
the construction of the store on a memory whose counter is 0, 255 or in
1..SIZE_CIRCULAR_BUFFER by any sequence of constructions, saves and clears, the generation of
the store object is in 1..SIZE_CIRCULAR_BUFFER, so never 0. -/
theorem generation_stays_valid (sp : ServoPosition) (E : EEPROM) (E0 : EEPROM)
    (ops : List StoreOp) :
    (1 ≤ sp.numberOfBoots → sp.numberOfBoots ≤ SIZE_CIRCULAR_BUFFER →
      (sp.incrementNumberOfBoots E).1.numberOfBoots =
        (if sp.numberOfBoots < SIZE_CIRCULAR_BUFFER then sp.numberOfBoots + 1 else 1) ∧
      (sp.incrementNumberOfBoots E).2.read EEPROM_BOOTS_INDEX =
        (sp.incrementNumberOfBoots E).1.numberOfBoots) ∧
    (E0.read EEPROM_BOOTS_INDEX = 0 ∨ E0.read EEPROM_BOOTS_INDEX = 255 ∨
        (1 ≤ E0.read EEPROM_BOOTS_INDEX ∧
          E0.read EEPROM_BOOTS_INDEX ≤ SIZE_CIRCULAR_BUFFER) →
      1 ≤ (ServoPosition.runOps ops (ServoPosition.new E0, E0)).1.numberOfBoots ∧
      (ServoPosition.runOps ops (ServoPosition.new E0, E0)).1.numberOfBoots ≤
        SIZE_CIRCULAR_BUFFER ∧
      (ServoPosition.runOps ops (ServoPosition.new E0, E0)).1.numberOfBoots ≠ 0) := by
  rw [SIZE_CIRCULAR_BUFFER_eq, EEPROM_BOOTS_INDEX_eq]
  refine ⟨?_, ?_⟩
  · intro h1 h2
    obtain ⟨b1, b2⟩ := increment_bounds sp E h1 h2
    refine ⟨?_, ?_⟩
    · rw [increment_numberOfBoots]
      split_ifs <;> omega
    · show (sp.incrementNumberOfBoots E).2.cells 293 = _
      rw [increment_cells, if_pos rfl, Nat.mod_eq_of_lt (by omega)]
  · intro hc
    have hc2 : E0.cells 293 = 0 ∨ E0.cells 293 = 255 ∨ (1 ≤ E0.cells 293 ∧ E0.cells 293 ≤ 218) :=
      hc
    obtain ⟨g1, g2, -⟩ := validStore_new E0 hc2
    obtain ⟨r1, r2⟩ := runOps_valid ops (ServoPosition.new E0, E0) g1 g2 hc2
    exact ⟨r1, r2, by omega⟩

theorem generation_stays_valid_witness :
    1 ≤ (ServoPosition.runOps
      [StoreOp.save 0 130, StoreOp.construct, StoreOp.clear, StoreOp.save 1 2]
      (ServoPosition.new EEPROM.sample, EEPROM.sample)).1.numberOfBoots ∧
    (ServoPosition.runOps
      [StoreOp.save 0 130, StoreOp.construct, StoreOp.clear, StoreOp.save 1 2]
      (ServoPosition.new EEPROM.sample, EEPROM.sample)).1.numberOfBoots ≤
        SIZE_CIRCULAR_BUFFER ∧
    (ServoPosition.runOps
      [StoreOp.save 0 130, StoreOp.construct, StoreOp.clear, StoreOp.save 1 2]
      (ServoPosition.new EEPROM.sample, EEPROM.sample)).1.numberOfBoots ≠ 0 :=
  (generation_stays_valid (ServoPosition.new EEPROM.sample) EEPROM.sample EEPROM.sample
    [StoreOp.save 0 130, StoreOp.construct, StoreOp.clear, StoreOp.save 1 2]).2 (by decide)

/-- C35. Slot addresses stay inside the rotating buffer: with EEPROM_SIZE 512, 2 servos,
EEPROM_BOOTS_INDEX 293 and SIZE_CIRCULAR_BUFFER 218, for every generation g in
1..SIZE_CIRCULAR_BUFFER and every index s from 0 to NUMBER_OF_SERVOS, `getIndex(s)` is
EEPROM_BOOTS_INDEX + g + s, less SIZE_CIRCULAR_BUFFER when that sum reaches EEPROM_SIZE; it lies
in [EEPROM_BOOTS_INDEX + 1, EEPROM_SIZE - 1] and differs from EEPROM_BOOTS_INDEX. -/
theorem getIndex_in_buffer (sp : ServoPosition) (s : Nat)
    (h1 : 1 ≤ sp.numberOfBoots) (h2 : sp.numberOfBoots ≤ SIZE_CIRCULAR_BUFFER)
    (hs : s ≤ NUMBER_OF_SERVOS) :
    EEPROM_SIZE = 512 ∧ NUMBER_OF_SERVOS = 2 ∧ EEPROM_BOOTS_INDEX = 293 ∧
    SIZE_CIRCULAR_BUFFER = 218 ∧
    sp.getIndex s =
      (if EEPROM_SIZE ≤ EEPROM_BOOTS_INDEX + sp.numberOfBoots + s then
        EEPROM_BOOTS_INDEX + sp.numberOfBoots + s - SIZE_CIRCULAR_BUFFER
       else EEPROM_BOOTS_INDEX + sp.numberOfBoots + s) ∧
    EEPROM_BOOTS_INDEX + 1 ≤ sp.getIndex s ∧ sp.getIndex s ≤ EEPROM_SIZE - 1 ∧
    sp.getIndex s ≠ EEPROM_BOOTS_INDEX := by
  have hs2 : s ≤ 2 := hs
  rw [SIZE_CIRCULAR_BUFFER_eq] at h2
  rw [getIndex_eq, EEPROM_BOOTS_INDEX_eq, SIZE_CIRCULAR_BUFFER_eq, EEPROM_SIZE_eq,
    NUMBER_OF_SERVOS_eq]
  refine ⟨rfl, rfl, rfl, rfl, rfl, ?_, ?_, ?_⟩ <;> split_ifs <;> omega

theorem getIndex_in_buffer_witness :
    ServoPosition.getIndex
      { firstCall := false, numberOfBoots := 218, servoPositions := fun _ => 0 } 2 = 295 :=
  (getIndex_in_buffer
    { firstCall := false, numberOfBoots := 218, servoPositions := fun _ => 0 } 2 (by decide)
    (by decide) (by decide)).2.2.2.2.1

/-- What a store constructed after a save reads for another servo, for a store object that
agrees with a memory of bytes. -/
theorem sync_save_keeps_position (sp : ServoPosition) (E : EEPROM) (i v j : Nat)
    (hbytes : ∀ a, E.read a < 256)
    (h1 : 1 ≤ sp.numberOfBoots) (h2 : sp.numberOfBoots ≤ SIZE_CIRCULAR_BUFFER)
    (hfirst : sp.firstCall = true → sp.numberOfBoots = (ServoPosition.new E).numberOfBoots)
    (hlater : sp.firstCall = false → E.read EEPROM_BOOTS_INDEX = sp.numberOfBoots)
    (hi : i < NUMBER_OF_SERVOS) (hj : j < NUMBER_OF_SERVOS) (hji : j ≠ i) :
    (ServoPosition.new (sp.saveServoPosition E i v).2).servoPositions j =
      (ServoPosition.new E).servoPositions j := by
  rw [SIZE_CIRCULAR_BUFFER_eq] at h2
  have hi2 : i < 2 := hi
  have hj2 : j < 2 := hj
  have hb : ∀ a, E.cells a < 256 := hbytes
  obtain ⟨g1, g2, g3⟩ := save_generation sp E i v h1 h2
  rw [new_servoPositions _ j hj2, new_servoPositions E j hj2]
  cases hf : sp.firstCall with
  | false =>
    have hcnt : E.cells 293 = sp.numberOfBoots := by
      have := hlater hf
      rw [EEPROM_BOOTS_INDEX_eq] at this
      exact this
    have hsave := later_save sp E i v hf
    have hold : (ServoPosition.new E).numberOfBoots = sp.numberOfBoots := by
      rw [new_numberOfBoots, hcnt]
      split_ifs <;> omega
    have hnew : (ServoPosition.new (sp.saveServoPosition E i v).2).numberOfBoots =
        sp.numberOfBoots := by
      rw [new_numberOfBoots, g3, hf]
      simp only [Bool.false_eq_true, if_false]
      rw [hcnt]
      split_ifs <;> omega
    rw [getIndex_congr _ sp hnew, getIndex_congr _ sp hold, hsave]
    have hne : sp.getIndex j ≠ sp.getIndex i := by
      rw [getIndex_eq, getIndex_eq]
      split_ifs <;> omega
    show (if (EEPROM.update E (sp.getIndex i) v).cells (sp.getIndex j) = 255 then 0
      else (EEPROM.update E (sp.getIndex i) v).cells (sp.getIndex j)) = _
    rw [update_cells, if_neg hne]
  | true =>
    have hsave := save_first sp E i v hf
    obtain ⟨b1, b2⟩ := increment_bounds sp E h1 h2
    have hgen : (sp.saveServoPosition E i v).1.numberOfBoots =
        (sp.incrementNumberOfBoots E).1.numberOfBoots := by
      rw [hsave]
    have hold : (ServoPosition.new E).numberOfBoots = sp.numberOfBoots := (hfirst hf).symm
    have hnew : (ServoPosition.new (sp.saveServoPosition E i v).2).numberOfBoots =
        (sp.incrementNumberOfBoots E).1.numberOfBoots := by
      rw [new_numberOfBoots, g3, hf]
      simp only [if_true]
      rw [hgen]
      split_ifs <;> omega
    rw [getIndex_congr _ _ hnew, getIndex_congr _ sp hold, hsave]
    have hne : (sp.incrementNumberOfBoots E).1.getIndex j ≠
        (sp.incrementNumberOfBoots E).1.getIndex i := by
      rw [getIndex_eq, getIndex_eq]
      split_ifs <;> omega
    have hslot : (sp.incrementNumberOfBoots E).2.cells
        ((sp.incrementNumberOfBoots E).1.getIndex j) = E.cells (sp.getIndex j) := by
      rw [increment_getIndex sp E j h1 h2 (by omega), increment_cells,
        if_neg (getIndex_ne_boots sp (j + 1) h1)]
      have hcase : j = 0 ∨ j = 1 := by omega
      rcases hcase with rfl | rfl
      · rw [if_pos rfl, Nat.mod_eq_of_lt (hb _)]
      · have hne21 : sp.getIndex 2 ≠ sp.getIndex 1 := by
          rw [getIndex_eq, getIndex_eq]
          split_ifs <;> omega
        rw [if_neg hne21, if_pos rfl, Nat.mod_eq_of_lt (hb _)]
    show (if (EEPROM.update (sp.incrementNumberOfBoots E).2
          ((sp.incrementNumberOfBoots E).1.getIndex i) v).cells
          ((sp.incrementNumberOfBoots E).1.getIndex j) = 255 then 0
      else (EEPROM.update (sp.incrementNumberOfBoots E).2
          ((sp.incrementNumberOfBoots E).1.getIndex i) v).cells
          ((sp.incrementNumberOfBoots E).1.getIndex j)) = _
    rw [update_cells, if_neg hne, hslot]


theorem save_bytes (sp : ServoPosition) (E : EEPROM) (n v : Nat)
    (hb : ∀ a, E.cells a < 256) : ∀ a, (sp.saveServoPosition E n v).2.cells a < 256 := by
  intro a
  cases hf : sp.firstCall with
  | false =>
    rw [later_save sp E n v hf, update_cells]
    split_ifs
    · exact Nat.mod_lt _ (by omega)
    · exact hb a
  | true =>
    rw [save_first sp E n v hf, update_cells, increment_cells]
    split_ifs
    · exact Nat.mod_lt _ (by omega)
    · exact Nat.mod_lt _ (by omega)
    · exact Nat.mod_lt _ (by omega)
    · exact Nat.mod_lt _ (by omega)
    · exact hb a

theorem save_firstCall (sp : ServoPosition) (E : EEPROM) (n v : Nat) :
    (sp.saveServoPosition E n v).1.firstCall = false := by
  cases hf : sp.firstCall with
  | false => rw [later_save sp E n v hf]; exact hf
  | true => exact first_save_firstCall sp E n v hf

/-- Every state reached by constructions, saves and clears from a store object that agrees
with a memory of bytes is again such a state. -/
theorem runOps_sync (ops : List StoreOp) (r : ServoPosition × EEPROM)
    (hb : ∀ a, r.2.cells a < 256)
    (h1 : 1 ≤ r.1.numberOfBoots) (h2 : r.1.numberOfBoots ≤ 218)
    (hfirst : r.1.firstCall = true → r.1.numberOfBoots = (ServoPosition.new r.2).numberOfBoots)
    (hlater : r.1.firstCall = false → r.2.cells 293 = r.1.numberOfBoots) :
    (∀ a, (ServoPosition.runOps ops r).2.cells a < 256) ∧
    1 ≤ (ServoPosition.runOps ops r).1.numberOfBoots ∧
    (ServoPosition.runOps ops r).1.numberOfBoots ≤ 218 ∧
    ((ServoPosition.runOps ops r).1.firstCall = true →
      (ServoPosition.runOps ops r).1.numberOfBoots =
        (ServoPosition.new (ServoPosition.runOps ops r).2).numberOfBoots) ∧
    ((ServoPosition.runOps ops r).1.firstCall = false →
      (ServoPosition.runOps ops r).2.cells 293 = (ServoPosition.runOps ops r).1.numberOfBoots) := by
  induction ops generalizing r with
  | nil => exact ⟨hb, h1, h2, hfirst, hlater⟩
  | cons op rest ih =>
    show (∀ a, (ServoPosition.runOps rest (ServoPosition.applyOp op r)).2.cells a < 256) ∧ _
    have hcounter : r.2.cells 293 = 0 ∨ r.2.cells 293 = 255 ∨
        (1 ≤ r.2.cells 293 ∧ r.2.cells 293 ≤ 218) := by
      cases hf : r.1.firstCall with
      | false =>
        have := hlater hf
        omega
      | true =>
        have hn := hfirst hf
        rw [new_numberOfBoots] at hn
        by_cases hz : r.2.cells 293 = 0 ∨ r.2.cells 293 = 255
        · rcases hz with hz | hz
          · exact Or.inl hz
          · exact Or.inr (Or.inl hz)
        · rw [if_neg hz] at hn
          exact Or.inr (Or.inr ⟨by omega, by omega⟩)
    cases op with
    | construct =>
      have hop : ServoPosition.applyOp StoreOp.construct r = (ServoPosition.new r.2, r.2) := rfl
      rw [hop]
      obtain ⟨g1, g2, -⟩ := validStore_new r.2 hcounter
      exact ih (ServoPosition.new r.2, r.2) hb g1 g2 (fun _ => rfl)
        (fun h => absurd ((new_firstCall r.2).symm.trans h) (by decide))
    | save number value =>
      have hop : ServoPosition.applyOp (StoreOp.save number value) r =
          r.1.saveServoPosition r.2 number value := rfl
      rw [hop]
      obtain ⟨g1, g2, g3⟩ := save_generation r.1 r.2 number value h1 h2
      have hfc := save_firstCall r.1 r.2 number value
      refine ih _ (save_bytes r.1 r.2 number value hb) g1 g2
        (fun h => absurd (hfc.symm.trans h) (by decide)) (fun _ => ?_)
      rw [g3]
      cases hf : r.1.firstCall with
      | false =>
        simp only [Bool.false_eq_true, if_false]
        rw [hlater hf, later_save r.1 r.2 number value hf]
      | true => simp only [if_true]
    | clear =>
      have hop : ServoPosition.applyOp StoreOp.clear r =
          r.1.clearEEPROMCircularBufferValues r.2 := rfl
      have hnb : (r.1.clearEEPROMCircularBufferValues r.2).1.numberOfBoots = 1 := by
        rw [clear_store, calculateservoPositions_eq]
      have hfc : (r.1.clearEEPROMCircularBufferValues r.2).1.firstCall = true := by
        rw [clear_store, calculateservoPositions_eq]
      have hcell : (r.1.clearEEPROMCircularBufferValues r.2).2.cells 293 = 255 := by
        rw [clear_cells, if_pos ⟨by omega, by omega⟩]
      rw [hop]
      refine ih _ ?_ (by rw [hnb]) (by rw [hnb]; omega) (fun _ => ?_)
        (fun h => absurd (hfc.symm.trans h) (by decide))
      · intro a
        rw [clear_cells]
        split_ifs
        · omega
        · exact hb a
      · rw [hnb, new_numberOfBoots, hcell]
        simp

theorem runOps_saves (l : List (Nat × Nat)) (r : ServoPosition × EEPROM) :
    ServoPosition.runOps (l.map (fun p => StoreOp.save p.1 p.2)) r = ServoPosition.saves l r := by
  induction l generalizing r with
  | nil => rfl
  | cons p rest ih =>
    obtain ⟨number, value⟩ := p
    show ServoPosition.runOps (rest.map (fun p => StoreOp.save p.1 p.2))
      (r.1.saveServoPosition r.2 number value) = _
    rw [ih]
    rfl

set_option maxRecDepth 100000 in
/-- C40, as stated, fails. Generation 1, servo 0 at curve byte 2, servo 1 at curve byte 130.
The store object saves servo 1 (it now has generation 2 and `firstCall` false); then
`CreateDefaultServoValuesInEEPROM` clears the buffer through its own local object, which leaves
this store object as it is. A store constructed from the memory reads position 0 for servo 1;
after `saveServoPosition(0, 130)` on the store object, whose generation 2 is in
1..SIZE_CIRCULAR_BUFFER, a store constructed from the memory reads 130 for servo 1. -/
theorem stale_store_save_disturbs_other :
    ((ServoPosition.new EEPROM.sample).saveServoPosition EEPROM.sample 1 130).1.numberOfBoots
      = 2 ∧
    2 ≤ SIZE_CIRCULAR_BUFFER ∧
    ((ServoPosition.new EEPROM.sample).saveServoPosition EEPROM.sample 1 130).1.firstCall
      = false ∧
    (ServoPosition.new (CreateDefaultServoValuesInEEPROM
      ((ServoPosition.new EEPROM.sample).saveServoPosition EEPROM.sample 1
        130).2)).numberOfBoots = 1 ∧
    (ServoPosition.new (CreateDefaultServoValuesInEEPROM
      ((ServoPosition.new EEPROM.sample).saveServoPosition EEPROM.sample 1
        130).2)).servoPositions 1 = 0 ∧
    (ServoPosition.new
      (((ServoPosition.new EEPROM.sample).saveServoPosition EEPROM.sample 1
          130).1.saveServoPosition
        (CreateDefaultServoValuesInEEPROM
          ((ServoPosition.new EEPROM.sample).saveServoPosition EEPROM.sample 1 130).2)
        0 130).2).servoPositions 1 = 130 := by
  decide

/-- C40, amended. For a memory of bytes and a store object with a generation in
1..SIZE_CIRCULAR_BUFFER that agrees with the memory (while `firstCall` is set its generation is
the one a construction reads from the memory; once `firstCall` is cleared the counter cell
holds its generation), every servo `i` below NUMBER_OF_SERVOS and every value `v`: after
`saveServoPosition(i, v)` a store constructed from the memory gives every other servo `j`
below NUMBER_OF_SERVOS the position that a store constructed from the memory before the save
gives it, whether or not the save made the advance. A store object constructed from a memory
of bytes with a counter of 0, 255 or in 1..SIZE_CIRCULAR_BUFFER is in such a state after any
number of `saveServoPosition` calls made on it (one boot session). -/
theorem save_keeps_others (sp : ServoPosition) (E E0 : EEPROM) (earlier : List (Nat × Nat))
    (i v j : Nat) (hi : i < NUMBER_OF_SERVOS) (hj : j < NUMBER_OF_SERVOS) (hji : j ≠ i) :
    ((∀ a, E.read a < 256) →
      1 ≤ sp.numberOfBoots → sp.numberOfBoots ≤ SIZE_CIRCULAR_BUFFER →
      (sp.firstCall = true → sp.numberOfBoots = (ServoPosition.new E).numberOfBoots) →
      (sp.firstCall = false → E.read EEPROM_BOOTS_INDEX = sp.numberOfBoots) →
      (ServoPosition.new (sp.saveServoPosition E i v).2).servoPositions j =
        (ServoPosition.new E).servoPositions j) ∧
    ((∀ a, E0.read a < 256) →
      (E0.read EEPROM_BOOTS_INDEX = 0 ∨ E0.read EEPROM_BOOTS_INDEX = 255 ∨
        (1 ≤ E0.read EEPROM_BOOTS_INDEX ∧
          E0.read EEPROM_BOOTS_INDEX ≤ SIZE_CIRCULAR_BUFFER)) →
      (1 ≤ (ServoPosition.session E0 earlier).1.numberOfBoots ∧
        (ServoPosition.session E0 earlier).1.numberOfBoots ≤ SIZE_CIRCULAR_BUFFER ∧
        ((ServoPosition.session E0 earlier).1.firstCall = true →
          (ServoPosition.session E0 earlier).1.numberOfBoots =
            (ServoPosition.new (ServoPosition.session E0 earlier).2).numberOfBoots) ∧
        ((ServoPosition.session E0 earlier).1.firstCall = false →
          (ServoPosition.session E0 earlier).2.read EEPROM_BOOTS_INDEX =
            (ServoPosition.session E0 earlier).1.numberOfBoots)) ∧
      (ServoPosition.new
        ((ServoPosition.session E0 earlier).1.saveServoPosition
          (ServoPosition.session E0 earlier).2 i v).2).servoPositions j =
        (ServoPosition.new (ServoPosition.session E0 earlier).2).servoPositions j) := by
  refine ⟨fun hb h1 h2 hf hl => sync_save_keeps_position sp E i v j hb h1 h2 hf hl hi hj hji, ?_⟩
  intro hb hgen
  rw [EEPROM_BOOTS_INDEX_eq, SIZE_CIRCULAR_BUFFER_eq] at hgen
  have hgen2 : E0.cells 293 = 0 ∨ E0.cells 293 = 255 ∨
      (1 ≤ E0.cells 293 ∧ E0.cells 293 ≤ 218) := hgen
  obtain ⟨g1, g2, -⟩ := validStore_new E0 hgen2
  have hrun : ServoPosition.session E0 earlier =
      ServoPosition.runOps (earlier.map (fun p => StoreOp.save p.1 p.2))
        (ServoPosition.new E0, E0) := (runOps_saves earlier (ServoPosition.new E0, E0)).symm
  obtain ⟨r1, r2, r3, r4, r5⟩ := runOps_sync (earlier.map (fun p => StoreOp.save p.1 p.2))
    (ServoPosition.new E0, E0) hb g1 g2
    (fun _ => rfl) (fun h => absurd ((new_firstCall E0).symm.trans h) (by decide))
  rw [← hrun] at r1 r2 r3 r4 r5
  have r3b : (ServoPosition.session E0 earlier).1.numberOfBoots ≤ SIZE_CIRCULAR_BUFFER := by
    rw [SIZE_CIRCULAR_BUFFER_eq]
    exact r3
  have r5b : (ServoPosition.session E0 earlier).1.firstCall = false →
      (ServoPosition.session E0 earlier).2.read EEPROM_BOOTS_INDEX =
        (ServoPosition.session E0 earlier).1.numberOfBoots := by
    intro h
    rw [EEPROM_BOOTS_INDEX_eq]
    exact r5 h
  exact ⟨⟨r2, r3b, r4, r5b⟩,
    sync_save_keeps_position _ _ i v j r1 r2 r3b r4 r5b hi hj hji⟩

theorem save_keeps_others_witness :
    (ServoPosition.new
      ((ServoPosition.new EEPROM.sample).saveServoPosition EEPROM.sample 0
        130).2).servoPositions 1 = (ServoPosition.new EEPROM.sample).servoPositions 1 ∧
    (ServoPosition.new
      ((ServoPosition.session EEPROM.sample [(1, 2)]).1.saveServoPosition
        (ServoPosition.session EEPROM.sample [(1, 2)]).2 0 130).2).servoPositions 1 =
      (ServoPosition.new (ServoPosition.session EEPROM.sample [(1, 2)]).2).servoPositions 1 :=
  ⟨(save_keeps_others (ServoPosition.new EEPROM.sample) EEPROM.sample EEPROM.sample
      [(1, 2)] 0 130 1 (by decide) (by decide) (by decide)).1
      (by intro a; simp only [EEPROM.read, EEPROM.sample]; split_ifs <;> omega)
      (by decide) (by decide) (fun _ => rfl) (fun h => absurd h (by decide)),
    ((save_keeps_others (ServoPosition.new EEPROM.sample) EEPROM.sample EEPROM.sample
      [(1, 2)] 0 130 1 (by decide) (by decide) (by decide)).2
      (by intro a; simp only [EEPROM.read, EEPROM.sample]; split_ifs <;> omega)
      (by decide)).2⟩

/-! ## Lemmas: what a poll does to the session -/

theorem doVerify_session (c : Configure) (w : World) :
    (Configure.doVerify c w).1.selectedServo = c.selectedServo ∧
    (Configure.doVerify c w).1.lastConfigTime = c.lastConfigTime := by
  simp only [Configure.doVerify]
  split_ifs <;> exact ⟨rfl, rfl⟩

theorem doMiddle_session (c : Configure) (w : World) :
    (Configure.doMiddle c w).1.selectedServo = c.selectedServo ∧
    (Configure.doMiddle c w).1.lastConfigTime = c.lastConfigTime := by
  simp only [Configure.doMiddle]
  split_ifs <;> exact ⟨rfl, rfl⟩

theorem doSpeed_session (L : Lib) (c : Configure) (w : World) :
    (Configure.doSpeed L c w).1.selectedServo = c.selectedServo ∧
    (Configure.doSpeed L c w).1.lastConfigTime = c.lastConfigTime := by
  simp only [Configure.doSpeed]
  split_ifs <;> exact ⟨rfl, rfl⟩

theorem doSet_session (L : Lib) (c : Configure) (w : World) :
    (Configure.doSet L c w).1.selectedServo = c.selectedServo ∧
    (Configure.doSet L c w).1.lastConfigTime = c.lastConfigTime := by
  by_cases hd : c.servoDeselected = true <;> by_cases h5 : c.F5 = 0 <;>
    by_cases h6 : c.F6 = 0 <;> by_cases h7 : c.F7 = 0 <;> by_cases h8 : c.F8 = 0 <;>
    simp [Configure.doSet, hd, h5, h6, h7, h8, fun st => (F_congr c st).1,
      fun st => (F_congr c st).2.1, fun st => (F_congr c st).2.2.1,
      fun st => (F_congr c st).2.2.2, apply_ite Prod.fst, apply_ite Prod.snd,
      apply_ite Configure.F8, apply_ite Configure.selectedServo,
      apply_ite Configure.lastConfigTime]

theorem doTresholdStraight_session (L : Lib) (now : Nat) (c : Configure) (w : World) :
    (Configure.doTresholdStraight L now c w).1.selectedServo = c.selectedServo ∧
    (Configure.doTresholdStraight L now c w).1.lastConfigTime =
      (if c.F7 ≠ 0 ∧ elapsed now c.lastConfigTime > CONFIG_STEP_TIME then now % 4294967296
       else c.lastConfigTime) := by
  by_cases h7 : c.F7 ≠ 0
  · by_cases hel : elapsed now c.lastConfigTime > CONFIG_STEP_TIME
    · have hc : c.F7 ≠ 0 ∧ elapsed now c.lastConfigTime > CONFIG_STEP_TIME := ⟨h7, hel⟩
      rw [if_pos hc]
      unfold Configure.doTresholdStraight
      rw [if_pos h7, if_pos hel]
      dsimp only
      split_ifs <;> exact ⟨rfl, rfl⟩
    · have hc : ¬ (c.F7 ≠ 0 ∧ elapsed now c.lastConfigTime > CONFIG_STEP_TIME) :=
        fun h => hel h.2
      rw [if_neg hc]
      unfold Configure.doTresholdStraight
      rw [if_pos h7, if_neg hel]
      exact ⟨rfl, rfl⟩
  · have hc : ¬ (c.F7 ≠ 0 ∧ elapsed now c.lastConfigTime > CONFIG_STEP_TIME) :=
      fun h => h7 h.1
    rw [if_neg hc]
    unfold Configure.doTresholdStraight
    rw [if_neg h7]
    exact ⟨rfl, rfl⟩

theorem doTresholdDiverging_session (L : Lib) (now : Nat) (c : Configure) (w : World) :
    (Configure.doTresholdDiverging L now c w).1.selectedServo = c.selectedServo ∧
    (Configure.doTresholdDiverging L now c w).1.lastConfigTime =
      (if c.F8 ≠ 0 ∧ elapsed now c.lastConfigTime > CONFIG_STEP_TIME then now % 4294967296
       else c.lastConfigTime) := by
  by_cases h8 : c.F8 ≠ 0
  · by_cases hel : elapsed now c.lastConfigTime > CONFIG_STEP_TIME
    · have hc : c.F8 ≠ 0 ∧ elapsed now c.lastConfigTime > CONFIG_STEP_TIME := ⟨h8, hel⟩
      rw [if_pos hc]
      unfold Configure.doTresholdDiverging
      rw [if_pos h8, if_pos hel]
      dsimp only
      split_ifs <;> exact ⟨rfl, rfl⟩
    · have hc : ¬ (c.F8 ≠ 0 ∧ elapsed now c.lastConfigTime > CONFIG_STEP_TIME) :=
        fun h => hel h.2
      rw [if_neg hc]
      unfold Configure.doTresholdDiverging
      rw [if_pos h8, if_neg hel]
      exact ⟨rfl, rfl⟩
  · have hc : ¬ (c.F8 ≠ 0 ∧ elapsed now c.lastConfigTime > CONFIG_STEP_TIME) :=
      fun h => h8 h.1
    rw [if_neg hc]
    unfold Configure.doTresholdDiverging
    rw [if_neg h8]
    exact ⟨rfl, rfl⟩

theorem doReady_session (c : Configure) (w : World) :
    (Configure.doReady c w).2.1.lastConfigTime = c.lastConfigTime ∧
    ((Configure.doReady c w).2.1.configState = State_t.Waiting ∨
      (Configure.doReady c w).2.1.configState = c.configState ∨
      (Configure.doReady c w).2.1.selectedServo < NUMBER_OF_SERVOS) := by
  simp only [Configure.doReady]
  split_ifs with h9 hsel
  · exact ⟨rfl, Or.inl rfl⟩
  · exact ⟨rfl, Or.inr (Or.inr hsel)⟩
  · exact ⟨rfl, Or.inr (Or.inl rfl)⟩

theorem checkConfig_waiting (L : Lib) (now : Nat) (c : Configure) (w : World)
    (hs : c.configState = State_t.Waiting) :
    (Configure.checkConfig L now c w).2 = (c, w) := by
  simp only [Configure.checkConfig, hs]

/-- The time stamp of the last treshold step after a poll: the poll leaves it or sets it to
its own `millis()` value. -/
theorem checkConfig_lastConfigTime (L : Lib) (now : Nat) (c : Configure) (w : World) :
    (Configure.checkConfig L now c w).2.1.lastConfigTime = c.lastConfigTime ∨
    (Configure.checkConfig L now c w).2.1.lastConfigTime = now % 4294967296 := by
  cases hs : c.configState with
  | Waiting => rw [checkConfig_waiting L now c w hs]; exact Or.inl rfl
  | Ready => rw [checkConfig_ready L now c w hs]; exact Or.inl (doReady_session c w).1
  | Verify => rw [checkConfig_verify L now c w hs]; exact Or.inl (doVerify_session c w).2
  | Set => rw [checkConfig_set L now c w hs]; exact Or.inl (doSet_session L c w).2
  | Middle => rw [checkConfig_middle L now c w hs]; exact Or.inl (doMiddle_session c w).2
  | Speed => rw [checkConfig_speed L now c w hs]; exact Or.inl (doSpeed_session L c w).2
  | TresholdStraight =>
    rw [checkConfig_straight L now c w hs, (doTresholdStraight_session L now c w).2]
    split_ifs
    · exact Or.inr rfl
    · exact Or.inl rfl
  | TresholdDiverging =>
    rw [checkConfig_diverging L now c w hs, (doTresholdDiverging_session L now c w).2]
    split_ifs
    · exact Or.inr rfl
    · exact Or.inl rfl

/-- Outside Waiting and Ready a poll keeps the selected servo; a poll that leaves Ready for
another state than Waiting has selected a servo below NUMBER_OF_SERVOS. -/
theorem checkConfig_selected (L : Lib) (now : Nat) (c : Configure) (w : World)
    (h : c.configState = State_t.Waiting ∨ c.configState = State_t.Ready ∨
      c.selectedServo < NUMBER_OF_SERVOS) :
    (Configure.checkConfig L now c w).2.1.configState = State_t.Waiting ∨
    (Configure.checkConfig L now c w).2.1.configState = State_t.Ready ∨
    (Configure.checkConfig L now c w).2.1.selectedServo < NUMBER_OF_SERVOS := by
  cases hs : c.configState with
  | Waiting => rw [checkConfig_waiting L now c w hs]; exact Or.inl hs
  | Ready =>
    rw [checkConfig_ready L now c w hs]
    rcases (doReady_session c w).2 with h1 | h1 | h1
    · exact Or.inl h1
    · exact Or.inr (Or.inl (h1.trans hs))
    · exact Or.inr (Or.inr h1)
  | Verify =>
    rw [hs] at h
    have hsel : c.selectedServo < NUMBER_OF_SERVOS := by simpa using h
    rw [checkConfig_verify L now c w hs, (doVerify_session c w).1]
    exact Or.inr (Or.inr hsel)
  | Set =>
    rw [hs] at h
    have hsel : c.selectedServo < NUMBER_OF_SERVOS := by simpa using h
    rw [checkConfig_set L now c w hs, (doSet_session L c w).1]
    exact Or.inr (Or.inr hsel)
  | Middle =>
    rw [hs] at h
    have hsel : c.selectedServo < NUMBER_OF_SERVOS := by simpa using h
    rw [checkConfig_middle L now c w hs, (doMiddle_session c w).1]
    exact Or.inr (Or.inr hsel)
  | Speed =>
    rw [hs] at h
    have hsel : c.selectedServo < NUMBER_OF_SERVOS := by simpa using h
    rw [checkConfig_speed L now c w hs, (doSpeed_session L c w).1]
    exact Or.inr (Or.inr hsel)
  | TresholdStraight =>
    rw [hs] at h
    have hsel : c.selectedServo < NUMBER_OF_SERVOS := by simpa using h
    rw [checkConfig_straight L now c w hs, (doTresholdStraight_session L now c w).1]
    exact Or.inr (Or.inr hsel)
  | TresholdDiverging =>
    rw [hs] at h
    have hsel : c.selectedServo < NUMBER_OF_SERVOS := by simpa using h
    rw [checkConfig_diverging L now c w hs, (doTresholdDiverging_session L now c w).1]
    exact Or.inr (Or.inr hsel)

theorem checkStart_session (c : Configure) (w : World) (now value : Nat) :
    (c.checkStart w now value).2.1.lastConfigTime = c.lastConfigTime ∧
    (c.checkStart w now value).2.1.selectedServo = c.selectedServo ∧
    ((c.checkStart w now value).2.1.configState = c.configState ∨
      (c.checkStart w now value).2.1.configState = State_t.Ready) := by
  simp only [Configure.checkStart]
  split_ifs <;> first | exact ⟨rfl, rfl, Or.inl rfl⟩ | exact ⟨rfl, rfl, Or.inr rfl⟩

theorem step_selected (L : Lib) (e : Event) (r : Configure × World)
    (h : r.1.configState = State_t.Waiting ∨ r.1.configState = State_t.Ready ∨
      r.1.selectedServo < NUMBER_OF_SERVOS) :
    (Configure.step L e r).1.configState = State_t.Waiting ∨
    (Configure.step L e r).1.configState = State_t.Ready ∨
    (Configure.step L e r).1.selectedServo < NUMBER_OF_SERVOS := by
  cases e with
  | setF0F4 value => exact h
  | setF5F8 value => exact h
  | setF9F12 value => exact h
  | setSpeed speed dir => exact h
  | checkStart now value =>
    have hstep : Configure.step L (Event.checkStart now value) r =
        (r.1.checkStart r.2 now value).2 := rfl
    rw [hstep]
    obtain ⟨-, h2, h3⟩ := checkStart_session r.1 r.2 now value
    rcases h3 with h3 | h3
    · rw [h3, h2]
      exact h
    · exact Or.inr (Or.inl h3)
  | checkConfig now => exact checkConfig_selected L now r.1 r.2 h
  | world w => exact h

theorem run_selected (L : Lib) (events : List Event) (r : Configure × World)
    (h : r.1.configState = State_t.Waiting ∨ r.1.configState = State_t.Ready ∨
      r.1.selectedServo < NUMBER_OF_SERVOS) :
    (Configure.run L events r).1.configState = State_t.Waiting ∨
    (Configure.run L events r).1.configState = State_t.Ready ∨
    (Configure.run L events r).1.selectedServo < NUMBER_OF_SERVOS := by
  induction events generalizing r with
  | nil => exact h
  | cons e rest ih => exact ih _ (step_selected L e r h)

theorem step_lastConfigTime (L : Lib) (e : Event) (r : Configure × World) (lo hi : Nat)
    (hlo : lo ≤ r.1.lastConfigTime) (hhi : r.1.lastConfigTime ≤ hi) (h32 : hi < 4294967296)
    (ht : ∀ t, e = Event.checkConfig t → lo ≤ t ∧ t ≤ hi) :
    lo ≤ (Configure.step L e r).1.lastConfigTime ∧
    (Configure.step L e r).1.lastConfigTime ≤ hi := by
  cases e with
  | setF0F4 value => exact ⟨hlo, hhi⟩
  | setF5F8 value => exact ⟨hlo, hhi⟩
  | setF9F12 value => exact ⟨hlo, hhi⟩
  | setSpeed speed dir => exact ⟨hlo, hhi⟩
  | checkStart now value =>
    have hstep : Configure.step L (Event.checkStart now value) r =
        (r.1.checkStart r.2 now value).2 := rfl
    rw [hstep, (checkStart_session r.1 r.2 now value).1]
    exact ⟨hlo, hhi⟩
  | checkConfig now =>
    obtain ⟨t1, t2⟩ := ht now rfl
    have hstep : Configure.step L (Event.checkConfig now) r =
        (Configure.checkConfig L now r.1 r.2).2 := rfl
    rw [hstep]
    rcases checkConfig_lastConfigTime L now r.1 r.2 with h | h
    · rw [h]
      exact ⟨hlo, hhi⟩
    · rw [h, Nat.mod_eq_of_lt (by omega)]
      exact ⟨t1, t2⟩
  | world w => exact ⟨hlo, hhi⟩

theorem run_lastConfigTime (L : Lib) (events : List Event) (r : Configure × World)
    (lo hi : Nat) (hlo : lo ≤ r.1.lastConfigTime) (hhi : r.1.lastConfigTime ≤ hi)
    (h32 : hi < 4294967296)
    (ht : ∀ t, Event.checkConfig t ∈ events → lo ≤ t ∧ t ≤ hi) :
    lo ≤ (Configure.run L events r).1.lastConfigTime ∧
    (Configure.run L events r).1.lastConfigTime ≤ hi := by
  induction events generalizing r with
  | nil => exact ⟨hlo, hhi⟩
  | cons e rest ih =>
    obtain ⟨s1, s2⟩ := step_lastConfigTime L e r lo hi hlo hhi h32
      (fun t he => ht t (by rw [he]; exact List.mem_cons_self _ _))
    exact ih _ s1 s2 (fun t hm => ht t (List.mem_cons_of_mem _ hm))

/-! ## Treshold sub-modes: the step and its rate limit -/

/-- C36. Treshold step arithmetic: for every session in TresholdStraight with F7 on whose poll
passes the step-time check, the candidate is treshold 2 plus the speed value when the direction
flag is set (forward) and treshold 2 minus the speed value when it is clear (reverse), both
modulo 2^16 and only for a speed value below 10; for a speed value of 10 or more it is
treshold 2 itself. When the candidate lies in [MIN_PULSE_WIDTH, MAX_PULSE_WIDTH] the poll calls
`powerOn` and `writeMicroseconds(candidate)` and the new treshold 2 is the candidate; treshold 1
is not changed. For TresholdDiverging with F8 on the same holds for treshold 1 with the signs
exchanged (forward subtracts, reverse adds). -/
theorem treshold_step_arithmetic (L : Lib) (now : Nat) (c : Configure) (w : World)
    (hel : elapsed now c.lastConfigTime > CONFIG_STEP_TIME) :
    (c.configState = State_t.TresholdStraight → c.F7 ≠ 0 → ∀ cand,
      cand = (if c.locoSpeed < 10 then
          (if c.locoDirection = true then
            ((w.servo c.selectedServo).treshold2 + c.locoSpeed) % 65536
           else ((w.servo c.selectedServo).treshold2 + 65536 - c.locoSpeed) % 65536)
        else (w.servo c.selectedServo).treshold2) →
      L.MIN_PULSE_WIDTH ≤ cand → cand ≤ L.MAX_PULSE_WIDTH →
      ((Configure.checkConfig L now c w).2.2.servo c.selectedServo).calls =
        (w.servo c.selectedServo).calls ++ [LibCall.powerOn, LibCall.writeMicroseconds cand] ∧
      ((Configure.checkConfig L now c w).2.2.servo c.selectedServo).treshold2 = cand ∧
      ((Configure.checkConfig L now c w).2.2.servo c.selectedServo).treshold1 =
        (w.servo c.selectedServo).treshold1) ∧
    (c.configState = State_t.TresholdDiverging → c.F8 ≠ 0 → ∀ cand,
      cand = (if c.locoSpeed < 10 then
          (if c.locoDirection = true then
            ((w.servo c.selectedServo).treshold1 + 65536 - c.locoSpeed) % 65536
           else ((w.servo c.selectedServo).treshold1 + c.locoSpeed) % 65536)
        else (w.servo c.selectedServo).treshold1) →
      L.MIN_PULSE_WIDTH ≤ cand → cand ≤ L.MAX_PULSE_WIDTH →
      ((Configure.checkConfig L now c w).2.2.servo c.selectedServo).calls =
        (w.servo c.selectedServo).calls ++ [LibCall.powerOn, LibCall.writeMicroseconds cand] ∧
      ((Configure.checkConfig L now c w).2.2.servo c.selectedServo).treshold1 = cand ∧
      ((Configure.checkConfig L now c w).2.2.servo c.selectedServo).treshold2 =
        (w.servo c.selectedServo).treshold2) := by
  have e1 : ∀ (v : World) (E : EEPROM), ({ v with eeprom := E } : World).servo = v.servo :=
    fun _ _ => rfl
  refine ⟨?_, ?_⟩
  · intro hs h7 cand hcand hmin hmax
    have hc2 : cand = c.steppedTreshold2 (w.servo c.selectedServo).treshold2 := hcand
    have hall : c.F7 ≠ 0 ∧ elapsed now c.lastConfigTime > CONFIG_STEP_TIME ∧
        L.MIN_PULSE_WIDTH ≤ c.steppedTreshold2 (w.servo c.selectedServo).treshold2 ∧
        c.steppedTreshold2 (w.servo c.selectedServo).treshold2 ≤ L.MAX_PULSE_WIDTH := by
      rw [← hc2]
      exact ⟨h7, hel, hmin, hmax⟩
    rw [checkConfig_straight L now c w hs, (doTresholdStraight_result L now c w).1,
      if_pos hall, ← hc2]
    by_cases h0 : c.F0 ≠ 0
    · rw [if_pos h0, e1, setServo_same]
      simp [MyServo.powerOn, MyServo.writeMicroseconds, MyServo.setTreshold2]
    · rw [if_neg h0, setServo_same]
      simp [MyServo.powerOn, MyServo.writeMicroseconds, MyServo.setTreshold2]
  · intro hs h8 cand hcand hmin hmax
    have hc2 : cand = c.steppedTreshold1 (w.servo c.selectedServo).treshold1 := hcand
    have hall : c.F8 ≠ 0 ∧ elapsed now c.lastConfigTime > CONFIG_STEP_TIME ∧
        L.MIN_PULSE_WIDTH ≤ c.steppedTreshold1 (w.servo c.selectedServo).treshold1 ∧
        c.steppedTreshold1 (w.servo c.selectedServo).treshold1 ≤ L.MAX_PULSE_WIDTH := by
      rw [← hc2]
      exact ⟨h8, hel, hmin, hmax⟩
    rw [checkConfig_diverging L now c w hs, (doTresholdDiverging_result L now c w).1,
      if_pos hall, ← hc2]
    by_cases h0 : c.F0 ≠ 0
    · rw [if_pos h0, e1, setServo_same]
      simp [MyServo.powerOn, MyServo.writeMicroseconds, MyServo.setTreshold1]
    · rw [if_neg h0, setServo_same]
      simp [MyServo.powerOn, MyServo.writeMicroseconds, MyServo.setTreshold1]

theorem treshold_step_arithmetic_witness :
    ((Configure.checkConfig Lib.sample 1000 Configure.sampleStraight
        World.sample).2.2.servo Configure.sampleStraight.selectedServo).calls =
      (World.sample.servo Configure.sampleStraight.selectedServo).calls ++
        [LibCall.powerOn, LibCall.writeMicroseconds 1705] ∧
    ((Configure.checkConfig Lib.sample 1000 Configure.sampleStraight
        World.sample).2.2.servo Configure.sampleStraight.selectedServo).treshold2 = 1705 ∧
    ((Configure.checkConfig Lib.sample 1000 Configure.sampleStraight
        World.sample).2.2.servo Configure.sampleStraight.selectedServo).treshold1 =
      (World.sample.servo Configure.sampleStraight.selectedServo).treshold1 :=
  (treshold_step_arithmetic Lib.sample 1000 Configure.sampleStraight World.sample
    (by decide)).1 rfl (by decide) 1705 (by decide) (by decide) (by decide)

theorem stepsTreshold_passes (L : Lib) (now : Nat) (c : Configure) (w : World)
    (h : Configure.stepsTreshold L now c w = true) :
    elapsed now c.lastConfigTime > CONFIG_STEP_TIME ∧
    (Configure.checkConfig L now c w).2.1.lastConfigTime = now % 4294967296 := by
  simp only [Configure.stepsTreshold, decide_eq_true_eq] at h
  obtain ⟨hst, hw⟩ := h
  rcases hst with hs | hs
  · rw [checkConfig_straight L now c w hs] at hw ⊢
    by_cases hc : c.F7 ≠ 0 ∧ elapsed now c.lastConfigTime > CONFIG_STEP_TIME
    · exact ⟨hc.2, by rw [(doTresholdStraight_session L now c w).2, if_pos hc]⟩
    · exfalso
      have hworld : (Configure.doTresholdStraight L now c w).2 =
          w.setServo c.selectedServo (w.servo c.selectedServo).powerOn := by
        rw [(doTresholdStraight_result L now c w).1, if_neg (fun h => hc ⟨h.1, h.2.1⟩)]
      rw [hworld, setServo_same] at hw
      rcases hw with hw | hw | hw <;> exact hw rfl
  · rw [checkConfig_diverging L now c w hs] at hw ⊢
    by_cases hc : c.F8 ≠ 0 ∧ elapsed now c.lastConfigTime > CONFIG_STEP_TIME
    · exact ⟨hc.2, by rw [(doTresholdDiverging_session L now c w).2, if_pos hc]⟩
    · exfalso
      have hworld : (Configure.doTresholdDiverging L now c w).2 =
          w.setServo c.selectedServo (w.servo c.selectedServo).powerOn := by
        rw [(doTresholdDiverging_result L now c w).1, if_neg (fun h => hc ⟨h.1, h.2.1⟩)]
      rw [hworld, setServo_same] at hw
      rcases hw with hw | hw | hw <;> exact hw rfl

/-- C37. Treshold step rate limit: a poll in TresholdStraight or TresholdDiverging that changes
a treshold or makes a library call other than `powerOn` is one at which more than
CONFIG_STEP_TIME ms have passed since the recorded last step time (the difference taken modulo
2^32); every poll in these states whose trigger bit is on and which passes that check records
its own time as the last step time; hence, for any events between two such writing polls, with
a clock that does not run backwards and stays below 2^32, the second poll is more than
CONFIG_STEP_TIME ms after the first. -/
theorem treshold_rate_limit (L : Lib) (now : Nat) (c : Configure) (w : World)
    (between : List Event) (later : Nat) :
    (Configure.stepsTreshold L now c w = true →
      elapsed now c.lastConfigTime > CONFIG_STEP_TIME) ∧
    ((c.configState = State_t.TresholdStraight ∧ c.F7 ≠ 0) ∨
        (c.configState = State_t.TresholdDiverging ∧ c.F8 ≠ 0) →
      elapsed now c.lastConfigTime > CONFIG_STEP_TIME →
      (Configure.checkConfig L now c w).2.1.lastConfigTime = now % 4294967296) ∧
    (Configure.stepsTreshold L now c w = true →
      Configure.stepsTreshold L later
        (Configure.run L between (Configure.step L (Event.checkConfig now) (c, w))).1
        (Configure.run L between (Configure.step L (Event.checkConfig now) (c, w))).2 = true →
      (∀ t, Event.checkConfig t ∈ between → now ≤ t ∧ t ≤ later) →
      now ≤ later → later < 4294967296 →
      now + CONFIG_STEP_TIME < later) := by
  refine ⟨fun h => (stepsTreshold_passes L now c w h).1, ?_, ?_⟩
  · intro hst hel
    rcases hst with ⟨hs, hF⟩ | ⟨hs, hF⟩
    · rw [checkConfig_straight L now c w hs, (doTresholdStraight_session L now c w).2,
        if_pos ⟨hF, hel⟩]
    · rw [checkConfig_diverging L now c w hs, (doTresholdDiverging_session L now c w).2,
        if_pos ⟨hF, hel⟩]
  · intro h1 h2 hbetween hle h32
    have hstamp := (stepsTreshold_passes L now c w h1).2
    have hstep : Configure.step L (Event.checkConfig now) (c, w) =
        (Configure.checkConfig L now c w).2 := rfl
    have hstart : (Configure.step L (Event.checkConfig now) (c, w)).1.lastConfigTime = now := by
      rw [hstep, hstamp, Nat.mod_eq_of_lt (by omega)]
    obtain ⟨b1, b2⟩ := run_lastConfigTime L between
      (Configure.step L (Event.checkConfig now) (c, w)) now later (by rw [hstart])
      (by rw [hstart]; exact hle) h32 hbetween
    have hlate := (stepsTreshold_passes L later _ _ h2).1
    simp only [elapsed, CONFIG_STEP_TIME] at hlate ⊢
    omega

theorem treshold_rate_limit_witness :
    Configure.stepsTreshold Lib.sample 1000 Configure.sampleStraight World.sample = true ∧
    Configure.stepsTreshold Lib.sample 1100
      (Configure.step Lib.sample (Event.checkConfig 1000)
        (Configure.sampleStraight, World.sample)).1
      (Configure.step Lib.sample (Event.checkConfig 1000)
        (Configure.sampleStraight, World.sample)).2 = false ∧
    Configure.stepsTreshold Lib.sample 1300
      (Configure.run Lib.sample [Event.checkConfig 1100]
        (Configure.step Lib.sample (Event.checkConfig 1000)
          (Configure.sampleStraight, World.sample))).1
      (Configure.run Lib.sample [Event.checkConfig 1100]
        (Configure.step Lib.sample (Event.checkConfig 1000)
          (Configure.sampleStraight, World.sample))).2 = true ∧
    1000 + CONFIG_STEP_TIME < 1300 :=
  ⟨by decide, by decide, by decide,
    (treshold_rate_limit Lib.sample 1000 Configure.sampleStraight World.sample
    [Event.checkConfig 1100] 1300).2.2 (by decide) (by decide)
    (by
      intro t ht
      simp only [List.mem_singleton, Event.checkConfig.injEq] at ht
      omega)
    (by decide) (by decide)⟩

/-! ## The session: the selected servo -/

/-- C39. The selected servo is in bounds when it is used: in every session state reached from
the initial session by any sequence of `setF0F4`, `setF5F8`, `setF9F12`, `setSpeed`,
`checkStart` and `checkConfig` calls, with any changes of the world between them, whenever the
state is neither Waiting nor Ready the selected servo is below NUMBER_OF_SERVOS. -/
theorem selected_servo_in_bounds (L : Lib) (events : List Event) (w : World) :
    (Configure.run L events (Configure.fresh, w)).1.configState ≠ State_t.Waiting →
    (Configure.run L events (Configure.fresh, w)).1.configState ≠ State_t.Ready →
    (Configure.run L events (Configure.fresh, w)).1.selectedServo < NUMBER_OF_SERVOS := by
  intro h1 h2
  rcases run_selected L events (Configure.fresh, w) (Or.inl rfl) with h | h | h
  · exact absurd h h1
  · exact absurd h h2
  · exact h

theorem selected_servo_in_bounds_witness :
    (Configure.run Lib.sample
      [Event.checkStart 0 1, Event.checkStart 10 0, Event.checkStart 20 1,
        Event.checkStart 30 0, Event.checkStart 40 1, Event.setF0F4 1, Event.checkConfig 50,
        Event.checkConfig 60]
      (Configure.fresh, World.sample)).1.configState = State_t.Verify ∧
    (Configure.run Lib.sample
      [Event.checkStart 0 1, Event.checkStart 10 0, Event.checkStart 20 1,
        Event.checkStart 30 0, Event.checkStart 40 1, Event.setF0F4 1, Event.checkConfig 50,
        Event.checkConfig 60]
      (Configure.fresh, World.sample)).1.selectedServo < NUMBER_OF_SERVOS :=
  ⟨by decide,
    selected_servo_in_bounds Lib.sample
      [Event.checkStart 0 1, Event.checkStart 10 0, Event.checkStart 20 1,
        Event.checkStart 30 0, Event.checkStart 40 1, Event.setF0F4 1, Event.checkConfig 50,
        Event.checkConfig 60]
      World.sample (by decide) (by decide)⟩

/-! ## Lemmas: the memory cells a poll can reach -/

theorem save_frame (sp : ServoPosition) (E : EEPROM) (n v : Nat) :
    (∀ a, a < 293 → (sp.saveServoPosition E n v).2.cells a = E.cells a) ∧
    (1 ≤ sp.numberOfBoots → sp.numberOfBoots ≤ 218 → n < 2 →
      ∀ a, 512 ≤ a → (sp.saveServoPosition E n v).2.cells a = E.cells a) := by
  cases hf : sp.firstCall with
  | false =>
    rw [later_save sp E n v hf]
    refine ⟨?_, ?_⟩
    · intro a ha
      have := getIndex_ge sp n
      rw [update_cells, if_neg (by omega)]
    · intro h1 h2 hn a ha
      have hlt : sp.getIndex n < 512 := by
        rw [getIndex_eq]
        split_ifs <;> omega
      rw [update_cells, if_neg (by omega)]
  | true =>
    rw [save_first sp E n v hf]
    refine ⟨?_, ?_⟩
    · intro a ha
      have g0 := getIndex_ge (sp.incrementNumberOfBoots E).1 n
      have g1 := getIndex_ge sp 1
      have g2 := getIndex_ge sp 2
      rw [update_cells, if_neg (by omega), increment_cells, if_neg (by omega),
        if_neg (by omega), if_neg (by omega)]
    · intro h1 h2 hn a ha
      obtain ⟨b1, b2⟩ := increment_bounds sp E h1 h2
      have g0 : (sp.incrementNumberOfBoots E).1.getIndex n < 512 := by
        rw [getIndex_eq]
        split_ifs <;> omega
      have g1 : sp.getIndex 1 < 512 := by
        rw [getIndex_eq]
        split_ifs <;> omega
      have g2 : sp.getIndex 2 < 512 := by
        rw [getIndex_eq]
        split_ifs <;> omega
      rw [update_cells, if_neg (by omega), increment_cells, if_neg (by omega),
        if_neg (by omega), if_neg (by omega)]

/-- Method `set` either leaves the store and the memory or saves once, for the number of the
servo object. -/
theorem set_store (L : Lib) (sv : MyServo) (sp : ServoPosition) (E : EEPROM) (p : Nat) :
    (MyServo.set L sv sp E p).2 = (sp, E) ∨
    ∃ v, (MyServo.set L sv sp E p).2 = sp.saveServoPosition E sv.servoNumber v := by
  simp only [MyServo.set]
  split_ifs
  · exact Or.inl rfl
  · exact Or.inl rfl
  · exact Or.inr ⟨_, rfl⟩
  · refine Or.inr ⟨(MyServo.loadCurve L sv sv.curve0).previousCurve, ?_⟩
    have hn : (MyServo.loadCurve L sv sv.curve0).servoNumber = sv.servoNumber :=
      (loadCurve_settings L sv sv.curve0).2.2.2
    show sp.saveServoPosition E (MyServo.loadCurve L sv sv.curve0).servoNumber _ = _
    rw [hn]
    rfl
  · refine Or.inr ⟨(MyServo.loadCurve L sv sv.curve1).previousCurve, ?_⟩
    have hn : (MyServo.loadCurve L sv sv.curve1).servoNumber = sv.servoNumber :=
      (loadCurve_settings L sv sv.curve1).2.2.2
    show sp.saveServoPosition E (MyServo.loadCurve L sv sv.curve1).servoNumber _ = _
    rw [hn]
    rfl

theorem framed_refl (i : Nat) (w : World) : World.framed i w w :=
  ⟨fun _ _ => rfl, fun h => ⟨fun _ _ => rfl, h.1, h.2.1, h.2.2⟩⟩

theorem framed_trans (i : Nat) (w v u : World) (h1 : World.framed i w v)
    (h2 : World.framed i v u) : World.framed i w u := by
  refine ⟨fun a ha => (h2.1 a ha).trans (h1.1 a ha), ?_⟩
  intro hw
  obtain ⟨c1, c2, c3, c4⟩ := h1.2 hw
  obtain ⟨d1, d2, d3, d4⟩ := h2.2 ⟨c2, c3, c4⟩
  exact ⟨fun a ha => (d1 a ha).trans (c1 a ha), d2, d3, d4⟩

theorem framed_setServo (i : Nat) (w : World) (sv : MyServo)
    (h : sv.servoNumber = (w.servo i).servoNumber) : World.framed i w (w.setServo i sv) := by
  refine ⟨fun _ _ => rfl, fun hw => ⟨fun _ _ => rfl, hw.1, hw.2.1, ?_⟩⟩
  rw [setServo_same, h]
  exact hw.2.2

theorem framed_servoSet (L : Lib) (i p : Nat) (w : World) :
    World.framed i w (World.servoSet L w i p) := by
  have he : (World.servoSet L w i p).eeprom =
      (MyServo.set L (w.servo i) w.storedPositions w.eeprom p).2.2 := rfl
  have hp : (World.servoSet L w i p).storedPositions =
      (MyServo.set L (w.servo i) w.storedPositions w.eeprom p).2.1 := rfl
  have hn : ((World.servoSet L w i p).servo i).servoNumber = (w.servo i).servoNumber := by
    rw [servoSet_servo]
    exact (set_settings L _ _ _ _).2.2.2
  rw [World.framed, he, hp, hn]
  rcases set_store L (w.servo i) w.storedPositions w.eeprom p with h | ⟨v, h⟩
  · rw [h]
    exact ⟨fun _ _ => rfl, fun hw => ⟨fun _ _ => rfl, hw.1, hw.2.1, hw.2.2⟩⟩
  · rw [h]
    obtain ⟨f1, f2⟩ := save_frame w.storedPositions w.eeprom (w.servo i).servoNumber v
    refine ⟨f1, fun hw => ?_⟩
    obtain ⟨g1, g2, -⟩ := save_generation w.storedPositions w.eeprom (w.servo i).servoNumber v
      hw.1 hw.2.1
    exact ⟨f2 hw.1 hw.2.1 hw.2.2, g1, g2, hw.2.2⟩

theorem framed_led (i : Nat) (w : World) (b : Bool) :
    World.framed i w { w with configLed := b } :=
  ⟨fun _ _ => rfl, fun h => ⟨fun _ _ => rfl, h.1, h.2.1, h.2.2⟩⟩

theorem doReady_framed (i : Nat) (c : Configure) (w : World) :
    World.framed i w (Configure.doReady c w).2.2 := by
  simp only [Configure.doReady]
  split_ifs
  · exact framed_led i w false
  · exact framed_refl i w
  · exact framed_refl i w

theorem doVerify_framed (c : Configure) (w : World) :
    World.framed c.selectedServo w (Configure.doVerify c w).2 := by
  have hm : World.framed c.selectedServo w (Configure.moveServo w c.selectedServo) :=
    framed_setServo c.selectedServo w _ rfl
  simp only [Configure.doVerify]
  split_ifs
  · exact hm
  · exact hm
  · exact framed_refl _ w
  · exact framed_refl _ w
  · exact framed_refl _ w

theorem doMiddle_framed (c : Configure) (w : World) :
    World.framed c.selectedServo w (Configure.doMiddle c w).2 := by
  simp only [Configure.doMiddle]
  split_ifs
  · rw [setServo_setServo]
    exact framed_setServo c.selectedServo w _
      (by simp [World.setServo, MyServo.writeMicroseconds, MyServo.setTreshold1,
        MyServo.setTreshold2, MyServo.powerOn])
  · exact framed_setServo c.selectedServo w _ rfl

theorem doSet_framed (L : Lib) (c : Configure) (w : World) :
    World.framed c.selectedServo w (Configure.doSet L c w).2 := by
  have h0 : World.framed c.selectedServo w
      (if c.servoDeselected = true then
        w.setServo c.selectedServo ((w.servo c.selectedServo).configPowerSignal w.eeprom)
       else w) := by
    split_ifs
    · exact framed_setServo _ w _ (configPowerSignal_settings _ _).2.2.2
    · exact framed_refl _ w
  rw [doSet_world]
  split_ifs
  · exact framed_trans _ _ _ _ (framed_trans _ _ _ _ (by simpa [*] using h0)
      (framed_servoSet L _ 1 _)) (framed_servoSet L _ 0 _)
  · exact framed_trans _ _ _ _ (framed_trans _ _ _ _ (by simpa [*] using h0)
      (framed_servoSet L _ 1 _)) (framed_servoSet L _ 0 _)
  · exact framed_trans _ _ _ _ (by simpa [*] using h0) (framed_servoSet L _ 0 _)
  · exact framed_trans _ _ _ _ (by simpa [*] using h0) (framed_servoSet L _ 0 _)
  · exact framed_trans _ _ _ _ (by simpa [*] using h0) (framed_servoSet L _ 1 _)
  · exact framed_trans _ _ _ _ (by simpa [*] using h0) (framed_servoSet L _ 1 _)
  · simpa [*] using h0
  · simpa [*] using h0

theorem doSpeed_framed (L : Lib) (c : Configure) (w : World) (h0 : c.F0 = 0) :
    World.framed c.selectedServo w (Configure.doSpeed L c w).2 := by
  have h0n : ¬ c.F0 ≠ 0 := not_not.mpr h0
  have h1 : ∀ t, World.framed c.selectedServo w
      (w.setServo c.selectedServo
        (MyServo.loadCurve L { (w.servo c.selectedServo) with timeMultiplier := t }
          (w.servo c.selectedServo).previousCurve)) :=
    fun t => framed_setServo _ w _ (loadCurve_settings L _ _).2.2.2
  by_cases hm : (w.servo c.selectedServo).movementCompleted = true
  · by_cases h6 : c.F6 ≠ 0
    · simp only [Configure.doSpeed, if_pos hm, if_pos h6, if_neg h0n]
      split_ifs <;> first
        | exact framed_trans _ _ _ _ (h1 _) (framed_servoSet L _ 0 _)
        | exact framed_trans _ _ _ _ (h1 _) (framed_servoSet L _ 1 _)
    · simp only [Configure.doSpeed, if_pos hm, if_neg h6]
      exact h1 _
  · simp only [Configure.doSpeed, if_neg hm]
    exact framed_refl _ w

theorem doTresholdStraight_framed (L : Lib) (now : Nat) (c : Configure) (w : World)
    (h0 : c.F0 = 0) :
    World.framed c.selectedServo w (Configure.doTresholdStraight L now c w).2 := by
  rw [(doTresholdStraight_result L now c w).1, if_neg (not_not.mpr h0)]
  split_ifs
  · exact framed_setServo _ w _ rfl
  · exact framed_setServo _ w _ rfl

theorem doTresholdDiverging_framed (L : Lib) (now : Nat) (c : Configure) (w : World)
    (h0 : c.F0 = 0) :
    World.framed c.selectedServo w (Configure.doTresholdDiverging L now c w).2 := by
  rw [(doTresholdDiverging_result L now c w).1, if_neg (not_not.mpr h0)]
  split_ifs
  · exact framed_setServo _ w _ rfl
  · exact framed_setServo _ w _ rfl

theorem checkConfig_framed (L : Lib) (now : Nat) (c : Configure) (w : World)
    (h0 : c.F0 = 0) :
    World.framed c.selectedServo w (Configure.checkConfig L now c w).2.2 := by
  cases hs : c.configState with
  | Waiting => rw [checkConfig_waiting L now c w hs]; exact framed_refl _ w
  | Ready => rw [checkConfig_ready L now c w hs]; exact doReady_framed _ c w
  | Verify => rw [checkConfig_verify L now c w hs]; exact doVerify_framed c w
  | Set => rw [checkConfig_set L now c w hs]; exact doSet_framed L c w
  | Middle => rw [checkConfig_middle L now c w hs]; exact doMiddle_framed c w
  | Speed => rw [checkConfig_speed L now c w hs]; exact doSpeed_framed L c w h0
  | TresholdStraight =>
    rw [checkConfig_straight L now c w hs]; exact doTresholdStraight_framed L now c w h0
  | TresholdDiverging =>
    rw [checkConfig_diverging L now c w hs]; exact doTresholdDiverging_framed L now c w h0

/-! ## The session: what a poll without the commit bit can write -/

/-- C38. Nothing is persisted to the calibration without the commit bit: for every session
state and every world, a `checkConfig` poll with F0 off changes no cell below
EEPROM_BOOTS_INDEX, so no cell of the CV region (START_INDEX_SERVO_CVS up to
START_INDEX_SERVO_CURVES - 1) and no curve byte; when the position store has a generation in
1..SIZE_CIRCULAR_BUFFER and the selected servo object a number below NUMBER_OF_SERVOS, it
changes no cell from EEPROM_SIZE on either, so the only cells it can change are the generation
counter and the cells of the position buffer. -/
theorem no_calibration_write_without_commit (L : Lib) (now : Nat) (c : Configure) (w : World)
    (h0 : c.F0 = 0) :
    (∀ a, START_INDEX_SERVO_CVS ≤ a → a < START_INDEX_SERVO_CURVES →
      (Configure.checkConfig L now c w).2.2.eeprom.read a = w.eeprom.read a) ∧
    (∀ a, a < EEPROM_BOOTS_INDEX →
      (Configure.checkConfig L now c w).2.2.eeprom.read a = w.eeprom.read a) ∧
    (1 ≤ w.storedPositions.numberOfBoots →
      w.storedPositions.numberOfBoots ≤ SIZE_CIRCULAR_BUFFER →
      (w.servo c.selectedServo).servoNumber < NUMBER_OF_SERVOS →
      ∀ a, EEPROM_SIZE ≤ a →
        (Configure.checkConfig L now c w).2.2.eeprom.read a = w.eeprom.read a) := by
  obtain ⟨f1, f2⟩ := checkConfig_framed L now c w h0
  have hcurves : START_INDEX_SERVO_CURVES = 101 := by decide
  refine ⟨?_, ?_, ?_⟩
  · intro a _ ha
    rw [hcurves] at ha
    exact f1 a (by omega)
  · intro a ha
    rw [EEPROM_BOOTS_INDEX_eq] at ha
    exact f1 a ha
  · intro g1 g2 hn a ha
    rw [SIZE_CIRCULAR_BUFFER_eq] at g2
    rw [EEPROM_SIZE_eq] at ha
    exact (f2 ⟨g1, g2, hn⟩).1 a ha

theorem no_calibration_write_without_commit_witness :
    (Configure.checkConfig Lib.sample 100 (Configure.sampleSet 1 4)
      World.sample).2.2.eeprom.read (START_INDEX_SERVO_CVS + Speed) =
      World.sample.eeprom.read (START_INDEX_SERVO_CVS + Speed) :=
  (no_calibration_write_without_commit Lib.sample 100 (Configure.sampleSet 1 4) World.sample
    (by decide)).1 (START_INDEX_SERVO_CVS + Speed) (by decide) (by decide)

end AVRServo
